import Mathlib

/-!
Drop Ball results page (`static/js/results.js`)

A shallow embedding of the data-handling part of the results page: the
payload check of `loadResultsData`, the failure handler of the same function,
`populateImpactAnalysis` and `generateInsights`.

JavaScript values are embedded as the type `JVal`.  A number of a payload is
the rational value of its double: every finite double is a rational and every
comparison against a literal is exact.  The result of a numeric coercion is an
`Option ℚ`, with `none` standing for `NaN`; a coercion throws when the
conversion of an object to a primitive does.  The one arithmetic operation of
the program that rounds, the product of line 253, is computed as the engine
does, in the binary64 format with round to nearest, ties to even; its result is
a `JNumber`, which has the two infinities.
-/

namespace DropBall

/-! ## Values -/

/-- A JavaScript value as it can occur in a parsed payload or as the result of
reading a property of one. -/
inductive JVal where
  | undefined : JVal
  | null : JVal
  | bool (b : Bool) : JVal
  | num (q : ℚ) : JVal
  | str (s : String) : JVal
  | arr (xs : List JVal) : JVal
  | obj (kvs : List (String × JVal)) : JVal

/-- An exception value. `error m` is `new Error(m)`; the other three are the
engine's own `TypeError`, `ReferenceError` (with the unresolved identifier) and
`SyntaxError`. -/
inductive JSError where
  | error (message : String) : JSError
  | typeError : JSError
  | referenceError (ident : String) : JSError
  | syntaxError : JSError
  deriving DecidableEq, Repr

/-- The built-ins of the host engine that the program calls and that are taken
as given: `StringToNumber` (`none` is `NaN`), `Number::toString` on a finite
number, `JSON.parse` (`none` is a `SyntaxError`), and
`JSON.stringify(v, null, 2).substring(0, 200)` on a defined value. -/
structure JSEngine where
  stringToNumber : String → Option ℚ
  numberToString : ℚ → String
  jsonParse : String → Option JVal
  stringifyHead : JVal → String

/-- Own-property lookup in the key/value list of an object. -/
def lookupKey (k : String) : List (String × JVal) → JVal
  | [] => JVal.undefined
  | (k', v) :: rest => if k' = k then v else lookupKey k rest

/-- Property read `v.k` (or `v[k]`) for the property names of the payload:
reading from `undefined` or `null` throws a `TypeError`, an object yields its
own property or `undefined`, and a primitive or an array has none of these
names. -/
def getProp (v : JVal) (k : String) : Except JSError JVal :=
  match v with
  | JVal.undefined => Except.error JSError.typeError
  | JVal.null => Except.error JSError.typeError
  | JVal.obj kvs => Except.ok (lookupKey k kvs)
  | _ => Except.ok JVal.undefined

/-- Result of `ToBoolean`. `NaN` is not a payload value. -/
def truthy : JVal → Bool
  | JVal.undefined => false
  | JVal.null => false
  | JVal.bool b => b
  | JVal.num q => decide (q ≠ 0)
  | JVal.str s => decide (s ≠ "")
  | JVal.arr _ => true
  | JVal.obj _ => true

/-- Expression `v || 0`. -/
def orZero (v : JVal) : JVal :=
  if truthy v then v else JVal.num 0

/-- Expression `v || {}`. -/
def orEmptyObj (v : JVal) : JVal :=
  if truthy v then v else JVal.obj []

mutual
/-- Whether the conversion of a value to a primitive (`ToPrimitive`, and
`ToString` on the elements of an array) throws. The conversion of an object
calls its `valueOf` and `toString`, skipping one that is not callable, and
throws a `TypeError` when neither gives a primitive. No member of a parsed
payload is callable and `Object.prototype.valueOf` returns the object itself,
so the conversion of an object throws exactly when the object has an own
`toString` property, which hides `Object.prototype.toString`. An array is
joined, which converts each of its elements. -/
def conversionThrows : JVal → Bool
  | JVal.obj kvs => kvs.any (fun kv => decide (kv.1 = "toString"))
  | JVal.arr xs => anyConversionThrows xs
  | _ => false
/-- Whether the conversion of an element of the list throws. -/
def anyConversionThrows : List JVal → Bool
  | [] => false
  | x :: xs => conversionThrows x || anyConversionThrows xs
end

/-- Result of `ToNumber` on a value whose conversion to a primitive completes.
An object becomes `"[object Object]"`, which is not numeric; an array is
joined with commas first, so the empty array gives `0`, a one-element array
gives what its element gives as a string, and a longer array is not
numeric. -/
def numericValue (E : JSEngine) : JVal → Option ℚ
  | JVal.undefined => none
  | JVal.null => some 0
  | JVal.bool b => some (if b then 1 else 0)
  | JVal.num q => some q
  | JVal.str s => E.stringToNumber s
  | JVal.obj _ => none
  | JVal.arr [] => some 0
  | JVal.arr [JVal.undefined] => some 0
  | JVal.arr [JVal.null] => some 0
  | JVal.arr [JVal.bool _] => none
  | JVal.arr [JVal.num q] => some q
  | JVal.arr [JVal.str s] => E.stringToNumber s
  | JVal.arr [JVal.obj _] => none
  | JVal.arr [JVal.arr ys] => numericValue E (JVal.arr ys)
  | JVal.arr (_ :: _ :: _) => none

/-- Operation `ToNumber`: it throws a `TypeError` when the conversion of the
value to a primitive does. -/
def toNumber (E : JSEngine) (v : JVal) : Except JSError (Option ℚ) :=
  if conversionThrows v then Except.error JSError.typeError
  else Except.ok (numericValue E v)

/-- Comparison `a > b` of two numbers; `false` when either is `NaN`. -/
def numGt (a b : Option ℚ) : Bool :=
  match a, b with
  | some x, some y => decide (x > y)
  | _, _ => false

/-- Comparison `a < b` of two numbers; `false` when either is `NaN`. -/
def numLt (a b : Option ℚ) : Bool :=
  match a, b with
  | some x, some y => decide (x < y)
  | _, _ => false

/-- Comparison `a >= b` of two numbers; `false` when either is `NaN`. -/
def numGe (a b : Option ℚ) : Bool :=
  match a, b with
  | some x, some y => decide (x ≥ y)
  | _, _ => false

/-- Expression `v > c` for a value `v` and a number `c`. -/
def jsGt (E : JSEngine) (v : JVal) (c : Option ℚ) : Except JSError Bool := do
  let x ← toNumber E v
  pure (numGt x c)

/-- Expression `v < c` for a value `v` and a number `c`. -/
def jsLt (E : JSEngine) (v : JVal) (c : Option ℚ) : Except JSError Bool := do
  let x ← toNumber E v
  pure (numLt x c)

/-- Expression `v >= c` for a value `v` and a number `c`. -/
def jsGe (E : JSEngine) (v : JVal) (c : Option ℚ) : Except JSError Bool := do
  let x ← toNumber E v
  pure (numGe x c)

/-- Function `Math.abs` applied to a value. -/
def mathAbs (E : JSEngine) (v : JVal) : Except JSError (Option ℚ) := do
  let x ← toNumber E v
  pure (x.map (fun q => |q|))

/-- Function `Math.max` of two values: both are converted, in order. -/
def mathMax (E : JSEngine) (a b : JVal) : Except JSError (Option ℚ) := do
  let x ← toNumber E a
  let y ← toNumber E b
  pure (match x, y with
    | some x, some y => some (max x y)
    | _, _ => none)

/-! ## Arithmetic of the Number type -/

/-- A result of an arithmetic operation: a finite number, one of the two
infinities or `NaN`. The two zeros are not told apart: no operation of the
program does. -/
inductive JNumber where
  | finite (q : ℚ) : JNumber
  | posInf : JNumber
  | negInf : JNumber
  | nan : JNumber
  deriving DecidableEq, Repr

/-- A number that is finite or `NaN`, as a `JNumber`. -/
def ofOption : Option ℚ → JNumber
  | none => JNumber.nan
  | some q => JNumber.finite q

/-- The number of halvings that take `n` below 2: the largest `k` with
`2 ^ k ≤ n`, for a positive `n` and a fuel of at least that `k`. -/
def log2Fuel : Nat → Nat → Nat
  | 0, _ => 0
  | fuel + 1, n => if 2 ≤ n then log2Fuel fuel (n / 2) + 1 else 0

/-- The largest integer `e` with `2 ^ e ≤ n / d`, for positive `n` and `d`:
the difference `k` of the bit lengths has `2 ^ (k - 1) < n / d < 2 ^ (k + 1)`. -/
def floorLog2 (n d : Nat) : Int :=
  let k : Int := (log2Fuel n n : Int) - (log2Fuel d d : Int)
  if d * 2 ^ k.toNat ≤ n * 2 ^ (-k).toNat then k else k - 1

/-- The value of the binary64 format that represents a rational (IEEE 754
round to nearest, ties to even, the rounding of every arithmetic operation of
the engine). With `e` the exponent of the rational, and -1022 for a rational
below `2 ^ (-1022)`, the values of the format around it are the multiples of
`2 ^ (e - 52)`: the result is the nearest multiple `m * 2 ^ (e - 52)`, the one
with an even `m` on a tie, and an infinity when that is `2 ^ 1024` or more. -/
def roundDouble (q : ℚ) : JNumber :=
  if q = 0 then JNumber.finite 0
  else
    let n := q.num.natAbs
    let d := q.den
    let s : Int := max (floorLog2 n d) (-1022) - 52
    let scaledNum := n * 2 ^ (-s).toNat
    let scaledDen := d * 2 ^ s.toNat
    let m0 := scaledNum / scaledDen
    let r := scaledNum % scaledDen
    let m := if 2 * r < scaledDen then m0
      else if scaledDen < 2 * r then m0 + 1
      else if m0 % 2 = 0 then m0 else m0 + 1
    if 2 ^ 1024 ≤ m * 2 ^ s.toNat then (if 0 < q then JNumber.posInf else JNumber.negInf)
    else JNumber.finite ((if 0 < q then 1 else -1) * mkRat (m * 2 ^ s.toNat) (2 ^ (-s).toNat))

/-- The value of the literal `0.1`: the binary64 value nearest to one tenth,
`3602879701896397 / 2 ^ 55`. -/
def oneTenth : ℚ := 3602879701896397 / 36028797018963968

/-- Product `a * b` of two numbers (`Number::multiply`): `NaN` when either is
`NaN` or when an infinity meets a zero, an infinity with the sign of the
product when either is an infinity, and the exact product rounded to the
binary64 format otherwise. -/
def numMul (a b : JNumber) : JNumber :=
  match a, b with
  | JNumber.nan, _ => JNumber.nan
  | _, JNumber.nan => JNumber.nan
  | JNumber.finite x, JNumber.finite y => roundDouble (x * y)
  | JNumber.finite x, JNumber.posInf =>
    if x = 0 then JNumber.nan else if 0 < x then JNumber.posInf else JNumber.negInf
  | JNumber.finite x, JNumber.negInf =>
    if x = 0 then JNumber.nan else if 0 < x then JNumber.negInf else JNumber.posInf
  | JNumber.posInf, JNumber.finite y =>
    if y = 0 then JNumber.nan else if 0 < y then JNumber.posInf else JNumber.negInf
  | JNumber.negInf, JNumber.finite y =>
    if y = 0 then JNumber.nan else if 0 < y then JNumber.negInf else JNumber.posInf
  | JNumber.posInf, JNumber.posInf => JNumber.posInf
  | JNumber.posInf, JNumber.negInf => JNumber.negInf
  | JNumber.negInf, JNumber.posInf => JNumber.negInf
  | JNumber.negInf, JNumber.negInf => JNumber.posInf

/-- Comparison `a > b` of two numbers; `false` when either is `NaN`. -/
def numberGt (a b : JNumber) : Bool :=
  match a, b with
  | JNumber.nan, _ => false
  | _, JNumber.nan => false
  | JNumber.finite x, JNumber.finite y => decide (x > y)
  | JNumber.finite _, JNumber.posInf => false
  | JNumber.finite _, JNumber.negInf => true
  | JNumber.posInf, JNumber.posInf => false
  | JNumber.posInf, _ => true
  | JNumber.negInf, _ => false

/-- Conversion of a number to a string in a template literal. -/
def numToString (E : JSEngine) : Option ℚ → String
  | none => "NaN"
  | some q => E.numberToString q

/-! ## `Number.prototype.toFixed` -/

/-- The digits of `toFixed` for a magnitude below `10^21`: `n` is the integer
nearest to `|q| * 10^f`, the larger one on a tie; its decimal digits are
padded on the left with zeros to `f + 1` characters and the point is put before
the last `f`. -/
def fixedDigits (q : ℚ) (f : Nat) : String :=
  let n : Nat := (2 * q.num.natAbs * 10 ^ f + q.den) / (2 * q.den)
  let m : List Char := Nat.toDigits 10 n
  if f = 0 then String.mk m
  else
    let padded := List.replicate (f + 1 - m.length) '0' ++ m
    String.mk (padded.take (padded.length - f) ++ '.' :: padded.drop (padded.length - f))

/-- Method `toFixed(f)` on a finite number. -/
def toFixed (E : JSEngine) (q : ℚ) (f : Nat) : String :=
  let s := if q < 0 then "-" else ""
  let x := |q|
  if x ≥ 10 ^ 21 then s ++ E.numberToString x else s ++ fixedDigits x f

/-- Call `v.toFixed(f)` on a value: only a number has the method. -/
def callToFixed (E : JSEngine) (v : JVal) (f : Nat) : Except JSError String :=
  match v with
  | JVal.num q => Except.ok (toFixed E q f)
  | _ => Except.error JSError.typeError

/-- Call `n.toFixed(f)` on the result of a numeric built-in. -/
def numToFixed (E : JSEngine) (n : Option ℚ) (f : Nat) : String :=
  match n with
  | none => "NaN"
  | some q => toFixed E q f

/-! ## The payload check and the failure handler of `loadResultsData` -/

/-- Condition `!data.fair_game || !data.tweaked_game || !data.comparison`
(line 46), evaluated left to right with short-circuit. -/
def missingTopLevel (data : JVal) : Except JSError Bool := do
  let fairGame ← getProp data "fair_game"
  if !truthy fairGame then pure true
  else
    let tweakedGame ← getProp data "tweaked_game"
    if !truthy tweakedGame then pure true
    else
      let comparison ← getProp data "comparison"
      pure (!truthy comparison)

/-- Condition `!data.fair_game.results || !data.tweaked_game.results`
(line 51). -/
def missingResults (data : JVal) : Except JSError Bool := do
  let fairGame ← getProp data "fair_game"
  let fairResults ← getProp fairGame "results"
  if !truthy fairResults then pure true
  else
    let tweakedGame ← getProp data "tweaked_game"
    let tweakedResults ← getProp tweakedGame "results"
    pure (!truthy tweakedResults)

/-- Message of the error of line 47. -/
def missingGameDataMessage : String := "Invalid data structure: missing required game data"

/-- Message of the error of line 52. -/
def missingResultsMessage : String := "Invalid data structure: missing results data"

/-- The two checks of lines 45-53: returns normally when the payload is
accepted and throws otherwise. -/
def validate (data : JVal) : Except JSError Unit := do
  if (← missingTopLevel data) then
    throw (JSError.error missingGameDataMessage)
  if (← missingResults data) then
    throw (JSError.error missingResultsMessage)
  pure ()

/-- The try block of `loadResultsData` up to the call of `displayResults`
(lines 42-55): the parsed payload when the call is reached, the exception
otherwise. -/
def parseAndValidate (E : JSEngine) (simulationData : String) : Except JSError JVal :=
  match E.jsonParse simulationData with
  | none => Except.error JSError.syntaxError
  | some data =>
    match validate data with
    | Except.ok _ => Except.ok data
    | Except.error e => Except.error e

/-- The alert that the failure handler appends to the no-data element: the
exception whose message it shows and the text of
`JSON.stringify(data, null, 2).substring(0, 200)`. -/
structure ErrorDiv where
  cause : JSError
  dump : String

/-- The part of the page that `loadResultsData` writes: the `display` style of
the three state elements, the alerts appended to the no-data element, and the
payloads `displayResults` was called with. -/
structure Page where
  loadingDisplay : String
  noDataDisplay : String
  resultsDisplay : String
  errorDivs : List ErrorDiv
  displayed : List JVal

/-- Function `loadResultsData` (lines 20-75), with the three state elements
present on the page. `stored` is what `sessionStorage.getItem` returns.
`displayResults` catches every exception of its steps (lines 80-98) and is
recorded as the payload it is called with.

The handler (lines 60-74) reads the identifier `data`. The `const data` of
line 42 is scoped to the try block, and neither the catch clause, the function
body nor the module binds that name, so the identifier resolves on the global
object: `globalData` is the value of the global property `data`, `none` when
there is no such property. The result is the page and the exception that
leaves the function, if any. -/
def loadResultsData (E : JSEngine) (globalData : Option JVal) (stored : Option String)
    (page : Page) : Page × Option JSError :=
  let p1 : Page :=
    { page with loadingDisplay := "block", noDataDisplay := "none", resultsDisplay := "none" }
  let noData : Page := { p1 with loadingDisplay := "none", noDataDisplay := "block" }
  match stored with
  | none => (noData, none)
  | some simulationData =>
    if simulationData = "" then (noData, none)
    else
      match parseAndValidate E simulationData with
      | Except.ok data =>
        ({ p1 with displayed := p1.displayed ++ [data],
                   loadingDisplay := "none", resultsDisplay := "block" }, none)
      | Except.error err =>
        match globalData with
        | none => (noData, some (JSError.referenceError "data"))
        | some JVal.undefined => (noData, some JSError.typeError)
        | some v =>
          ({ noData with errorDivs := noData.errorDivs ++ [⟨err, E.stringifyHead v⟩] }, none)

/-! ## `populateImpactAnalysis` -/

/-- One call `safeSetDiff(id, value, className)`: the element id, its text and
its class. -/
structure DiffCell where
  id : String
  text : String
  className : String
  deriving DecidableEq, Repr

/-- Runs the calls in order; a call whose arguments throw stops the function
and the calls made before it stay. -/
def runWrites : List (Except JSError DiffCell) → List DiffCell × Option JSError
  | [] => ([], none)
  | Except.error e :: _ => ([], some e)
  | Except.ok c :: rest => (c :: (runWrites rest).1, (runWrites rest).2)

/-- The win-rate cell (lines 183-187). -/
def winRateDiffCell (E : JSEngine) (comp : JVal) : Except JSError DiffCell := do
  let winRateDiff := orZero (← getProp comp "win_rate_difference")
  let text ← callToFixed E winRateDiff 2
  let nonNegative ← jsGe E winRateDiff (some 0)
  pure ⟨"winRateDiff", text ++ "%",
    "comparison-difference " ++
      (if nonNegative then "positive-difference" else "negative-difference")⟩

/-- The ROI cell (lines 190-194). -/
def roiDiffCell (E : JSEngine) (comp : JVal) : Except JSError DiffCell := do
  let roiDiff := orZero (← getProp comp "roi_difference")
  let sign := if (← jsGe E roiDiff (some 0)) then "+" else ""
  let text ← callToFixed E roiDiff 2
  let nonNegative ← jsGe E roiDiff (some 0)
  pure ⟨"roiDiff", sign ++ text ++ "%",
    "comparison-difference " ++
      (if nonNegative then "positive-difference" else "negative-difference")⟩

/-- The house-edge cell (lines 197-201). -/
def houseEdgeIncreaseCell (E : JSEngine) (comp : JVal) : Except JSError DiffCell := do
  let houseEdgeIncrease := orZero (← getProp comp "house_edge_increase_rate")
  let magnitude ← mathAbs E houseEdgeIncrease
  pure ⟨"houseEdgeIncrease", numToFixed E magnitude 2 ++ "%",
    "comparison-difference " ++ "negative-difference"⟩

/-- The house-profit cell (lines 204-208). -/
def houseProfitIncreaseCell (E : JSEngine) (comp : JVal) : Except JSError DiffCell := do
  let houseProfitIncrease := orZero (← getProp comp "house_profit_increase")
  let sign := if (← jsGe E houseProfitIncrease (some 0)) then "+" else ""
  let magnitude ← mathAbs E houseProfitIncrease
  let nonNegative ← jsGe E houseProfitIncrease (some 0)
  pure ⟨"houseProfitIncrease",
    sign ++ "$" ++ numToFixed E magnitude 2,
    "comparison-difference " ++
      (if nonNegative then "negative-difference" else "positive-difference")⟩

/-- Function `populateImpactAnalysis` (lines 170-209): the `safeSetDiff` calls
it makes and the exception that leaves it, if any. -/
def populateImpactAnalysis (E : JSEngine) (data : JVal) : List DiffCell × Option JSError :=
  match getProp data "comparison" with
  | Except.error e => ([], some e)
  | Except.ok c =>
    let comp := orEmptyObj c
    runWrites [winRateDiffCell E comp, roiDiffCell E comp, houseEdgeIncreaseCell E comp,
      houseProfitIncreaseCell E comp]

/-! ## `generateInsights` -/

/-- Sentence of line 225. -/
def winFairHigher (fairWinRate tweakedWinRate : String) : String :=
  "The Fair Game shows a significantly higher win rate (" ++ fairWinRate ++ "% vs " ++
    tweakedWinRate ++
    "%), indicating the Joker card substantially reduces player winning chances."

/-- Sentence of line 227. -/
def winTweakedHigher : String :=
  "Surprisingly, the Tweaked Game shows a higher win rate, suggesting the Joker card may benefit players in some scenarios."

/-- Sentence of line 229. -/
def winSimilar (fairWinRate tweakedWinRate : String) : String :=
  "Win rates are relatively similar between games (" ++ fairWinRate ++ "% vs " ++
    tweakedWinRate ++ "%), showing minimal impact from the Joker card."

/-- Sentence of line 238. -/
def roiTweakedBetter (tweakedROI fairROI : String) : String :=
  "Tweaked Game provides much better ROI (" ++ tweakedROI ++ "% vs " ++ fairROI ++
    "%), making it significantly more profitable for players."

/-- Sentence of line 240. -/
def roiFairBetter (fairROI tweakedROI : String) : String :=
  "Fair Game provides much better ROI (" ++ fairROI ++ "% vs " ++ tweakedROI ++
    "%), making it significantly more profitable for players."

/-- Sentence of line 246. -/
def houseEdgeDramatic (increase : String) : String :=
  "The Joker card dramatically increases the house edge by " ++ increase ++
    "%, making the Tweaked Game much more profitable for the casino."

/-- Sentence of line 248. -/
def houseEdgeModerate (increase : String) : String :=
  "The Joker card moderately increases casino profitability with a " ++ increase ++
    "% higher house edge."

/-- Sentence of line 255. -/
def profitTweakedMore (amount : String) : String :=
  "The casino profits significantly more from the Tweaked Game ($" ++ amount ++
    " additional profit), demonstrating the effectiveness of the Joker card strategy."

/-- Sentence of line 257. -/
def profitFairMore (amount : String) : String :=
  "Unexpectedly, the Fair Game resulted in more house profit ($" ++ amount ++
    " difference), possibly due to statistical variance."

/-- Sentence of line 266. -/
def deviationLarge (fairDeviation tweakedDeviation : String) : String :=
  "Large deviations between theoretical predictions and actual results (" ++ fairDeviation ++
    "% for Fair, " ++ tweakedDeviation ++
    "% for Tweaked) suggest the simulation may need more rounds for convergence."

/-- Sentence of line 268. -/
def deviationClose (fairDeviation tweakedDeviation : String) : String :=
  "Theoretical predictions closely match actual results, validating the mathematical model (" ++
    fairDeviation ++ "% deviation for Fair, " ++ tweakedDeviation ++ "% for Tweaked)."

/-- Sentence of line 277. -/
def longLosingStreaks (rounds : String) : String :=
  "Long losing streaks observed (up to " ++ rounds ++
    " rounds), highlighting the high variance nature of this gambling game."

/-- Sentence of line 283. -/
def defaultInsight : String :=
  "Both games performed as expected based on their theoretical models."

/-- Sentence of line 288. -/
def errorInsight : String :=
  "Error generating detailed insights. Please review the raw data above."

/-- Win rate analysis (lines 219-230): the strings it pushes. -/
def winRateRule (E : JSEngine) (fair tweaked comp : JVal) : Except JSError (List String) := do
  let fairResults ← getProp fair "results"
  let fairWinRate := orZero (← getProp fairResults "win_rate")
  let tweakedResults ← getProp tweaked "results"
  let tweakedWinRate := orZero (← getProp tweakedResults "win_rate")
  let winRateDiff := orZero (← getProp comp "win_rate_difference")
  if (← jsGt E winRateDiff (some 2)) then
    let a ← callToFixed E fairWinRate 1
    let b ← callToFixed E tweakedWinRate 1
    pure [winFairHigher a b]
  else if (← jsLt E winRateDiff (some (-2))) then
    pure [winTweakedHigher]
  else
    let a ← callToFixed E fairWinRate 1
    let b ← callToFixed E tweakedWinRate 1
    pure [winSimilar a b]

/-- ROI analysis (lines 232-241): the strings it pushes. -/
def roiRule (E : JSEngine) (fair tweaked comp : JVal) : Except JSError (List String) := do
  let fairResults ← getProp fair "results"
  let fairROI := orZero (← getProp fairResults "roi")
  let tweakedResults ← getProp tweaked "results"
  let tweakedROI := orZero (← getProp tweakedResults "roi")
  let roiDiff := orZero (← getProp comp "roi_difference")
  if (← jsGt E roiDiff (some 5)) then
    let a ← callToFixed E tweakedROI 2
    let b ← callToFixed E fairROI 2
    pure [roiTweakedBetter a b]
  else if (← jsLt E roiDiff (some (-5))) then
    let a ← callToFixed E fairROI 2
    let b ← callToFixed E tweakedROI 2
    pure [roiFairBetter a b]
  else
    pure []

/-- House edge analysis (lines 243-249): the strings it pushes. -/
def houseEdgeRule (E : JSEngine) (comp : JVal) : Except JSError (List String) := do
  let houseEdgeIncrease := orZero (← getProp comp "house_edge_increase_rate")
  if (← jsGt E houseEdgeIncrease (some 10)) then
    let a ← callToFixed E houseEdgeIncrease 2
    pure [houseEdgeDramatic a]
  else if (← jsGt E houseEdgeIncrease (some 5)) then
    let a ← callToFixed E houseEdgeIncrease 2
    pure [houseEdgeModerate a]
  else
    pure []

/-- The number `data.bet_amount * data.num_rounds * 0.1` of line 253: the two
operands of the first product are read and then converted, and each product
is rounded to the binary64 format. -/
def profitThreshold (E : JSEngine) (data : JVal) : Except JSError JNumber := do
  let betAmount ← getProp data "bet_amount"
  let numRounds ← getProp data "num_rounds"
  let b ← toNumber E betAmount
  let n ← toNumber E numRounds
  pure (numMul (numMul (ofOption b) (ofOption n)) (JNumber.finite oneTenth))

/-- Profit analysis (lines 251-259): the strings it pushes. -/
def houseProfitRule (E : JSEngine) (data comp : JVal) : Except JSError (List String) := do
  let totalHouseProfitIncrease := orZero (← getProp comp "house_profit_increase")
  let magnitude ← mathAbs E totalHouseProfitIncrease
  let threshold ← profitThreshold E data
  if numberGt (ofOption magnitude) threshold then
    if (← jsGt E totalHouseProfitIncrease (some 0)) then
      let a ← callToFixed E totalHouseProfitIncrease 2
      pure [profitTweakedMore a]
    else
      pure [profitFairMore (numToFixed E (← mathAbs E totalHouseProfitIncrease) 2)]
  else
    pure []

/-- Theoretical vs actual comparison (lines 261-269): the strings it pushes. -/
def deviationRule (E : JSEngine) (fair tweaked : JVal) : Except JSError (List String) := do
  let fairResults ← getProp fair "results"
  let fairDeviation ←
    mathAbs E (orZero (← getProp fairResults "theoretical_vs_actual_deviation"))
  let tweakedResults ← getProp tweaked "results"
  let tweakedDeviation ←
    mathAbs E (orZero (← getProp tweakedResults "theoretical_vs_actual_deviation"))
  if numGt fairDeviation (some 20) || numGt tweakedDeviation (some 20) then
    pure [deviationLarge (numToFixed E fairDeviation 1) (numToFixed E tweakedDeviation 1)]
  else
    pure [deviationClose (numToFixed E fairDeviation 1) (numToFixed E tweakedDeviation 1)]

/-- Streaks analysis (lines 271-279): the strings it pushes. -/
def streakRule (E : JSEngine) (fair tweaked : JVal) : Except JSError (List String) := do
  let fairResults ← getProp fair "results"
  let fairStreaks ← getProp fairResults "streaks"
  if !truthy fairStreaks then pure []
  else
    let tweakedResults ← getProp tweaked "results"
    let tweakedStreaks ← getProp tweakedResults "streaks"
    if !truthy tweakedStreaks then pure []
    else
      let fairMax ← getProp fairStreaks "max_loss_streak"
      let long ←
        if (← jsGt E fairMax (some 10)) then pure true
        else
          let tweakedMax ← getProp tweakedStreaks "max_loss_streak"
          jsGt E tweakedMax (some 10)
      if long then
        let tweakedMax ← getProp tweakedStreaks "max_loss_streak"
        pure [longLosingStreaks (numToString E (← mathMax E fairMax tweakedMax))]
      else
        pure []

/-- The try block of `generateInsights` (lines 219-284): the list `insights`
at its end, or the exception thrown inside it. -/
def insightRules (E : JSEngine) (data fair tweaked comp : JVal) :
    Except JSError (List String) := do
  let r1 ← winRateRule E fair tweaked comp
  let r2 ← roiRule E fair tweaked comp
  let r3 ← houseEdgeRule E comp
  let r4 ← houseProfitRule E data comp
  let r5 ← deviationRule E fair tweaked
  let r6 ← streakRule E fair tweaked
  let insights := r1 ++ r2 ++ r3 ++ r4 ++ r5 ++ r6
  if insights.length = 0 then pure (insights ++ [defaultInsight]) else pure insights

/-- Function `generateInsights` (lines 211-289): the list `insights` that is
turned into HTML. The three reads of lines 212-214 are outside the try block;
whatever is thrown inside it is caught and replaces the list. -/
def generateInsights (E : JSEngine) (data : JVal) : Except JSError (List String) := do
  let fair ← getProp data "fair_game"
  let tweaked ← getProp data "tweaked_game"
  let comp ← getProp data "comparison"
  match insightRules E data fair tweaked comp with
  | Except.ok insights => pure insights
  | Except.error _ => pure [errorInsight]

/-- The reads of lines 212-214 followed by the try block of
`generateInsights`: the list of insights when the block completes, the
exception when it faults. -/
def tryBlock (E : JSEngine) (data : JVal) : Except JSError (List String) := do
  let fair ← getProp data "fair_game"
  let tweaked ← getProp data "tweaked_game"
  let comp ← getProp data "comparison"
  insightRules E data fair tweaked comp

/-! ## `populateGameResults` -/

/-- Optional read `value?.[key]`: `undefined` when `value` is `undefined` or
`null`, the own property of an object, and `undefined` on a primitive or an
array for the property names of the payload. -/
def optionalGet (value : JVal) (key : String) : JVal :=
  match value with
  | JVal.obj kvs => lookupKey key kvs
  | _ => JVal.undefined

/-- Helper `safeGet` (lines 118-126); `keys` is `path.split('.')`. The loop
returns the fallback as soon as a read gives `undefined`, and the last value
read otherwise. -/
def safeGet (obj : JVal) (keys : List String) (fallback : JVal) : JVal :=
  match keys with
  | [] => obj
  | key :: rest =>
    match optionalGet obj key with
    | JVal.undefined => fallback
    | value => safeGet value rest fallback

/-- One call `safeSetWithColor(id, value, colorCondition)`: the element id,
its text, and its colour when a condition is passed. -/
structure ResultCell where
  id : String
  text : String
  color : Option String
  deriving DecidableEq, Repr

/-- Runs calls in order; a call whose arguments throw stops the function and
the calls made before it stay. -/
def runCalls {α : Type} : List (Except JSError α) → List α × Option JSError
  | [] => ([], none)
  | Except.error e :: _ => ([], some e)
  | Except.ok c :: rest => (c :: (runCalls rest).1, (runCalls rest).2)

/-- The six calls for one game (lines 140-152 for `fair`, 155-167 for
`tweaked`); `name` is the prefix of the element ids. -/
def gameResultCalls (E : JSEngine) (name : String) (game : JVal) :
    List (Except JSError ResultCell) :=
  let winRate := safeGet game ["results", "win_rate"] (JVal.num 0)
  let totalProfit := safeGet game ["results", "total_profit"] (JVal.num 0)
  let avgReturn := safeGet game ["results", "average_return"] (JVal.num 0)
  let roi := safeGet game ["results", "roi"] (JVal.num 0)
  let actualHouseEdge := safeGet game ["results", "actual_house_edge"] (JVal.num 0)
  let theoreticalHouseEdge := safeGet game ["theoretical", "house_edge"] (JVal.num 0)
  [ (callToFixed E winRate 1).map (fun t => ⟨name ++ "WinRate", t ++ "%", none⟩),
    (do
      let t ← callToFixed E totalProfit 2
      let nonNegative ← jsGe E totalProfit (some 0)
      pure ⟨name ++ "TotalProfit", "$" ++ t,
        some (if nonNegative then "#28a745" else "#dc3545")⟩),
    (callToFixed E avgReturn 4).map (fun t => ⟨name ++ "AvgProfit", "$" ++ t, none⟩),
    (callToFixed E roi 2).map (fun t => ⟨name ++ "ROI", t ++ "%", none⟩),
    (callToFixed E actualHouseEdge 2).map
      (fun t => ⟨name ++ "ActualHouseEdge", t ++ "%", none⟩),
    (callToFixed E theoreticalHouseEdge 2).map
      (fun t => ⟨name ++ "TheoreticalHouseEdge", t ++ "%", none⟩) ]

/-- Function `populateGameResults` (lines 113-168): the `safeSetWithColor`
calls it makes and the exception that leaves it, if any. -/
def populateGameResults (E : JSEngine) (data : JVal) : List ResultCell × Option JSError :=
  match getProp data "fair_game" with
  | Except.error e => ([], some e)
  | Except.ok fair =>
    match getProp data "tweaked_game" with
    | Except.error e => ([], some e)
    | Except.ok tweaked =>
      runCalls (gameResultCalls E "fair" fair ++ gameResultCalls E "tweaked" tweaked)

/-! ## The comparison summary of `displayResults` in `simulate.js` -/

/-- What lines 88-106 of `displayResults` in `simulate.js` write: the texts of
`profitComparison`, `winRateComparison`, `houseEdgeComparison` and `betterGame`
and the two colours. -/
structure ComparisonSummary where
  profitComparison : String
  profitColor : String
  winRateComparison : String
  houseEdgeComparison : String
  betterGame : String
  betterGameColor : String
  deriving DecidableEq, Repr

/-- Lines 88-106 of `displayResults` in `simulate.js`, with the elements
present on the page: the summary when the six writes are made, and the
exception otherwise. The reads on `data` and on `data.comparison` throw
before any part of the summary is written; the conversion of a field to a
number can throw later, and the writes made before it are not represented. -/
def comparisonSummary (E : JSEngine) (data : JVal) : Except JSError ComparisonSummary := do
  let _fair ← getProp data "fair_game"
  let _tweaked ← getProp data "tweaked_game"
  let comp ← getProp data "comparison"
  let profitDiff ← getProp comp "profit_difference"
  let profitColor := if (← jsGe E profitDiff (some 0)) then "#28a745" else "#dc3545"
  let profitMagnitude ← mathAbs E profitDiff
  let winRateDifference ← getProp comp "win_rate_difference"
  let winRateMagnitude ← mathAbs E winRateDifference
  let houseEdgeDifference ← getProp comp "house_edge_difference"
  let houseEdgeMagnitude ← mathAbs E houseEdgeDifference
  let fairBetter ← getProp comp "fair_better"
  pure
    { profitComparison := "$" ++ numToFixed E profitMagnitude 2
      profitColor := profitColor
      winRateComparison := numToFixed E winRateMagnitude 2 ++ "%"
      houseEdgeComparison := numToFixed E houseEdgeMagnitude 2 ++ "%"
      betterGame := if truthy fairBetter then "Fair Game" else "Tweaked Game"
      betterGameColor := if truthy fairBetter then "#2E86AB" else "#A23B72" }

/-! ## Chart configurations

The render functions of `results.js` pass a configuration to `new Chart`.
The labels and the two data series of that configuration are embedded here;
colours and chart options are left out. The time-series functions receive
arrays and the category functions receive JSON objects, given by their
entries. -/

/-- Labels `Array.from({length: maxLength}, (_, i) => i + 1)` with
`maxLength = Math.max(fair.length, tweaked.length)` (lines 354-355 and
499-500). -/
def timeSeriesLabels (fair tweaked : List JVal) : List Nat :=
  (List.range (max fair.length tweaked.length)).map (fun i => i + 1)

/-- The labels and the two data series of a line chart. -/
structure LineChartConfig where
  labels : List Nat
  fairLabel : String
  fairData : List JVal
  tweakedLabel : String
  tweakedData : List JVal
  yTitle : String

/-- Configuration built by `renderProfitChart` (lines 354-394). -/
def profitChartConfig (fairProfit tweakedProfit : List JVal) : LineChartConfig :=
  { labels := timeSeriesLabels fairProfit tweakedProfit
    fairLabel := "Fair Game"
    fairData := fairProfit
    tweakedLabel := "Tweaked Game"
    tweakedData := tweakedProfit
    yTitle := "Cumulative Profit ($)" }

/-- Configuration built by `renderRoiChart` (lines 499-539). -/
def roiChartConfig (fairRoi tweakedRoi : List JVal) : LineChartConfig :=
  { labels := timeSeriesLabels fairRoi tweakedRoi
    fairLabel := "Fair Game"
    fairData := fairRoi
    tweakedLabel := "Tweaked Game"
    tweakedData := tweakedRoi
    yTitle := "ROI (%)" }

/-- The UTF-16 code units of a string, which JavaScript compares. -/
def utf16Units : List Char → List Nat
  | [] => []
  | c :: cs =>
    (if c.toNat < 65536 then [c.toNat]
     else [55296 + (c.toNat - 65536) / 1024, 56320 + (c.toNat - 65536) % 1024])
      ++ utf16Units cs

/-- Whether a sequence of code units is at most another in lexicographic
order. -/
def unitsLe : List Nat → List Nat → Bool
  | [], _ => true
  | _ :: _, [] => false
  | a :: as, b :: bs => if a < b then true else if b < a then false else unitsLe as bs

/-- The order of the default comparison of `Array.prototype.sort` on strings:
`a` does not come after `b`. -/
def sortsBefore (a b : String) : Prop := unitsLe (utf16Units a.data) (utf16Units b.data) = true

instance (a b : String) : Decidable (sortsBefore a b) := by
  unfold sortsBefore
  exact inferInstance

/-- The keys of `Object.keys` on a JSON object, each once. -/
def objectKeys (entries : List (String × JVal)) : List String :=
  (entries.map Prod.fst).dedup

/-- Whether the object has the key as an own property. -/
def hasKey (entries : List (String × JVal)) (k : String) : Bool :=
  entries.any (fun kv => decide (kv.1 = k))

/-- The property names every object inherits from `Object.prototype`. -/
def objectPrototypeNames : List String :=
  ["constructor", "hasOwnProperty", "isPrototypeOf", "propertyIsEnumerable", "toLocaleString",
   "toString", "valueOf", "__proto__", "__defineGetter__", "__defineSetter__",
   "__lookupGetter__", "__lookupSetter__"]

/-- An entry of a data series: a value of the payload, or the member of
`Object.prototype` with the given name, which is not a JSON value. -/
inductive ChartValue where
  | value (v : JVal) : ChartValue
  | inherited (name : String) : ChartValue

/-- Expression `freq[card] || 0` on a JSON object: the own property when the
object has the key, the inherited member (a function or an object, so truthy)
when the key names one, and `0` in place of `undefined` and other falsy
values. -/
def countOrZero (freq : List (String × JVal)) (card : String) : ChartValue :=
  if hasKey freq card then ChartValue.value (orZero (lookupKey card freq))
  else if card ∈ objectPrototypeNames then ChartValue.inherited card
  else ChartValue.value (JVal.num 0)

/-- Labels `[...new Set([...Object.keys(fair), ...Object.keys(tweaked)])].sort()`
(lines 444-445). The engine's order of the keys and of the set is not
represented: the sort that follows makes the order of its input immaterial. -/
def categoryLabels (fair tweaked : List (String × JVal)) : List String :=
  List.insertionSort sortsBefore ((objectKeys fair ++ objectKeys tweaked).dedup)

/-- The labels and the two data series of a bar chart over card labels. -/
structure BarChartConfig where
  labels : List String
  fairLabel : String
  fairData : List ChartValue
  tweakedLabel : String
  tweakedData : List ChartValue

/-- The configuration shared by the four category charts (lines 444-468,
606-630, 660-684 and 714-738). -/
def categoryChartConfig (fair tweaked : List (String × JVal)) : BarChartConfig :=
  let labels := categoryLabels fair tweaked
  { labels := labels
    fairLabel := "Fair Game"
    fairData := labels.map (fun card => countOrZero fair card)
    tweakedLabel := "Tweaked Game"
    tweakedData := labels.map (fun card => countOrZero tweaked card) }

/-- Configuration built by `renderCardFreqChart` (lines 444-490). -/
def cardFreqChartConfig (fairFreq tweakedFreq : List (String × JVal)) : BarChartConfig :=
  categoryChartConfig fairFreq tweakedFreq

/-- Configuration built by `renderSingleBallChart` (lines 606-650). -/
def singleBallChartConfig (fairSingle tweakedSingle : List (String × JVal)) : BarChartConfig :=
  categoryChartConfig fairSingle tweakedSingle

/-- Configuration built by `renderDoubleBallChart` (lines 660-704). -/
def doubleBallChartConfig (fairDouble tweakedDouble : List (String × JVal)) : BarChartConfig :=
  categoryChartConfig fairDouble tweakedDouble

/-- Configuration built by `renderTripleBallChart` (lines 714-758). -/
def tripleBallChartConfig (fairTriple tweakedTriple : List (String × JVal)) : BarChartConfig :=
  categoryChartConfig fairTriple tweakedTriple

/-! ## Vocabulary of the properties -/

/-- The value of `v.k`, and `undefined` when `v` itself is `undefined` or
`null`. -/
def peek (v : JVal) (k : String) : JVal :=
  match getProp v k with
  | Except.ok x => x
  | Except.error _ => JVal.undefined

/-- Whether the value is a JSON object. -/
def isObject : JVal → Bool
  | JVal.obj _ => true
  | _ => false

/-- The first sixteen characters of a sentence; they tell the sentences of
`generateInsights` apart. -/
def sentenceKey (s : String) : List Char := s.data.take 16

/-- The rule of `generateInsights` a sentence belongs to, read off its first
sixteen characters: 1 win rate, 2 ROI, 3 house edge, 4 house profit,
5 deviation, 6 streaks, and 0 for any other text. -/
def insightRule (s : String) : Nat :=
  let key := sentenceKey s
  if key = "The Fair Game sh".data ∨ key = "Surprisingly, th".data
      ∨ key = "Win rates are re".data then 1
  else if key = "Tweaked Game pro".data ∨ key = "Fair Game provid".data then 2
  else if key = "The Joker card d".data ∨ key = "The Joker card m".data then 3
  else if key = "The casino profi".data ∨ key = "Unexpectedly, th".data then 4
  else if key = "Large deviations".data ∨ key = "Theoretical pred".data then 5
  else if key = "Long losing stre".data then 6
  else 0

/-- The comparison field `comp.k || 0` of a payload. -/
def comparisonField (data : JVal) (k : String) : Except JSError JVal := do
  let comp ← getProp data "comparison"
  let v ← getProp comp k
  pure (orZero v)

/-- Whether a comparison completes and gives `true`. -/
def holds (c : Except JSError Bool) : Bool :=
  match c with
  | Except.ok b => b
  | Except.error _ => false

/-- The value of `b * n * 0.1` for two numbers `b` and `n`, as line 253
computes it: the product of `b` and `n` rounded to the binary64 format, times
the value of the literal `0.1`, rounded again. -/
def thresholdOf (b n : ℚ) : JNumber :=
  numMul (numMul (JNumber.finite b) (JNumber.finite n)) (JNumber.finite oneTenth)

/-- The field `variant.results.k || 0` of one of the two games. -/
def resultsField (data : JVal) (variant k : String) : Except JSError JVal := do
  let game ← getProp data variant
  let results ← getProp game "results"
  let v ← getProp results k
  pure (orZero v)

/-! ## Sample payloads -/

/-- Result block of one game with the given figures. -/
def sampleGame (winRate roi deviation : ℚ) : JVal :=
  JVal.obj [("results", JVal.obj [("win_rate", JVal.num winRate), ("roi", JVal.num roi),
    ("theoretical_vs_actual_deviation", JVal.num deviation)])]

/-- Comparison block with the given figures. -/
def sampleComparison (winRateDiff roiDiff houseEdge houseProfit : ℚ) : JVal :=
  JVal.obj [("win_rate_difference", JVal.num winRateDiff), ("roi_difference", JVal.num roiDiff),
    ("house_edge_increase_rate", JVal.num houseEdge), ("house_profit_increase", JVal.num houseProfit)]

/-- A complete payload with the given comparison: one hundred rounds at a bet
of one. -/
def payloadWith (comparison : JVal) : JVal :=
  JVal.obj [("num_rounds", JVal.num 100), ("bet_amount", JVal.num 1),
    ("fair_game", sampleGame 55 2 3), ("tweaked_game", sampleGame 50 1 3),
    ("comparison", comparison)]

/-- A complete payload: the win-rate gap is 5 and the house profit increase
is 1000. -/
def samplePayload : JVal := payloadWith (sampleComparison 5 0 0 1000)

/-- The sample payload with a house profit increase of 5 instead of 1000. -/
def payloadSmallProfit : JVal := payloadWith (sampleComparison 5 0 0 5)

/-- The insights of the sample payload. -/
def sampleInsights : List String :=
  ["The Fair Game shows a significantly higher win rate (55.0% vs 50.0%), indicating the Joker card substantially reduces player winning chances.",
   "The casino profits significantly more from the Tweaked Game ($1000.00 additional profit), demonstrating the effectiveness of the Joker card strategy.",
   "Theoretical predictions closely match actual results, validating the mathematical model (3.0% deviation for Fair, 3.0% for Tweaked)."]

/-- The insights of the sample payload with the small house profit
increase. -/
def smallProfitInsights : List String :=
  ["The Fair Game shows a significantly higher win rate (55.0% vs 50.0%), indicating the Joker card substantially reduces player winning chances.",
   "Theoretical predictions closely match actual results, validating the mathematical model (3.0% deviation for Fair, 3.0% for Tweaked)."]

/-- The binary64 value 0.30000000000000004, next above three tenths. -/
def threeTenthsRounded : ℚ := 5404319552844596 / 18014398509481984

/-- A payload of three rounds at a bet of one whose house profit increase is
0.30000000000000004. -/
def payloadThreeRounds : JVal :=
  JVal.obj [("num_rounds", JVal.num 3), ("bet_amount", JVal.num 1),
    ("fair_game", sampleGame 55 2 3), ("tweaked_game", sampleGame 50 1 3),
    ("comparison", sampleComparison 5 0 0 threeTenthsRounded)]

/-- An object with an own `toString` property, as `JSON.parse` gives it for
the text `{"toString": 1}`. -/
def objectWithToString : JVal := JVal.obj [("toString", JVal.num 1)]

/-- The sample payload with such an object as `win_rate_difference`. -/
def payloadObjectDifference : JVal :=
  payloadWith (JVal.obj [("win_rate_difference", objectWithToString)])

/-- The sample payload with such an object as `house_edge_increase_rate`. -/
def payloadObjectHouseEdge : JVal :=
  payloadWith (JVal.obj [("house_edge_increase_rate", objectWithToString)])

/-- The sample payload without its `fair_game`. -/
def payloadWithoutFair : JVal :=
  JVal.obj [("num_rounds", JVal.num 100), ("bet_amount", JVal.num 1),
    ("tweaked_game", sampleGame 50 1 3), ("comparison", sampleComparison 5 0 0 1000)]

/-- The sample payload without its `tweaked_game`. -/
def payloadWithoutTweaked : JVal :=
  JVal.obj [("num_rounds", JVal.num 100), ("bet_amount", JVal.num 1),
    ("fair_game", sampleGame 55 2 3), ("comparison", sampleComparison 5 0 0 1000)]

/-- The sample payload without its `comparison`; both result blocks are
there. -/
def payloadWithoutComparison : JVal :=
  JVal.obj [("num_rounds", JVal.num 100), ("bet_amount", JVal.num 1),
    ("fair_game", sampleGame 55 2 3), ("tweaked_game", sampleGame 50 1 3)]

/-- An engine for running the definitions on the sample payloads: its
`JSON.parse` knows four stored texts, and no string is numeric. -/
def sampleEngine : JSEngine where
  stringToNumber := fun _ => none
  numberToString := fun q => toString q
  jsonParse := fun text =>
    if text = "sample" then some samplePayload
    else if text = "without comparison" then some payloadWithoutComparison
    else if text = "{}" then some (JVal.obj [])
    else none
  stringifyHead := fun _ => ""

/-- A page before `loadResultsData` runs. -/
def blankPage : Page := ⟨"block", "none", "none", [], []⟩

/-! ## Vocabulary and samples for the later properties -/

/-- The field `variant.results.k` of one of the two games, as stored. -/
def resultsValue (data : JVal) (variant k : String) : Except JSError JVal := do
  let game ← getProp data variant
  let results ← getProp game "results"
  getProp results k

/-- Whether the text `t` occurs in the string `s`. -/
def containsText (s t : String) : Bool :=
  s.data.tails.any (fun u => t.data.isPrefixOf u)

/-- Result block of one game with streak data. -/
def sampleGameWithStreaks (winRate roi deviation maxLoss : ℚ) : JVal :=
  JVal.obj [("results", JVal.obj [("win_rate", JVal.num winRate), ("roi", JVal.num roi),
    ("theoretical_vs_actual_deviation", JVal.num deviation),
    ("streaks", JVal.obj [("max_win_streak", JVal.num 4), ("max_loss_streak", JVal.num maxLoss)])])]

/-- A complete payload with streak data: the longest losing streaks are 12
rounds (fair) and 8 rounds (tweaked). -/
def payloadWithStreaks : JVal :=
  JVal.obj [("num_rounds", JVal.num 100), ("bet_amount", JVal.num 1),
    ("fair_game", sampleGameWithStreaks 55 2 3 12),
    ("tweaked_game", sampleGameWithStreaks 50 1 3 8),
    ("comparison", sampleComparison 5 0 0 5)]

/-- The insights of the payload with streak data. -/
def streakInsights : List String :=
  ["The Fair Game shows a significantly higher win rate (55.0% vs 50.0%), indicating the Joker card substantially reduces player winning chances.",
   "Theoretical predictions closely match actual results, validating the mathematical model (3.0% deviation for Fair, 3.0% for Tweaked).",
   "Long losing streaks observed (up to 12 rounds), highlighting the high variance nature of this gambling game."]

/-- The sample payload with other figures in the two result blocks; the
comparison, the bet and the number of rounds are those of the sample
payload. -/
def payloadOtherFigures : JVal :=
  JVal.obj [("num_rounds", JVal.num 100), ("bet_amount", JVal.num 1),
    ("fair_game", sampleGame 60 9 3), ("tweaked_game", sampleGame 40 4 3),
    ("comparison", sampleComparison 5 0 0 1000)]

/-- The insights of the payload with the other figures. -/
def otherFiguresInsights : List String :=
  ["The Fair Game shows a significantly higher win rate (60.0% vs 40.0%), indicating the Joker card substantially reduces player winning chances.",
   "The casino profits significantly more from the Tweaked Game ($1000.00 additional profit), demonstrating the effectiveness of the Joker card strategy.",
   "Theoretical predictions closely match actual results, validating the mathematical model (3.0% deviation for Fair, 3.0% for Tweaked)."]

/-- A game block whose `results.win_rate` is `null`; the other figures are
numbers. -/
def gameWithNullWinRate : JVal :=
  JVal.obj [("results", JVal.obj [("win_rate", JVal.null), ("total_profit", JVal.num 12),
      ("average_return", JVal.num 1), ("roi", JVal.num 2), ("actual_house_edge", JVal.num 3)]),
    ("theoretical", JVal.obj [("house_edge", JVal.num 4)])]

/-- A payload that passes the check of `loadResultsData` and whose
`fair_game.results.win_rate` is `null`. -/
def payloadNullWinRate : JVal :=
  JVal.obj [("num_rounds", JVal.num 100), ("bet_amount", JVal.num 1),
    ("fair_game", gameWithNullWinRate), ("tweaked_game", sampleGame 50 1 3),
    ("comparison", sampleComparison 5 0 0 5)]

/-- A payload that passes the check of `loadResultsData` with every numeric
field of the two games missing: the fair game has no `theoretical` block and
the one of the tweaked game is `null`. -/
def payloadMissingFields : JVal :=
  JVal.obj [("num_rounds", JVal.num 100), ("bet_amount", JVal.num 1),
    ("fair_game", JVal.obj [("results", JVal.obj [("wins", JVal.num 1)])]),
    ("tweaked_game", JVal.obj [("results", JVal.obj [("wins", JVal.num 1)]),
      ("theoretical", JVal.null)]),
    ("comparison", sampleComparison 5 0 0 5)]

/-- Card counts of a fair game. -/
def sampleFairCards : List (String × JVal) := [("King", JVal.num 2), ("Ace", JVal.num 3)]

/-- Card counts of a tweaked game. -/
def sampleTweakedCards : List (String × JVal) := [("Joker", JVal.num 4), ("Ace", JVal.num 1)]

/-! ## `renderCharts` and the chart instances

The eight render functions share one shape: look up the mount point and
return when it is absent, destroy the chart held in the module-level handle,
build the configuration, and store the chart made by `new Chart` in the
handle. The handles and the charts that have been made and not destroyed are
explicit state. -/

/-- The eight charts, named after their handles (line 9). -/
inductive ChartId where
  | profit | roi | houseEdge | hits | singleBall | doubleBall | tripleBall | cardFreq
  deriving DecidableEq, Repr

/-- The order in which `renderCharts` calls the render functions (lines
334-341). -/
def builderOrder : List ChartId :=
  [ChartId.profit, ChartId.roi, ChartId.houseEdge, ChartId.hits, ChartId.singleBall,
   ChartId.doubleBall, ChartId.tripleBall, ChartId.cardFreq]

/-- The labels and data of the configuration one render function passes to
`new Chart`. The house-edge chart has the two theoretical and the two actual
values (lines 557 and 564), the hits chart the four counts of each game (lines
412 and 418). -/
inductive ChartSpec where
  | line (c : LineChartConfig) : ChartSpec
  | bar (c : BarChartConfig) : ChartSpec
  | houseEdge (theoretical actual : List JVal) : ChartSpec
  | hits (fair tweaked : List JVal) : ChartSpec

/-- The local constants of `renderCharts` (lines 308-332), for a payload
whose visualisation fields have the shapes of the data model. -/
structure ChartArgs where
  fairProfit : List JVal
  tweakedProfit : List JVal
  fairRoi : List JVal
  tweakedRoi : List JVal
  fairHits : List JVal
  tweakedHits : List JVal
  fairFreq : List (String × JVal)
  tweakedFreq : List (String × JVal)
  fairSingle : List (String × JVal)
  tweakedSingle : List (String × JVal)
  fairDouble : List (String × JVal)
  tweakedDouble : List (String × JVal)
  fairTriple : List (String × JVal)
  tweakedTriple : List (String × JVal)
  fairTheoreticalHE : JVal
  tweakedTheoreticalHE : JVal
  fairActualHE : JVal
  tweakedActualHE : JVal

/-- Expression `v || []` for a series: the array, or the empty array when the
field is absent or falsy. A truthy value that is not an array is outside the
data model and is not represented (`none`). -/
def seriesArg (v : JVal) : Option (List JVal) :=
  match v with
  | JVal.arr xs => some xs
  | _ => if truthy v then none else some []

/-- Expression `v || [0, 0, 0, 0]` for the hits distribution, with the same
convention. -/
def hitsArg (v : JVal) : Option (List JVal) :=
  match v with
  | JVal.arr xs => some xs
  | _ => if truthy v then none
    else some [JVal.num 0, JVal.num 0, JVal.num 0, JVal.num 0]

/-- Expression `v || {}` for a card-to-count object: its entries, or none when
the field is absent or falsy. A truthy value that is not an object is outside
the data model and is not represented (`none`). -/
def mappingArg (v : JVal) : Option (List (String × JVal)) :=
  match v with
  | JVal.obj kvs => some kvs
  | _ => if truthy v then none else some []

/-- Lines 301-332 of `renderCharts`. The reads of `data`, `fair` and `tweaked`
throw when the value read from is `undefined` or `null`; no later read throws.
The result is `none` when a visualisation field is outside the data model. -/
def chartArguments (data : JVal) : Except JSError (Option ChartArgs) := do
  let fair ← getProp data "fair_game"
  let tweaked ← getProp data "tweaked_game"
  let fairViz := orEmptyObj (← getProp fair "visualizations")
  let tweakedViz := orEmptyObj (← getProp tweaked "visualizations")
  pure (do
    let fairProfit ← seriesArg (peek fairViz "cumulative_profit")
    let tweakedProfit ← seriesArg (peek tweakedViz "cumulative_profit")
    let fairRoi ← seriesArg (peek fairViz "roi_over_time")
    let tweakedRoi ← seriesArg (peek tweakedViz "roi_over_time")
    let fairHits ← hitsArg (optionalGet (peek fair "results") "hits_distribution")
    let tweakedHits ← hitsArg (optionalGet (peek tweaked "results") "hits_distribution")
    let fairFreq ← mappingArg (peek fairViz "card_frequencies")
    let tweakedFreq ← mappingArg (peek tweakedViz "card_frequencies")
    let fairSingle ← mappingArg (peek fairViz "single_hit_cards")
    let tweakedSingle ← mappingArg (peek tweakedViz "single_hit_cards")
    let fairDouble ← mappingArg (peek fairViz "double_hit_cards")
    let tweakedDouble ← mappingArg (peek tweakedViz "double_hit_cards")
    let fairTriple ← mappingArg (peek fairViz "triple_hit_cards")
    let tweakedTriple ← mappingArg (peek tweakedViz "triple_hit_cards")
    pure
      { fairProfit := fairProfit, tweakedProfit := tweakedProfit, fairRoi := fairRoi,
        tweakedRoi := tweakedRoi, fairHits := fairHits, tweakedHits := tweakedHits,
        fairFreq := fairFreq, tweakedFreq := tweakedFreq, fairSingle := fairSingle,
        tweakedSingle := tweakedSingle, fairDouble := fairDouble,
        tweakedDouble := tweakedDouble, fairTriple := fairTriple,
        tweakedTriple := tweakedTriple,
        fairTheoreticalHE := orZero (optionalGet (peek fair "theoretical") "house_edge"),
        tweakedTheoreticalHE := orZero (optionalGet (peek tweaked "theoretical") "house_edge"),
        fairActualHE := orZero (optionalGet (peek fair "results") "actual_house_edge"),
        tweakedActualHE := orZero (optionalGet (peek tweaked "results") "actual_house_edge") })

/-- Data `[hits[0] || 0, hits[1] || 0, hits[2] || 0, hits[3] || 0]` of the hits
chart (lines 412 and 418). -/
def hitsData (hits : List JVal) : List JVal :=
  [orZero (hits.getD 0 JVal.undefined), orZero (hits.getD 1 JVal.undefined),
   orZero (hits.getD 2 JVal.undefined), orZero (hits.getD 3 JVal.undefined)]

/-- The configurations of the eight render calls of lines 334-341, in the
order of the calls. -/
def chartSpecs (a : ChartArgs) : List (ChartId × ChartSpec) :=
  [ (ChartId.profit, ChartSpec.line (profitChartConfig a.fairProfit a.tweakedProfit)),
    (ChartId.roi, ChartSpec.line (roiChartConfig a.fairRoi a.tweakedRoi)),
    (ChartId.houseEdge, ChartSpec.houseEdge [a.fairTheoreticalHE, a.tweakedTheoreticalHE]
      [a.fairActualHE, a.tweakedActualHE]),
    (ChartId.hits, ChartSpec.hits (hitsData a.fairHits) (hitsData a.tweakedHits)),
    (ChartId.singleBall, ChartSpec.bar (singleBallChartConfig a.fairSingle a.tweakedSingle)),
    (ChartId.doubleBall, ChartSpec.bar (doubleBallChartConfig a.fairDouble a.tweakedDouble)),
    (ChartId.tripleBall, ChartSpec.bar (tripleBallChartConfig a.fairTriple a.tweakedTriple)),
    (ChartId.cardFreq, ChartSpec.bar (cardFreqChartConfig a.fairFreq a.tweakedFreq)) ]

/-- A chart made by `new Chart`: its number in the order of creation, the
chart it was made for and its configuration. -/
structure ChartInstance where
  id : Nat
  chart : ChartId
  spec : ChartSpec

/-- The state around the render functions: the chart held in each handle
(`none` while the variable is `undefined`), the charts made and not destroyed,
the number of charts made so far, and the render functions called so far. -/
structure ChartState where
  handles : ChartId → Option Nat
  live : List ChartInstance
  created : Nat
  invoked : List ChartId

/-- The state when the page has loaded: no chart has been made. -/
def initialCharts : ChartState :=
  { handles := fun _ => none, live := [], created := 0, invoked := [] }

/-- Statement `if (handle) handle.destroy()` (line 352 and its seven
siblings): the live charts without the one held in the handle of `c`. -/
def destroyHeld (st : ChartState) (c : ChartId) : List ChartInstance :=
  match st.handles c with
  | some held => st.live.filter (fun inst => decide (inst.id ≠ held))
  | none => st.live

/-- One render function, for example `renderProfitChart` (lines 348-395), on
the chart `c` with the configuration `spec`. `mounted c` tells whether the
mount point exists; `fails c` is the exception that the chart library raises
in `new Chart`, if any. The function returns when the mount point is absent;
otherwise it destroys the chart held in the handle and then makes the new
chart. The result is the new state and the exception that leaves the
function, if any. -/
def renderChart (mounted : ChartId → Bool) (fails : ChartId → Option JSError) (c : ChartId)
    (spec : ChartSpec) (st : ChartState) : ChartState × Option JSError :=
  let called : ChartState := { st with invoked := st.invoked ++ [c] }
  if mounted c then
    let remaining := destroyHeld st c
    match fails c with
    | some e => ({ called with live := remaining }, some e)
    | none =>
      ({ handles := fun c' => if c' = c then some st.created else st.handles c'
         live := remaining ++ [⟨st.created, c, spec⟩]
         created := st.created + 1
         invoked := st.invoked ++ [c] }, none)
  else (called, none)

/-- The render calls in sequence (lines 334-341): an exception that leaves one
call ends the sequence. -/
def runBuilders (mounted : ChartId → Bool) (fails : ChartId → Option JSError) :
    List (ChartId × ChartSpec) → ChartState → ChartState × Option JSError
  | [], st => (st, none)
  | (c, spec) :: rest, st =>
    match renderChart mounted fails c spec st with
    | (st1, some e) => (st1, some e)
    | (st1, none) => runBuilders mounted fails rest st1

/-- Function `renderCharts` (lines 299-346). Everything is inside one try
block whose handler reports the exception with `console.error` and `alert`, so
no exception leaves the function: the result is the new state and the
exception reported, if any. It is `none` for a payload with a visualisation
field outside the data model. -/
def renderCharts (mounted : ChartId → Bool) (fails : ChartId → Option JSError)
    (st : ChartState) (data : JVal) : Option (ChartState × Option JSError) :=
  match chartArguments data with
  | Except.error e => some (st, some e)
  | Except.ok none => none
  | Except.ok (some args) => some (runBuilders mounted fails (chartSpecs args) st)

/-- A sequence of `renderCharts` calls, one per payload. -/
def renderAll (mounted : ChartId → Bool) (fails : ChartId → Option JSError) :
    List JVal → ChartState → Option ChartState
  | [], st => some st
  | data :: rest, st =>
    match renderCharts mounted fails st data with
    | none => none
    | some (st1, _) => renderAll mounted fails rest st1

/-- The configurations of the live charts of one chart id. -/
def liveSpecs (st : ChartState) (c : ChartId) : List ChartSpec :=
  (st.live.filter (fun inst => decide (inst.chart = c))).map (fun inst => inst.spec)

/-- The handles and the live charts fit together: a live chart is held in the
handle of its chart id, a handle holds only charts made for its chart id, the
numbers of the charts made are below the counter, and no two live charts have
the same number. -/
def ChartsConsistent (st : ChartState) : Prop :=
  (∀ inst ∈ st.live, st.handles inst.chart = some inst.id) ∧
  (∀ c held, st.handles c = some held → ∀ inst ∈ st.live, inst.id = held → inst.chart = c) ∧
  (∀ c held, st.handles c = some held → held < st.created) ∧
  (∀ inst ∈ st.live, inst.id < st.created) ∧
  (st.live.map (fun inst => inst.id)).Nodup

/-- A game block with visualisation data. -/
def sampleGameWithViz : JVal :=
  JVal.obj [("results", JVal.obj [("win_rate", JVal.num 55), ("roi", JVal.num 2),
      ("actual_house_edge", JVal.num 3),
      ("hits_distribution", JVal.arr [JVal.num 70, JVal.num 20, JVal.num 8, JVal.num 2])]),
    ("theoretical", JVal.obj [("house_edge", JVal.num 4)]),
    ("visualizations", JVal.obj [
      ("cumulative_profit", JVal.arr [JVal.num 1, JVal.num 0, JVal.num 2]),
      ("roi_over_time", JVal.arr [JVal.num 1, JVal.num 0, JVal.num 1]),
      ("card_frequencies", JVal.obj sampleFairCards),
      ("single_hit_cards", JVal.obj sampleFairCards),
      ("double_hit_cards", JVal.obj sampleFairCards),
      ("triple_hit_cards", JVal.obj sampleFairCards)])]

/-- A payload that passes the check of `loadResultsData` and whose
`tweaked_game` has no `visualizations`. -/
def payloadTweakedWithoutViz : JVal :=
  JVal.obj [("num_rounds", JVal.num 100), ("bet_amount", JVal.num 1),
    ("fair_game", sampleGameWithViz), ("tweaked_game", sampleGame 50 1 3),
    ("comparison", sampleComparison 5 0 0 5)]

/-- Every mount point is on the page. -/
def allMounted : ChartId → Bool := fun _ => true

/-- The chart library raises nothing. -/
def noFailure : ChartId → Option JSError := fun _ => none

/-- The chart library raises in `new Chart` of one chart only. -/
def failsOnly (c : ChartId) (e : JSError) : ChartId → Option JSError :=
  fun c' => if c' = c then some e else none

/-! ## Properties -/

theorem bind_eq_ok {α β : Type} (x : Except JSError α) (f : α → Except JSError β) (b : β) :
    (x >>= f) = Except.ok b ↔ ∃ a, x = Except.ok a ∧ f a = Except.ok b := by
  cases x <;> simp [bind, Except.bind]

theorem pure_eq_ok {α : Type} (a b : α) :
    (pure a : Except JSError α) = Except.ok b ↔ a = b := by
  simp [pure, Except.pure]

theorem ok_bind {α β : Type} (a : α) (f : α → Except JSError β) :
    (Except.ok a >>= f) = f a := rfl

theorem error_bind {α β : Type} (e : JSError) (f : α → Except JSError β) :
    ((Except.error e : Except JSError α) >>= f) = Except.error e := rfl

theorem orZero_num (n : ℚ) : orZero (JVal.num n) = JVal.num n := by
  by_cases h : n = 0
  · simp [orZero, truthy, h]
  · simp [orZero, truthy, h]

theorem toNumber_num (E : JSEngine) (q : ℚ) : toNumber E (JVal.num q) = Except.ok (some q) := by
  simp [toNumber, conversionThrows, numericValue]

theorem jsGt_num (E : JSEngine) (d c : ℚ) :
    jsGt E (JVal.num d) (some c) = Except.ok (decide (c < d)) := by
  simp [jsGt, toNumber_num, numGt, bind, Except.bind, pure, Except.pure]

theorem jsLt_num (E : JSEngine) (d c : ℚ) :
    jsLt E (JVal.num d) (some c) = Except.ok (decide (d < c)) := by
  simp [jsLt, toNumber_num, numLt, bind, Except.bind, pure, Except.pure]

theorem jsGe_num (E : JSEngine) (d c : ℚ) :
    jsGe E (JVal.num d) (some c) = Except.ok (decide (c ≤ d)) := by
  simp [jsGe, toNumber_num, numGe, bind, Except.bind, pure, Except.pure]

theorem mathAbs_num (E : JSEngine) (d : ℚ) : mathAbs E (JVal.num d) = Except.ok (some |d|) := by
  simp [mathAbs, toNumber_num, bind, Except.bind, pure, Except.pure]

theorem getProp_of_truthy (v : JVal) (k : String) (h : truthy v = true) :
    getProp v k = Except.ok (peek v k) := by
  cases v <;> simp_all [truthy, getProp, peek]

theorem getProp_obj (kvs : List (String × JVal)) (k : String) :
    getProp (JVal.obj kvs) k = Except.ok (lookupKey k kvs) := rfl

theorem peek_obj (kvs : List (String × JVal)) (k : String) :
    peek (JVal.obj kvs) k = lookupKey k kvs := rfl

theorem truthy_of_isObject (v : JVal) (h : isObject v = true) : truthy v = true := by
  cases v <;> simp_all [isObject, truthy]

theorem not_truthy_undefined : truthy JVal.undefined = false := rfl

/-- Closed form of the payload check on a payload that is not `undefined` or
`null`. -/
theorem validate_of_readable (data : JVal) (hget : ∀ k, getProp data k = Except.ok (peek data k)) :
    validate data =
      if truthy (peek data "fair_game") && truthy (peek data "tweaked_game")
          && truthy (peek data "comparison") then
        if truthy (peek (peek data "fair_game") "results")
            && truthy (peek (peek data "tweaked_game") "results") then Except.ok ()
        else Except.error (JSError.error missingResultsMessage)
      else Except.error (JSError.error missingGameDataMessage) := by
  unfold validate missingTopLevel missingResults
  by_cases h1 : truthy (peek data "fair_game") = true
  · by_cases h2 : truthy (peek data "tweaked_game") = true
    · by_cases h3 : truthy (peek data "comparison") = true
      · by_cases h4 : truthy (peek (peek data "fair_game") "results") = true
        · by_cases h5 : truthy (peek (peek data "tweaked_game") "results") = true
          · simp [hget, h1, h2, h3, h4, h5, getProp_of_truthy _ _ h1, getProp_of_truthy _ _ h2,
              bind, Except.bind, pure, Except.pure]
          · simp [hget, h1, h2, h3, h4, h5, getProp_of_truthy _ _ h1, getProp_of_truthy _ _ h2,
              bind, Except.bind, pure, Except.pure, throw, throwThe, MonadExceptOf.throw]
        · simp [hget, h1, h2, h3, h4, getProp_of_truthy _ _ h1, getProp_of_truthy _ _ h2,
              bind, Except.bind, pure, Except.pure, throw, throwThe, MonadExceptOf.throw]
      · simp [hget, h1, h2, h3, bind, Except.bind, pure, Except.pure, throw, throwThe,
          MonadExceptOf.throw]
    · simp [hget, h1, h2, bind, Except.bind, pure, Except.pure, throw, throwThe,
        MonadExceptOf.throw]
  · simp [hget, h1, bind, Except.bind, pure, Except.pure, throw, throwThe,
      MonadExceptOf.throw]

theorem validate_nullish (data : JVal) (h : data = JVal.undefined ∨ data = JVal.null) :
    validate data = Except.error JSError.typeError := by
  rcases h with h | h <;> subst h <;> rfl

theorem readable_or_nullish (data : JVal) :
    (∀ k, getProp data k = Except.ok (peek data k)) ∨ data = JVal.undefined ∨ data = JVal.null := by
  cases data <;> simp [getProp, peek]

theorem load_displayed_of_accept (E : JSEngine) (gd : Option JVal) (text : String) (page : Page)
    (data : JVal) (htext : text ≠ "") (hparse : E.jsonParse text = some data)
    (hv : validate data = Except.ok ()) :
    loadResultsData E gd (some text) page =
      ({ page with displayed := page.displayed ++ [data], loadingDisplay := "none",
                   noDataDisplay := "none", resultsDisplay := "block" }, none) := by
  simp [loadResultsData, htext, parseAndValidate, hparse, hv]

theorem parseAndValidate_of_reject (E : JSEngine) (text : String) (data : JVal) (e : JSError)
    (hparse : E.jsonParse text = some data) (hv : validate data = Except.error e) :
    parseAndValidate E text = Except.error e := by
  simp [parseAndValidate, hparse, hv]

theorem load_displayed_of_fail (E : JSEngine) (gd : Option JVal) (text : String) (page : Page)
    (e : JSError) (htext : text ≠ "") (hfail : parseAndValidate E text = Except.error e) :
    (loadResultsData E gd (some text) page).1.displayed = page.displayed := by
  cases gd with
  | none => simp [loadResultsData, htext, hfail]
  | some v => cases v <;> simp [loadResultsData, htext, hfail]

/-- C1: on a parsed payload the check of `loadResultsData` reaches
`displayResults` when `fair_game`, `tweaked_game`, `comparison`,
`fair_game.results` and `tweaked_game.results` are objects, and throws before
`displayResults` is called when one of the five is missing. -/
theorem loadResultsData_validation (E : JSEngine) (gd : Option JVal) (text : String)
    (page : Page) (data : JVal) (htext : text ≠ "") (hparse : E.jsonParse text = some data) :
    ((isObject (peek data "fair_game") = true ∧ isObject (peek data "tweaked_game") = true ∧
        isObject (peek data "comparison") = true ∧
        isObject (peek (peek data "fair_game") "results") = true ∧
        isObject (peek (peek data "tweaked_game") "results") = true) →
      validate data = Except.ok () ∧
      (loadResultsData E gd (some text) page).1.displayed = page.displayed ++ [data]) ∧
    ((peek data "fair_game" = JVal.undefined ∨ peek data "tweaked_game" = JVal.undefined ∨
        peek data "comparison" = JVal.undefined ∨
        peek (peek data "fair_game") "results" = JVal.undefined ∨
        peek (peek data "tweaked_game") "results" = JVal.undefined) →
      (∃ e, validate data = Except.error e) ∧
      (loadResultsData E gd (some text) page).1.displayed = page.displayed) := by
  constructor
  · rintro ⟨h1, h2, h3, h4, h5⟩
    have hread : ∀ k, getProp data k = Except.ok (peek data k) := by
      rcases readable_or_nullish data with h | h | h
      · exact h
      · subst h; simp [peek, getProp, isObject] at h1
      · subst h; simp [peek, getProp, isObject] at h1
    have hv : validate data = Except.ok () := by
      rw [validate_of_readable data hread]
      simp [truthy_of_isObject _ h1, truthy_of_isObject _ h2, truthy_of_isObject _ h3,
        truthy_of_isObject _ h4, truthy_of_isObject _ h5]
    refine ⟨hv, ?_⟩
    rw [load_displayed_of_accept E gd text page data htext hparse hv]
  · intro hmiss
    have hrej : ∃ e, validate data = Except.error e := by
      rcases readable_or_nullish data with hread | h | h
      · rw [validate_of_readable data hread]
        rcases hmiss with h | h | h | h | h <;> simp only [h, not_truthy_undefined] <;>
          split_ifs <;> simp_all
      · exact ⟨_, validate_nullish data (Or.inl h)⟩
      · exact ⟨_, validate_nullish data (Or.inr h)⟩
    obtain ⟨e, he⟩ := hrej
    exact ⟨⟨e, he⟩, load_displayed_of_fail E gd text page e htext
      (parseAndValidate_of_reject E text data e hparse he)⟩

/-- The sample payload is accepted and displayed; the payload `{}` is
rejected and not displayed. -/
theorem loadResultsData_validation_witness :
    (validate samplePayload = Except.ok () ∧
      (loadResultsData sampleEngine none (some "sample") blankPage).1.displayed
        = blankPage.displayed ++ [samplePayload]) ∧
    ((∃ e, validate (JVal.obj []) = Except.error e) ∧
      (loadResultsData sampleEngine none (some "{}") blankPage).1.displayed
        = blankPage.displayed) :=
  ⟨(loadResultsData_validation sampleEngine none "sample" blankPage samplePayload
      (by decide) rfl).1 ⟨rfl, rfl, rfl, rfl, rfl⟩,
   (loadResultsData_validation sampleEngine none "{}" blankPage (JVal.obj [])
      (by decide) rfl).2 (Or.inl rfl)⟩

/-- C2, refuted as stated: a payload without `fair_game` and a payload without
`tweaked_game` (each has the other four required keys) are rejected with the
same message. -/
theorem validate_same_message_for_different_keys :
    peek payloadWithoutFair "fair_game" = JVal.undefined ∧
    isObject (peek payloadWithoutFair "tweaked_game") = true ∧
    peek payloadWithoutTweaked "tweaked_game" = JVal.undefined ∧
    isObject (peek payloadWithoutTweaked "fair_game") = true ∧
    validate payloadWithoutFair = Except.error (JSError.error missingGameDataMessage) ∧
    validate payloadWithoutTweaked = Except.error (JSError.error missingGameDataMessage) :=
  ⟨rfl, rfl, rfl, rfl, rfl, rfl⟩

/-- C2, amended: the message of a rejected payload object tells which of the
two checks failed. It is the "missing required game data" message when
`fair_game`, `tweaked_game` or `comparison` is absent, the "missing results
data" message when the three are objects and `fair_game.results` or
`tweaked_game.results` is absent, and the two messages differ. -/
theorem validate_message_by_check (kvs : List (String × JVal)) :
    ((lookupKey "fair_game" kvs = JVal.undefined ∨ lookupKey "tweaked_game" kvs = JVal.undefined ∨
        lookupKey "comparison" kvs = JVal.undefined) →
      validate (JVal.obj kvs) = Except.error (JSError.error missingGameDataMessage)) ∧
    ((isObject (lookupKey "fair_game" kvs) = true ∧ isObject (lookupKey "tweaked_game" kvs) = true ∧
        isObject (lookupKey "comparison" kvs) = true ∧
        (peek (lookupKey "fair_game" kvs) "results" = JVal.undefined ∨
          peek (lookupKey "tweaked_game" kvs) "results" = JVal.undefined)) →
      validate (JVal.obj kvs) = Except.error (JSError.error missingResultsMessage)) ∧
    missingGameDataMessage ≠ missingResultsMessage := by
  have hread : ∀ k, getProp (JVal.obj kvs) k = Except.ok (peek (JVal.obj kvs) k) := fun _ => rfl
  refine ⟨?_, ?_, by decide⟩
  · intro h
    rw [validate_of_readable _ hread]
    simp only [peek_obj]
    rcases h with h | h | h <;> simp [h, not_truthy_undefined]
  · rintro ⟨h1, h2, h3, h⟩
    rw [validate_of_readable _ hread]
    simp only [peek_obj]
    rcases h with h | h <;>
      simp [h, not_truthy_undefined, truthy_of_isObject _ h1, truthy_of_isObject _ h2,
        truthy_of_isObject _ h3]

/-- The payload without `fair_game` gets the first message, and a payload
whose `fair_game` has no `results` gets the second. -/
theorem validate_message_by_check_witness :
    validate payloadWithoutFair = Except.error (JSError.error missingGameDataMessage) ∧
    validate (JVal.obj [("fair_game", JVal.obj []), ("tweaked_game", sampleGame 50 1 3),
        ("comparison", sampleComparison 5 0 0 1000)])
      = Except.error (JSError.error missingResultsMessage) :=
  ⟨(validate_message_by_check _).1 (Or.inl rfl),
   (validate_message_by_check _).2.1 ⟨rfl, rfl, rfl, Or.inl rfl⟩⟩


/-- C3, as the code behaves: when the stored text does not parse or the
parsed payload is rejected, and the global object has no property `data`, the
handler of `loadResultsData` reaches the no-data state and then throws a
`ReferenceError` for `data`; no alert is appended. -/
theorem loadResultsData_handler_throws (E : JSEngine) (text : String) (page : Page)
    (e : JSError) (htext : text ≠ "") (hfail : parseAndValidate E text = Except.error e) :
    (loadResultsData E none (some text) page).2 = some (JSError.referenceError "data") ∧
    (loadResultsData E none (some text) page).1.errorDivs = page.errorDivs ∧
    (loadResultsData E none (some text) page).1.loadingDisplay = "none" ∧
    (loadResultsData E none (some text) page).1.noDataDisplay = "block" ∧
    (loadResultsData E none (some text) page).1.resultsDisplay = "none" := by
  simp [loadResultsData, htext, hfail]

/-- The handler throws both on a text that is not JSON and on the text `{}`,
which is JSON of the wrong shape. -/
theorem loadResultsData_handler_throws_witness :
    (loadResultsData sampleEngine none (some "not json") blankPage).2
        = some (JSError.referenceError "data") ∧
    (loadResultsData sampleEngine none (some "not json") blankPage).1.errorDivs = [] ∧
    (loadResultsData sampleEngine none (some "{}") blankPage).2
        = some (JSError.referenceError "data") ∧
    (loadResultsData sampleEngine none (some "{}") blankPage).1.errorDivs = [] :=
  ⟨(loadResultsData_handler_throws sampleEngine "not json" blankPage JSError.syntaxError
      (by decide) rfl).1,
   (loadResultsData_handler_throws sampleEngine "not json" blankPage JSError.syntaxError
      (by decide) rfl).2.1,
   (loadResultsData_handler_throws sampleEngine "{}" blankPage
      (JSError.error missingGameDataMessage) (by decide) rfl).1,
   (loadResultsData_handler_throws sampleEngine "{}" blankPage
      (JSError.error missingGameDataMessage) (by decide) rfl).2.1⟩

theorem toFixed_zero_two (E : JSEngine) : toFixed E 0 2 = "0.00" := by
  have h : ¬ ((10 : ℚ) ^ 21 ≤ 0) := by norm_num
  simp only [toFixed, lt_self_iff_false, if_false, abs_zero, ge_iff_le, h]
  decide

/-- C4, refuted as stated: the sample payload without `comparison` has both
`results` blocks, yet the check rejects it and `displayResults` is not
called. -/
theorem loadResultsData_rejects_missing_comparison :
    peek payloadWithoutComparison "comparison" = JVal.undefined ∧
    isObject (peek (peek payloadWithoutComparison "fair_game") "results") = true ∧
    isObject (peek (peek payloadWithoutComparison "tweaked_game") "results") = true ∧
    validate payloadWithoutComparison = Except.error (JSError.error missingGameDataMessage) ∧
    (loadResultsData sampleEngine none (some "without comparison") blankPage).1.displayed = [] ∧
    (loadResultsData sampleEngine none (some "without comparison") blankPage).1.resultsDisplay
      = "none" :=
  ⟨rfl, rfl, rfl, rfl, rfl, rfl⟩

theorem winRateRule_undefined_comp (E : JSEngine) (fair tweaked : JVal) :
    ∃ e, winRateRule E fair tweaked JVal.undefined = Except.error e := by
  unfold winRateRule
  cases h1 : getProp fair "results" with
  | error e => exact ⟨e, by simp [bind, Except.bind]⟩
  | ok fr =>
    cases h2 : getProp fr "win_rate" with
    | error e => exact ⟨e, by simp [bind, Except.bind, h2]⟩
    | ok w =>
      cases h3 : getProp tweaked "results" with
      | error e => exact ⟨e, by simp [bind, Except.bind, h2, h3]⟩
      | ok tr =>
        cases h4 : getProp tr "win_rate" with
        | error e => exact ⟨e, by simp [bind, Except.bind, h2, h3, h4]⟩
        | ok tw =>
          have h5 : getProp JVal.undefined "win_rate_difference"
              = Except.error JSError.typeError := rfl
          exact ⟨JSError.typeError, by simp [bind, Except.bind, h2, h3, h4, h5]⟩

/-- C4, amended: a payload object without `comparison` is rejected by the
check of `loadResultsData` with the "missing required game data" error, so
`displayResults` is not called. Called on such a payload,
`populateImpactAnalysis` does not throw and renders each of the four
comparison fields as zero, and `generateInsights` yields the error insight
alone. -/
theorem missing_comparison_behaviour (E : JSEngine) (kvs : List (String × JVal))
    (hcomp : lookupKey "comparison" kvs = JVal.undefined) :
    validate (JVal.obj kvs) = Except.error (JSError.error missingGameDataMessage) ∧
    populateImpactAnalysis E (JVal.obj kvs) =
      ([⟨"winRateDiff", "0.00%", "comparison-difference positive-difference"⟩,
        ⟨"roiDiff", "+0.00%", "comparison-difference positive-difference"⟩,
        ⟨"houseEdgeIncrease", "0.00%", "comparison-difference negative-difference"⟩,
        ⟨"houseProfitIncrease", "+$0.00", "comparison-difference negative-difference"⟩],
       none) ∧
    generateInsights E (JVal.obj kvs) = Except.ok [errorInsight] := by
  refine ⟨?_, ?_, ?_⟩
  · rw [validate_of_readable (JVal.obj kvs) (fun _ => rfl)]
    simp [peek_obj, hcomp, not_truthy_undefined]
  · simp [populateImpactAnalysis, getProp, hcomp, orEmptyObj, truthy, runWrites, winRateDiffCell,
      roiDiffCell, houseEdgeIncreaseCell, houseProfitIncreaseCell, lookupKey, orZero, bind,
      Except.bind, pure, Except.pure, callToFixed, jsGe_num, mathAbs_num, numGe, numericValue,
      numToFixed, toFixed_zero_two]
  · obtain ⟨e, he⟩ := winRateRule_undefined_comp E (lookupKey "fair_game" kvs)
      (lookupKey "tweaked_game" kvs)
    simp [generateInsights, getProp, hcomp, insightRules, he, bind, Except.bind, pure,
      Except.pure]

/-- The three facts on the sample payload without `comparison`. -/
theorem missing_comparison_behaviour_witness :
    validate payloadWithoutComparison = Except.error (JSError.error missingGameDataMessage) ∧
    populateImpactAnalysis sampleEngine payloadWithoutComparison =
      ([⟨"winRateDiff", "0.00%", "comparison-difference positive-difference"⟩,
        ⟨"roiDiff", "+0.00%", "comparison-difference positive-difference"⟩,
        ⟨"houseEdgeIncrease", "0.00%", "comparison-difference negative-difference"⟩,
        ⟨"houseProfitIncrease", "+$0.00", "comparison-difference negative-difference"⟩],
       none) ∧
    generateInsights sampleEngine payloadWithoutComparison = Except.ok [errorInsight] :=
  missing_comparison_behaviour sampleEngine _ rfl

/-- C5: on a payload object no exception leaves the insight computation of
`generateInsights`. Its result is the list built by the rules when the try
block completes, and the one-element list with the error insight when the
block faults, whatever had been pushed before. -/
theorem generateInsights_never_throws (E : JSEngine) (kvs : List (String × JVal)) :
    (∃ l, tryBlock E (JVal.obj kvs) = Except.ok l ∧
        generateInsights E (JVal.obj kvs) = Except.ok l) ∨
    (∃ e, tryBlock E (JVal.obj kvs) = Except.error e ∧
        generateInsights E (JVal.obj kvs) = Except.ok [errorInsight]) := by
  cases h : insightRules E (JVal.obj kvs) (lookupKey "fair_game" kvs)
      (lookupKey "tweaked_game" kvs) (lookupKey "comparison" kvs) with
  | ok l =>
    left
    exact ⟨l, by simp [tryBlock, getProp, bind, Except.bind, h],
      by simp [generateInsights, getProp, bind, Except.bind, h, pure, Except.pure]⟩
  | error e =>
    right
    exact ⟨e, by simp [tryBlock, getProp, bind, Except.bind, h],
      by simp [generateInsights, getProp, bind, Except.bind, h, pure, Except.pure]⟩


/-! ### The sentences are told apart by their first characters -/

theorem key_winFairHigher (a b : String) :
    sentenceKey (winFairHigher a b) = "The Fair Game sh".data := by
  unfold sentenceKey winFairHigher
  simp only [String.data_append]
  rfl

theorem key_winTweakedHigher : sentenceKey winTweakedHigher = "Surprisingly, th".data := rfl

theorem key_winSimilar (a b : String) :
    sentenceKey (winSimilar a b) = "Win rates are re".data := by
  unfold sentenceKey winSimilar
  simp only [String.data_append]
  rfl

theorem key_roiTweakedBetter (a b : String) :
    sentenceKey (roiTweakedBetter a b) = "Tweaked Game pro".data := by
  unfold sentenceKey roiTweakedBetter
  simp only [String.data_append]
  rfl

theorem key_roiFairBetter (a b : String) :
    sentenceKey (roiFairBetter a b) = "Fair Game provid".data := by
  unfold sentenceKey roiFairBetter
  simp only [String.data_append]
  rfl

theorem key_houseEdgeDramatic (a : String) :
    sentenceKey (houseEdgeDramatic a) = "The Joker card d".data := by
  unfold sentenceKey houseEdgeDramatic
  simp only [String.data_append]
  rfl

theorem key_houseEdgeModerate (a : String) :
    sentenceKey (houseEdgeModerate a) = "The Joker card m".data := by
  unfold sentenceKey houseEdgeModerate
  simp only [String.data_append]
  rfl

theorem key_profitTweakedMore (a : String) :
    sentenceKey (profitTweakedMore a) = "The casino profi".data := by
  unfold sentenceKey profitTweakedMore
  simp only [String.data_append]
  rfl

theorem key_profitFairMore (a : String) :
    sentenceKey (profitFairMore a) = "Unexpectedly, th".data := by
  unfold sentenceKey profitFairMore
  simp only [String.data_append]
  rfl

theorem key_deviationLarge (a b : String) :
    sentenceKey (deviationLarge a b) = "Large deviations".data := by
  unfold sentenceKey deviationLarge
  simp only [String.data_append]
  rfl

theorem key_deviationClose (a b : String) :
    sentenceKey (deviationClose a b) = "Theoretical pred".data := by
  unfold sentenceKey deviationClose
  simp only [String.data_append]
  rfl

theorem key_longLosingStreaks (a : String) :
    sentenceKey (longLosingStreaks a) = "Long losing stre".data := by
  unfold sentenceKey longLosingStreaks
  simp only [String.data_append]
  rfl

theorem rule_winFairHigher (a b : String) : insightRule (winFairHigher a b) = 1 := by
  simp only [insightRule, key_winFairHigher]; decide

theorem rule_winTweakedHigher : insightRule winTweakedHigher = 1 := by
  simp only [insightRule, key_winTweakedHigher]; decide

theorem rule_winSimilar (a b : String) : insightRule (winSimilar a b) = 1 := by
  simp only [insightRule, key_winSimilar]; decide

theorem rule_roiTweakedBetter (a b : String) : insightRule (roiTweakedBetter a b) = 2 := by
  simp only [insightRule, key_roiTweakedBetter]; decide

theorem rule_roiFairBetter (a b : String) : insightRule (roiFairBetter a b) = 2 := by
  simp only [insightRule, key_roiFairBetter]; decide

theorem rule_houseEdgeDramatic (a : String) : insightRule (houseEdgeDramatic a) = 3 := by
  simp only [insightRule, key_houseEdgeDramatic]; decide

theorem rule_houseEdgeModerate (a : String) : insightRule (houseEdgeModerate a) = 3 := by
  simp only [insightRule, key_houseEdgeModerate]; decide

theorem rule_profitTweakedMore (a : String) : insightRule (profitTweakedMore a) = 4 := by
  simp only [insightRule, key_profitTweakedMore]; decide

theorem rule_profitFairMore (a : String) : insightRule (profitFairMore a) = 4 := by
  simp only [insightRule, key_profitFairMore]; decide

theorem rule_deviationLarge (a b : String) : insightRule (deviationLarge a b) = 5 := by
  simp only [insightRule, key_deviationLarge]; decide

theorem rule_deviationClose (a b : String) : insightRule (deviationClose a b) = 5 := by
  simp only [insightRule, key_deviationClose]; decide

theorem rule_longLosingStreaks (a : String) : insightRule (longLosingStreaks a) = 6 := by
  simp only [insightRule, key_longLosingStreaks]; decide

theorem ne_of_key_ne (s t : String) (h : sentenceKey s ≠ sentenceKey t) : s ≠ t :=
  fun hst => h (by rw [hst])


/-! ### Comparisons on numbers -/

theorem numGt_some (x y : ℚ) : numGt (some x) (some y) = decide (y < x) := rfl

/-! ### What each rule pushes -/

theorem winRateRule_shape (E : JSEngine) (fair tweaked comp : JVal) (r : List String)
    (h : winRateRule E fair tweaked comp = Except.ok r) :
    ∃ v, getProp comp "win_rate_difference" = Except.ok v ∧
      ((jsGt E (orZero v) (some 2) = Except.ok true ∧ ∃ a b, r = [winFairHigher a b]) ∨
       (jsGt E (orZero v) (some 2) = Except.ok false ∧
          jsLt E (orZero v) (some (-2)) = Except.ok true ∧ r = [winTweakedHigher]) ∨
       (jsGt E (orZero v) (some 2) = Except.ok false ∧
          jsLt E (orZero v) (some (-2)) = Except.ok false ∧ ∃ a b, r = [winSimilar a b])) := by
  unfold winRateRule at h
  simp only [bind_eq_ok] at h
  obtain ⟨fr, -, w, -, tr, -, tw, -, v, hv, c1, hc1, h6⟩ := h
  refine ⟨v, hv, ?_⟩
  cases c1 with
  | true =>
    simp only [if_true, bind_eq_ok, pure_eq_ok] at h6
    obtain ⟨a, -, b, -, hr⟩ := h6
    exact Or.inl ⟨hc1, a, b, hr.symm⟩
  | false =>
    simp only [Bool.false_eq_true, if_false, bind_eq_ok] at h6
    obtain ⟨c2, hc2, h7⟩ := h6
    cases c2 with
    | true =>
      simp only [if_true, pure_eq_ok] at h7
      exact Or.inr (Or.inl ⟨hc1, hc2, h7.symm⟩)
    | false =>
      simp only [Bool.false_eq_true, if_false, bind_eq_ok, pure_eq_ok] at h7
      obtain ⟨a, -, b, -, hr⟩ := h7
      exact Or.inr (Or.inr ⟨hc1, hc2, a, b, hr.symm⟩)

theorem roiRule_shape (E : JSEngine) (fair tweaked comp : JVal) (r : List String)
    (h : roiRule E fair tweaked comp = Except.ok r) :
    ∃ v, getProp comp "roi_difference" = Except.ok v ∧
      ((jsGt E (orZero v) (some 5) = Except.ok true ∧ ∃ a b, r = [roiTweakedBetter a b]) ∨
       (jsGt E (orZero v) (some 5) = Except.ok false ∧
          jsLt E (orZero v) (some (-5)) = Except.ok true ∧ ∃ a b, r = [roiFairBetter a b]) ∨
       (jsGt E (orZero v) (some 5) = Except.ok false ∧
          jsLt E (orZero v) (some (-5)) = Except.ok false ∧ r = [])) := by
  unfold roiRule at h
  simp only [bind_eq_ok] at h
  obtain ⟨fr, -, w, -, tr, -, tw, -, v, hv, c1, hc1, h6⟩ := h
  refine ⟨v, hv, ?_⟩
  cases c1 with
  | true =>
    simp only [if_true, bind_eq_ok, pure_eq_ok] at h6
    obtain ⟨a, -, b, -, hr⟩ := h6
    exact Or.inl ⟨hc1, a, b, hr.symm⟩
  | false =>
    simp only [Bool.false_eq_true, if_false, bind_eq_ok] at h6
    obtain ⟨c2, hc2, h7⟩ := h6
    cases c2 with
    | true =>
      simp only [if_true, bind_eq_ok, pure_eq_ok] at h7
      obtain ⟨a, -, b, -, hr⟩ := h7
      exact Or.inr (Or.inl ⟨hc1, hc2, a, b, hr.symm⟩)
    | false =>
      simp only [Bool.false_eq_true, if_false, pure_eq_ok] at h7
      exact Or.inr (Or.inr ⟨hc1, hc2, h7.symm⟩)

theorem houseEdgeRule_shape (E : JSEngine) (comp : JVal) (r : List String)
    (h : houseEdgeRule E comp = Except.ok r) :
    ∃ v, getProp comp "house_edge_increase_rate" = Except.ok v ∧
      ((jsGt E (orZero v) (some 10) = Except.ok true ∧ ∃ a, r = [houseEdgeDramatic a]) ∨
       (jsGt E (orZero v) (some 10) = Except.ok false ∧
          jsGt E (orZero v) (some 5) = Except.ok true ∧ ∃ a, r = [houseEdgeModerate a]) ∨
       (jsGt E (orZero v) (some 10) = Except.ok false ∧
          jsGt E (orZero v) (some 5) = Except.ok false ∧ r = [])) := by
  unfold houseEdgeRule at h
  simp only [bind_eq_ok] at h
  obtain ⟨v, hv, c1, hc1, h6⟩ := h
  refine ⟨v, hv, ?_⟩
  cases c1 with
  | true =>
    simp only [if_true, bind_eq_ok, pure_eq_ok] at h6
    obtain ⟨a, -, hr⟩ := h6
    exact Or.inl ⟨hc1, a, hr.symm⟩
  | false =>
    simp only [Bool.false_eq_true, if_false, bind_eq_ok] at h6
    obtain ⟨c2, hc2, h7⟩ := h6
    cases c2 with
    | true =>
      simp only [if_true, bind_eq_ok, pure_eq_ok] at h7
      obtain ⟨a, -, hr⟩ := h7
      exact Or.inr (Or.inl ⟨hc1, hc2, a, hr.symm⟩)
    | false =>
      simp only [Bool.false_eq_true, if_false, pure_eq_ok] at h7
      exact Or.inr (Or.inr ⟨hc1, hc2, h7.symm⟩)

theorem houseProfitRule_shape (E : JSEngine) (data comp : JVal) (r : List String)
    (h : houseProfitRule E data comp = Except.ok r) :
    ∃ v m t, getProp comp "house_profit_increase" = Except.ok v ∧
      mathAbs E (orZero v) = Except.ok m ∧
      profitThreshold E data = Except.ok t ∧
      ((numberGt (ofOption m) t = true ∧ jsGt E (orZero v) (some 0) = Except.ok true ∧
          ∃ a, r = [profitTweakedMore a]) ∨
       (numberGt (ofOption m) t = true ∧ jsGt E (orZero v) (some 0) = Except.ok false ∧
          ∃ a, r = [profitFairMore a]) ∨
       (numberGt (ofOption m) t = false ∧ r = [])) := by
  unfold houseProfitRule at h
  simp only [bind_eq_ok] at h
  obtain ⟨v, hv, m, hm, t, ht, h6⟩ := h
  refine ⟨v, m, t, hv, hm, ht, ?_⟩
  split_ifs at h6 with c1
  · simp only [bind_eq_ok] at h6
    obtain ⟨c2, hc2, h7⟩ := h6
    cases c2 with
    | true =>
      simp only [if_true, bind_eq_ok, pure_eq_ok] at h7
      obtain ⟨a, -, hr⟩ := h7
      exact Or.inl ⟨c1, hc2, a, hr.symm⟩
    | false =>
      simp only [Bool.false_eq_true, if_false, bind_eq_ok, pure_eq_ok] at h7
      obtain ⟨m', -, hr⟩ := h7
      exact Or.inr (Or.inl ⟨c1, hc2, _, hr.symm⟩)
  · simp only [pure_eq_ok] at h6
    exact Or.inr (Or.inr ⟨by simpa using c1, h6.symm⟩)

theorem deviationRule_shape (E : JSEngine) (fair tweaked : JVal) (r : List String)
    (h : deviationRule E fair tweaked = Except.ok r) :
    ∃ fr x tr y dx dy, getProp fair "results" = Except.ok fr ∧
      getProp fr "theoretical_vs_actual_deviation" = Except.ok x ∧
      getProp tweaked "results" = Except.ok tr ∧
      getProp tr "theoretical_vs_actual_deviation" = Except.ok y ∧
      mathAbs E (orZero x) = Except.ok dx ∧ mathAbs E (orZero y) = Except.ok dy ∧
      (((numGt dx (some 20) || numGt dy (some 20)) = true ∧
          ∃ a b, r = [deviationLarge a b]) ∨
       ((numGt dx (some 20) || numGt dy (some 20)) = false ∧
          ∃ a b, r = [deviationClose a b])) := by
  unfold deviationRule at h
  simp only [bind_eq_ok] at h
  obtain ⟨fr, h1, x, h2, dx, hdx, tr, h3, y, h4, dy, hdy, h6⟩ := h
  refine ⟨fr, x, tr, y, dx, dy, h1, h2, h3, h4, hdx, hdy, ?_⟩
  split_ifs at h6 with c1
  · simp only [pure_eq_ok] at h6
    exact Or.inl ⟨c1, _, _, h6.symm⟩
  · simp only [pure_eq_ok] at h6
    exact Or.inr ⟨by simpa using c1, _, _, h6.symm⟩

theorem streakRule_shape (E : JSEngine) (fair tweaked : JVal) (r : List String)
    (h : streakRule E fair tweaked = Except.ok r) :
    r = [] ∨ ∃ a, r = [longLosingStreaks a] := by
  unfold streakRule at h
  simp only [bind_eq_ok] at h
  obtain ⟨fr, -, fs, -, h6⟩ := h
  split_ifs at h6 with c1
  · simp only [pure_eq_ok] at h6
    exact Or.inl h6.symm
  · simp only [bind_eq_ok] at h6
    obtain ⟨tr, -, ts, -, h7⟩ := h6
    split_ifs at h7 with c2
    · simp only [pure_eq_ok] at h7
      exact Or.inl h7.symm
    · simp only [bind_eq_ok] at h7
      obtain ⟨fm, -, c, -, h8⟩ := h7
      have tail : ∀ long : Bool,
          (if long = true then do
              let tweakedMax ← getProp ts "max_loss_streak"
              let m ← mathMax E fm tweakedMax
              pure [longLosingStreaks (numToString E m)]
            else pure []) = Except.ok r → (r = [] ∨ ∃ a, r = [longLosingStreaks a]) := by
        intro long hl
        cases long with
        | true =>
          simp only [if_true, bind_eq_ok, pure_eq_ok] at hl
          obtain ⟨tm, -, mx, -, hr⟩ := hl
          exact Or.inr ⟨_, hr.symm⟩
        | false =>
          simp only [Bool.false_eq_true, if_false, pure_eq_ok] at hl
          exact Or.inl hl.symm
      cases c with
      | true =>
        simp only [if_true, bind_eq_ok, pure_eq_ok] at h8
        obtain ⟨a, -, h9⟩ := h8
        exact tail a h9
      | false =>
        simp only [Bool.false_eq_true, if_false, bind_eq_ok, pure_eq_ok] at h8
        obtain ⟨tm, -, a, -, h9⟩ := h8
        exact tail a h9


/-! ### The list of insights as the concatenation of what the rules push -/

theorem winRateRule_rule (E : JSEngine) (fair tweaked comp : JVal) (r : List String)
    (h : winRateRule E fair tweaked comp = Except.ok r) :
    (∃ s, r = [s]) ∧ ∀ s ∈ r, insightRule s = 1 := by
  obtain ⟨v, -, h1 | h1 | h1⟩ := winRateRule_shape E fair tweaked comp r h
  · obtain ⟨-, a, b, rfl⟩ := h1
    exact ⟨⟨_, rfl⟩, by simp [rule_winFairHigher]⟩
  · obtain ⟨-, -, rfl⟩ := h1
    exact ⟨⟨_, rfl⟩, by simp [rule_winTweakedHigher]⟩
  · obtain ⟨-, -, a, b, rfl⟩ := h1
    exact ⟨⟨_, rfl⟩, by simp [rule_winSimilar]⟩

theorem roiRule_rule (E : JSEngine) (fair tweaked comp : JVal) (r : List String)
    (h : roiRule E fair tweaked comp = Except.ok r) : ∀ s ∈ r, insightRule s = 2 := by
  obtain ⟨v, -, h1 | h1 | h1⟩ := roiRule_shape E fair tweaked comp r h
  · obtain ⟨-, a, b, rfl⟩ := h1
    simp [rule_roiTweakedBetter]
  · obtain ⟨-, -, a, b, rfl⟩ := h1
    simp [rule_roiFairBetter]
  · obtain ⟨-, -, rfl⟩ := h1
    simp

theorem houseEdgeRule_rule (E : JSEngine) (comp : JVal) (r : List String)
    (h : houseEdgeRule E comp = Except.ok r) : ∀ s ∈ r, insightRule s = 3 := by
  obtain ⟨v, -, h1 | h1 | h1⟩ := houseEdgeRule_shape E comp r h
  · obtain ⟨-, a, rfl⟩ := h1
    simp [rule_houseEdgeDramatic]
  · obtain ⟨-, -, a, rfl⟩ := h1
    simp [rule_houseEdgeModerate]
  · obtain ⟨-, -, rfl⟩ := h1
    simp

theorem houseProfitRule_rule (E : JSEngine) (data comp : JVal) (r : List String)
    (h : houseProfitRule E data comp = Except.ok r) : ∀ s ∈ r, insightRule s = 4 := by
  obtain ⟨v, m, t, -, -, -, h1 | h1 | h1⟩ := houseProfitRule_shape E data comp r h
  · obtain ⟨-, -, a, rfl⟩ := h1
    simp [rule_profitTweakedMore]
  · obtain ⟨-, -, a, rfl⟩ := h1
    simp [rule_profitFairMore]
  · obtain ⟨-, rfl⟩ := h1
    simp

theorem deviationRule_rule (E : JSEngine) (fair tweaked : JVal) (r : List String)
    (h : deviationRule E fair tweaked = Except.ok r) : ∀ s ∈ r, insightRule s = 5 := by
  obtain ⟨fr, x, tr, y, dx, dy, -, -, -, -, -, -, h1 | h1⟩ :=
    deviationRule_shape E fair tweaked r h
  · obtain ⟨-, a, b, rfl⟩ := h1
    simp [rule_deviationLarge]
  · obtain ⟨-, a, b, rfl⟩ := h1
    simp [rule_deviationClose]

theorem streakRule_rule (E : JSEngine) (fair tweaked : JVal) (r : List String)
    (h : streakRule E fair tweaked = Except.ok r) : ∀ s ∈ r, insightRule s = 6 := by
  rcases streakRule_shape E fair tweaked r h with rfl | ⟨a, rfl⟩
  · simp
  · simp [rule_longLosingStreaks]

/-- A completed try block: the payload has the three blocks, each rule
completed, and the list is what the six rules pushed, in their order. -/
theorem tryBlock_ok (E : JSEngine) (data : JVal) (l : List String)
    (h : tryBlock E data = Except.ok l) :
    ∃ fair tweaked comp r1 r2 r3 r4 r5 r6,
      getProp data "fair_game" = Except.ok fair ∧
      getProp data "tweaked_game" = Except.ok tweaked ∧
      getProp data "comparison" = Except.ok comp ∧
      winRateRule E fair tweaked comp = Except.ok r1 ∧
      roiRule E fair tweaked comp = Except.ok r2 ∧
      houseEdgeRule E comp = Except.ok r3 ∧
      houseProfitRule E data comp = Except.ok r4 ∧
      deviationRule E fair tweaked = Except.ok r5 ∧
      streakRule E fair tweaked = Except.ok r6 ∧
      l = r1 ++ r2 ++ r3 ++ r4 ++ r5 ++ r6 := by
  unfold tryBlock insightRules at h
  simp only [bind_eq_ok] at h
  obtain ⟨fair, hf, tweaked, ht, comp, hc, r1, h1, r2, h2, r3, h3, r4, h4, r5, h5, r6, h6, hl⟩ := h
  refine ⟨fair, tweaked, comp, r1, r2, r3, r4, r5, r6, hf, ht, hc, h1, h2, h3, h4, h5, h6, ?_⟩
  obtain ⟨⟨s, rfl⟩, -⟩ := winRateRule_rule E fair tweaked comp r1 h1
  simp only [List.length_append, List.length_cons, List.length_nil] at hl
  rw [if_neg (by omega)] at hl
  simp only [pure_eq_ok] at hl
  exact hl.symm

/-- In a concatenation of what the six rules push, a sentence of rule `i` is
one that rule `i` pushed. -/
theorem mem_of_rule (r1 r2 r3 r4 r5 r6 : List String)
    (k1 : ∀ s ∈ r1, insightRule s = 1) (k2 : ∀ s ∈ r2, insightRule s = 2)
    (k3 : ∀ s ∈ r3, insightRule s = 3) (k4 : ∀ s ∈ r4, insightRule s = 4)
    (k5 : ∀ s ∈ r5, insightRule s = 5) (k6 : ∀ s ∈ r6, insightRule s = 6)
    (s : String) (hs : s ∈ r1 ++ r2 ++ r3 ++ r4 ++ r5 ++ r6) :
    (insightRule s = 1 → s ∈ r1) ∧ (insightRule s = 2 → s ∈ r2) ∧
    (insightRule s = 3 → s ∈ r3) ∧ (insightRule s = 4 → s ∈ r4) ∧
    (insightRule s = 5 → s ∈ r5) ∧ (insightRule s = 6 → s ∈ r6) := by
  simp only [List.mem_append] at hs
  rcases hs with ((((h | h) | h) | h) | h) | h
  · have := k1 s h
    refine ⟨fun _ => h, ?_, ?_, ?_, ?_, ?_⟩ <;> intro h' <;> omega
  · have := k2 s h
    refine ⟨?_, fun _ => h, ?_, ?_, ?_, ?_⟩ <;> intro h' <;> omega
  · have := k3 s h
    refine ⟨?_, ?_, fun _ => h, ?_, ?_, ?_⟩ <;> intro h' <;> omega
  · have := k4 s h
    refine ⟨?_, ?_, ?_, fun _ => h, ?_, ?_⟩ <;> intro h' <;> omega
  · have := k5 s h
    refine ⟨?_, ?_, ?_, ?_, fun _ => h, ?_⟩ <;> intro h' <;> omega
  · have := k6 s h
    refine ⟨?_, ?_, ?_, ?_, ?_, fun _ => h⟩ <;> intro h' <;> omega

theorem comparisonField_ok (data : JVal) (k : String) (x : JVal)
    (h : comparisonField data k = Except.ok x) :
    ∃ comp v, getProp data "comparison" = Except.ok comp ∧ getProp comp k = Except.ok v ∧
      orZero v = x := by
  unfold comparisonField at h
  simp only [bind_eq_ok, pure_eq_ok] at h
  obtain ⟨comp, hc, v, hv, hx⟩ := h
  exact ⟨comp, v, hc, hv, hx⟩

theorem resultsField_ok (data : JVal) (variant k : String) (x : JVal)
    (h : resultsField data variant k = Except.ok x) :
    ∃ game results v, getProp data variant = Except.ok game ∧
      getProp game "results" = Except.ok results ∧ getProp results k = Except.ok v ∧
      orZero v = x := by
  unfold resultsField at h
  simp only [bind_eq_ok, pure_eq_ok] at h
  obtain ⟨game, hg, results, hr, v, hv, hx⟩ := h
  exact ⟨game, results, v, hg, hr, hv, hx⟩

theorem ok_inj {α : Type} {a b : α} (h : (Except.ok a : Except JSError α) = Except.ok b) :
    a = b := by
  cases h; rfl


theorem profitThreshold_num (E : JSEngine) (data : JVal) (b n : ℚ)
    (hb : getProp data "bet_amount" = Except.ok (JVal.num b))
    (hn : getProp data "num_rounds" = Except.ok (JVal.num n)) :
    profitThreshold E data = Except.ok (thresholdOf b n) := by
  simp [profitThreshold, hb, hn, toNumber_num, ofOption, thresholdOf, bind, Except.bind, pure,
    Except.pure]

/-- With a bet of 1 and 100 rounds the number of line 253 is 10. -/
theorem thresholdOf_sample : thresholdOf 1 100 = JNumber.finite 10 := by decide!

/-- With a bet of 1 and 3 rounds the number of line 253 is
0.30000000000000004, the binary64 value above three tenths. -/
theorem thresholdOf_rounded : thresholdOf 1 3 = JNumber.finite threeTenthsRounded := by
  decide!

/-! ### The binary64 rounding and the product of line 253 -/
/-- With enough fuel `log2Fuel` is the position of the leading bit. -/
theorem log2Fuel_spec (fuel : Nat) : ∀ n : Nat, 0 < n → n < 2 ^ (fuel + 1) →
    2 ^ log2Fuel fuel n ≤ n ∧ n < 2 ^ (log2Fuel fuel n + 1) := by
  induction fuel with
  | zero =>
    intro n hn hlt
    simp only [log2Fuel]
    omega
  | succ f ih =>
    intro n hn hlt
    unfold log2Fuel
    by_cases h2 : 2 ≤ n
    · rw [if_pos h2]
      have hhalf : 0 < n / 2 := by omega
      have hlt2 : n / 2 < 2 ^ (f + 1) := by
        have : 2 ^ (f + 1 + 1) = 2 * 2 ^ (f + 1) := by ring
        omega
      obtain ⟨hlo, hhi⟩ := ih (n / 2) hhalf hlt2
      constructor
      · have : 2 ^ (log2Fuel f (n / 2) + 1) = 2 * 2 ^ log2Fuel f (n / 2) := by ring
        omega
      · have : 2 ^ (log2Fuel f (n / 2) + 1 + 1) = 2 * 2 ^ (log2Fuel f (n / 2) + 1) := by ring
        omega
    · rw [if_neg h2]
      simp only [pow_zero, zero_add, pow_one]
      omega

theorem log2Fuel_self (n : Nat) (hn : 0 < n) :
    2 ^ log2Fuel n n ≤ n ∧ n < 2 ^ (log2Fuel n n + 1) :=
  log2Fuel_spec n n hn
    (lt_trans (Nat.lt_two_pow n) (Nat.pow_lt_pow_right (by norm_num) (Nat.lt_succ_self n)))

theorem two_zpow_split (s : ℤ) :
    (2 : ℚ) ^ s = (2 : ℚ) ^ s.toNat / (2 : ℚ) ^ (-s).toNat := by
  rcases le_total 0 s with h | h
  · obtain ⟨k, rfl⟩ := Int.eq_ofNat_of_zero_le h
    simp
  · obtain ⟨k, hk⟩ := Int.eq_ofNat_of_zero_le (neg_nonneg.2 h)
    have hs : s = -(k : ℤ) := by omega
    subst hs
    simp

theorem two_zpow_pos (s : ℤ) : (0 : ℚ) < (2 : ℚ) ^ s := zpow_pos (by norm_num) s

theorem two_zpow_natCast_sub (a b : ℕ) :
    (2 : ℚ) ^ ((a : ℤ) - (b : ℤ)) = (2 : ℚ) ^ a / (2 : ℚ) ^ b := by
  rw [zpow_sub₀ (by norm_num : (2 : ℚ) ≠ 0), zpow_natCast, zpow_natCast]

/-- The exponent `floorLog2 n d` brackets the quotient `n / d` between two
consecutive powers of 2. -/
theorem floorLog2_spec (n d : Nat) (hn : 0 < n) (hd : 0 < d) :
    (2 : ℚ) ^ floorLog2 n d ≤ (n : ℚ) / d ∧
      (n : ℚ) / d < (2 : ℚ) ^ (floorLog2 n d + 1) := by
  obtain ⟨hnlo, hnhi⟩ := log2Fuel_self n hn
  obtain ⟨hdlo, hdhi⟩ := log2Fuel_self d hd
  have hdq : (0 : ℚ) < d := by exact_mod_cast hd
  have hnlo' : (2 : ℚ) ^ log2Fuel n n ≤ n := by exact_mod_cast hnlo
  have hnhi' : (n : ℚ) < (2 : ℚ) ^ (log2Fuel n n + 1) := by exact_mod_cast hnhi
  have hdlo' : (2 : ℚ) ^ log2Fuel d d ≤ d := by exact_mod_cast hdlo
  have hdhi' : (d : ℚ) < (2 : ℚ) ^ (log2Fuel d d + 1) := by exact_mod_cast hdhi
  have ha : (0 : ℚ) < (2 : ℚ) ^ log2Fuel n n := by positivity
  have hb : (0 : ℚ) < (2 : ℚ) ^ log2Fuel d d := by positivity
  have hk : (2 : ℚ) ^ ((log2Fuel n n : ℤ) - (log2Fuel d d : ℤ)) =
      (2 : ℚ) ^ log2Fuel n n / (2 : ℚ) ^ log2Fuel d d := two_zpow_natCast_sub _ _
  have hk1 : (2 : ℚ) ^ ((log2Fuel n n : ℤ) - (log2Fuel d d : ℤ) + 1) =
      (2 : ℚ) ^ log2Fuel n n / (2 : ℚ) ^ log2Fuel d d * 2 := by
    rw [zpow_add₀ (by norm_num : (2 : ℚ) ≠ 0), hk, zpow_one]
  have hkm : (2 : ℚ) ^ ((log2Fuel n n : ℤ) - (log2Fuel d d : ℤ) - 1) =
      (2 : ℚ) ^ log2Fuel n n / (2 : ℚ) ^ log2Fuel d d / 2 := by
    rw [zpow_sub₀ (by norm_num : (2 : ℚ) ≠ 0), hk, zpow_one]
  have hcond : (d * 2 ^ ((log2Fuel n n : ℤ) - (log2Fuel d d : ℤ)).toNat ≤
      n * 2 ^ (-((log2Fuel n n : ℤ) - (log2Fuel d d : ℤ))).toNat) ↔
      (2 : ℚ) ^ ((log2Fuel n n : ℤ) - (log2Fuel d d : ℤ)) ≤ (n : ℚ) / d := by
    rw [two_zpow_split ((log2Fuel n n : ℤ) - (log2Fuel d d : ℤ)), le_div_iff₀ hdq,
      div_mul_eq_mul_div, div_le_iff₀ (by positivity)]
    constructor
    · intro h
      have h' : ((d * 2 ^ ((log2Fuel n n : ℤ) - (log2Fuel d d : ℤ)).toNat : ℕ) : ℚ) ≤
          ((n * 2 ^ (-((log2Fuel n n : ℤ) - (log2Fuel d d : ℤ))).toNat : ℕ) : ℚ) := by
        exact_mod_cast h
      push_cast at h'
      linarith
    · intro h
      have h' : ((d * 2 ^ ((log2Fuel n n : ℤ) - (log2Fuel d d : ℤ)).toNat : ℕ) : ℚ) ≤
          ((n * 2 ^ (-((log2Fuel n n : ℤ) - (log2Fuel d d : ℤ))).toNat : ℕ) : ℚ) := by
        push_cast
        linarith
      exact_mod_cast h'
  unfold floorLog2
  simp only
  by_cases hc : d * 2 ^ ((log2Fuel n n : ℤ) - (log2Fuel d d : ℤ)).toNat ≤
      n * 2 ^ (-((log2Fuel n n : ℤ) - (log2Fuel d d : ℤ))).toNat
  · rw [if_pos hc]
    refine ⟨hcond.1 hc, ?_⟩
    rw [hk1, div_lt_iff₀ hdq]
    have h2 : (2 : ℚ) ^ (log2Fuel n n + 1) = 2 ^ log2Fuel n n * 2 := by ring
    rw [h2] at hnhi'
    calc (n : ℚ) < 2 ^ log2Fuel n n * 2 := hnhi'
      _ = 2 ^ log2Fuel n n / 2 ^ log2Fuel d d * 2 * 2 ^ log2Fuel d d := by
          field_simp
      _ ≤ 2 ^ log2Fuel n n / 2 ^ log2Fuel d d * 2 * d := by
          apply mul_le_mul_of_nonneg_left hdlo'
          positivity
  · rw [if_neg hc]
    have hlt : (n : ℚ) / d < (2 : ℚ) ^ ((log2Fuel n n : ℤ) - (log2Fuel d d : ℤ)) :=
      not_le.1 (fun h => hc (hcond.2 h))
    refine ⟨?_, ?_⟩
    · rw [hkm, le_div_iff₀ hdq]
      have h2 : (2 : ℚ) ^ (log2Fuel d d + 1) = 2 ^ log2Fuel d d * 2 := by ring
      rw [h2] at hdhi'
      calc 2 ^ log2Fuel n n / 2 ^ log2Fuel d d / 2 * (d : ℚ)
          ≤ 2 ^ log2Fuel n n / 2 ^ log2Fuel d d / 2 * (2 ^ log2Fuel d d * 2) := by
            apply mul_le_mul_of_nonneg_left hdhi'.le
            positivity
        _ = 2 ^ log2Fuel n n := by field_simp
        _ ≤ n := hnlo'
    · rw [sub_add_cancel]
      exact hlt

/-- The nearest integer to `N / Dn` is at least `k` when `N / Dn` is above
`k - 1 / 2`. -/
theorem nearest_ge (N Dn k : ℕ) (hD : 0 < Dn) (h : 2 * k * Dn < 2 * N + Dn) :
    k ≤ (if 2 * (N % Dn) < Dn then N / Dn
      else if Dn < 2 * (N % Dn) then N / Dn + 1
      else if N / Dn % 2 = 0 then N / Dn else N / Dn + 1) := by
  have hdiv : Dn * (N / Dn) + N % Dn = N := Nat.div_add_mod N Dn
  have hmod : N % Dn < Dn := Nat.mod_lt N hD
  generalize N / Dn = a at hdiv ⊢
  generalize N % Dn = r at hdiv hmod ⊢
  by_contra hlt
  push_neg at hlt
  have key : ∀ c : ℕ, c < k → 2 * (c + 1) * Dn ≤ 2 * k * Dn := by
    intro c hc
    exact Nat.mul_le_mul_right Dn (by omega)
  split_ifs at hlt with h1 h2 h3
  · have := key a hlt
    nlinarith
  · have := key (a + 1) hlt
    nlinarith
  · have := key a hlt
    nlinarith
  · have := key (a + 1) hlt
    nlinarith

/-- The nearest integer to `N / Dn` is at most the integer part plus one. -/
theorem nearest_le (N Dn : ℕ) :
    (if 2 * (N % Dn) < Dn then N / Dn
      else if Dn < 2 * (N % Dn) then N / Dn + 1
      else if N / Dn % 2 = 0 then N / Dn else N / Dn + 1) ≤ N / Dn + 1 := by
  split_ifs <;> omega

/-- The scaling exponent, the significand and the value of the rounding of a
positive rational. -/
theorem roundDouble_pos (q : ℚ) (hq : 0 < q) : ∃ (s : ℤ) (m : ℕ),
    -1074 ≤ s ∧ q < (2 : ℚ) ^ (s + 53) ∧ (s = -1074 ∨ (2 : ℚ) ^ (s + 52) ≤ q) ∧
    (∀ k : ℕ, ((k : ℚ) - 1 / 2) * (2 : ℚ) ^ s < q → k ≤ m) ∧
    m ≤ 2 ^ 53 ∧
    (roundDouble q = JNumber.posInf ∨
      roundDouble q = JNumber.finite ((m : ℚ) * (2 : ℚ) ^ s)) := by
  have hn : 0 < q.num.natAbs := Int.natAbs_pos.2 (ne_of_gt (Rat.num_pos.2 hq))
  have hd : 0 < q.den := q.den_pos
  obtain ⟨hlo, hhi⟩ := floorLog2_spec q.num.natAbs q.den hn hd
  have hqeq : ((q.num.natAbs : ℕ) : ℚ) / (q.den : ℚ) = q := by
    have h1 : ((q.num.natAbs : ℕ) : ℤ) = q.num := by
      rw [Int.natCast_natAbs, abs_of_pos (Rat.num_pos.2 hq)]
    have h2 : ((q.num.natAbs : ℕ) : ℚ) = (q.num : ℚ) := by
      have h3 : (q.num : ℚ) = (((q.num.natAbs : ℕ) : ℤ) : ℚ) := by rw [h1]
      rw [h3, Int.cast_natCast]
    rw [h2]
    exact Rat.num_div_den q
  rw [hqeq] at hlo hhi
  generalize hE : floorLog2 q.num.natAbs q.den = e at hlo hhi
  generalize hS : max e (-1022) - 52 = s
  have hs1 : -1074 ≤ s := by
    have := le_max_right e (-1022)
    omega
  have hs2 : e ≤ s + 52 := by
    have := le_max_left e (-1022)
    omega
  have hs3 : s = -1074 ∨ s + 52 = e := by
    rcases le_total e (-1022) with h | h
    · left
      rw [max_eq_right h] at hS
      omega
    · right
      rw [max_eq_left h] at hS
      omega
  have hdq : (0 : ℚ) < q.den := by exact_mod_cast hd
  set N := q.num.natAbs * 2 ^ (-s).toNat with hN
  set Dn := q.den * 2 ^ s.toNat with hDn
  have hDpos : 0 < Dn := Nat.mul_pos hd (by positivity)
  have hDq : (0 : ℚ) < (Dn : ℚ) := by exact_mod_cast hDpos
  have hX : ((N : ℕ) : ℚ) / ((Dn : ℕ) : ℚ) = q / (2 : ℚ) ^ s := by
    have hX0 : ((N : ℕ) : ℚ) / ((Dn : ℕ) : ℚ) =
        ((q.num.natAbs : ℕ) : ℚ) / (q.den : ℚ) / (2 : ℚ) ^ s := by
      rw [hN, hDn, two_zpow_split s]
      push_cast
      field_simp
    rw [hX0, hqeq]
  refine ⟨s, (if 2 * (N % Dn) < Dn then N / Dn
      else if Dn < 2 * (N % Dn) then N / Dn + 1
      else if N / Dn % 2 = 0 then N / Dn else N / Dn + 1), hs1, ?_, ?_, ?_, ?_, ?_⟩
  · calc q < (2 : ℚ) ^ (e + 1) := hhi
      _ ≤ (2 : ℚ) ^ (s + 53) := zpow_le_zpow_right₀ (by norm_num) (by omega)
  · rcases hs3 with h | h
    · exact Or.inl h
    · right
      rw [h]
      exact hlo
  · intro k hk
    apply nearest_ge N Dn k hDpos
    have h1 : (k : ℚ) - 1 / 2 < (N : ℚ) / (Dn : ℚ) := by
      rw [hX, lt_div_iff₀ (two_zpow_pos s)]
      exact hk
    rw [lt_div_iff₀ hDq] at h1
    have h2 : ((2 * k * Dn : ℕ) : ℚ) < ((2 * N + Dn : ℕ) : ℚ) := by
      push_cast
      linarith
    exact_mod_cast h2
  · have h1 : (N : ℚ) / (Dn : ℚ) < (2 : ℚ) ^ (53 : ℕ) := by
      rw [hX, div_lt_iff₀ (two_zpow_pos s)]
      have h53 : (2 : ℚ) ^ (s + 53) = (2 : ℚ) ^ (53 : ℕ) * (2 : ℚ) ^ s := by
        rw [zpow_add₀ (by norm_num : (2 : ℚ) ≠ 0), mul_comm]
        norm_num
      rw [← h53]
      calc q < (2 : ℚ) ^ (e + 1) := hhi
        _ ≤ (2 : ℚ) ^ (s + 53) := zpow_le_zpow_right₀ (by norm_num) (by omega)
    rw [div_lt_iff₀ hDq] at h1
    have h2 : N < 2 ^ 53 * Dn := by exact_mod_cast h1
    have h3 : N / Dn < 2 ^ 53 := (Nat.div_lt_iff_lt_mul hDpos).2 h2
    have h4 := nearest_le N Dn
    omega
  · unfold roundDouble
    rw [if_neg (ne_of_gt hq)]
    simp only [hE, hS, if_pos hq, one_mul]
    rw [← hN, ← hDn]
    generalize (if 2 * (N % Dn) < Dn then N / Dn
      else if Dn < 2 * (N % Dn) then N / Dn + 1
      else if N / Dn % 2 = 0 then N / Dn else N / Dn + 1) = m
    by_cases hover : 2 ^ 1024 ≤ m * 2 ^ s.toNat
    · rw [if_pos hover]
      exact Or.inl rfl
    · rw [if_neg hover]
      right
      congr 1
      rw [Rat.mkRat_eq_div, two_zpow_split s]
      push_cast
      rw [mul_div_assoc]

/-- Rounding to nearest does not go below a value of the format that the
rational exceeds by less than half a unit in the last place. -/
theorem roundDouble_ge_grid (x : ℚ) (k : ℕ) (t : ℤ) (hx : 0 < x) (ht : -1074 ≤ t)
    (hk : k ≤ 2 ^ 53) (hnear : ((k : ℚ) - 1 / 2) * (2 : ℚ) ^ t < x)
    (hside : t = -1074 ∨ (2 : ℚ) ^ (t + 52) ≤ x) :
    roundDouble x = JNumber.posInf ∨
      ∃ y, roundDouble x = JNumber.finite y ∧ (k : ℚ) * (2 : ℚ) ^ t ≤ y := by
  obtain ⟨s, m, hs1, hup, hnorm, hround, _hm, hval⟩ := roundDouble_pos x hx
  have hts : t ≤ s := by
    rcases hside with h | h
    · omega
    · have h1 : (2 : ℚ) ^ (t + 52) < (2 : ℚ) ^ (s + 53) := lt_of_le_of_lt h hup
      have h2 : t + 52 < s + 53 := (zpow_lt_zpow_iff_right₀ (by norm_num : (1 : ℚ) < 2)).1 h1
      omega
  rcases hval with hinf | hfin
  · exact Or.inl hinf
  · refine Or.inr ⟨_, hfin, ?_⟩
    rcases eq_or_lt_of_le hts with heq | hlt
    · subst heq
      have hkm : k ≤ m := hround k hnear
      have hkm' : (k : ℚ) ≤ (m : ℚ) := by exact_mod_cast hkm
      exact mul_le_mul_of_nonneg_right hkm' (le_of_lt (two_zpow_pos t))
    · have hnormal : (2 : ℚ) ^ (s + 52) ≤ x := by
        rcases hnorm with h | h
        · omega
        · exact h
      have h52 : (2 : ℚ) ^ (s + 52) = (2 : ℚ) ^ (52 : ℕ) * (2 : ℚ) ^ s := by
        rw [zpow_add₀ (by norm_num : (2 : ℚ) ≠ 0), mul_comm]
        norm_num
      have hm52 : 2 ^ 52 ≤ m := by
        apply hround
        have hpos := two_zpow_pos s
        rw [h52] at hnormal
        push_cast
        nlinarith
      have hm52' : (2 : ℚ) ^ (52 : ℕ) ≤ (m : ℚ) := by exact_mod_cast hm52
      have hk' : (k : ℚ) ≤ (2 : ℚ) ^ (53 : ℕ) := by exact_mod_cast hk
      have hst : (2 : ℚ) ^ (t + 1) ≤ (2 : ℚ) ^ s :=
        zpow_le_zpow_right₀ (by norm_num) (by omega)
      have ht1 : (2 : ℚ) ^ (t + 1) = 2 * (2 : ℚ) ^ t := by
        rw [zpow_add₀ (by norm_num : (2 : ℚ) ≠ 0), zpow_one, mul_comm]
      have hpt := two_zpow_pos t
      have hps := two_zpow_pos s
      calc (k : ℚ) * (2 : ℚ) ^ t ≤ (2 : ℚ) ^ (53 : ℕ) * (2 : ℚ) ^ t :=
            mul_le_mul_of_nonneg_right hk' hpt.le
        _ = (2 : ℚ) ^ (52 : ℕ) * (2 * (2 : ℚ) ^ t) := by ring
        _ ≤ (2 : ℚ) ^ (52 : ℕ) * (2 : ℚ) ^ s := by
            rw [← ht1]
            exact mul_le_mul_of_nonneg_left hst (by positivity)
        _ ≤ (m : ℚ) * (2 : ℚ) ^ s := mul_le_mul_of_nonneg_right hm52' hps.le

/-- A positive value of the format is `k * 2 ^ t` with `k` of at most 53 bits
and of exactly 53 bits above the subnormal range. -/
theorem double_grid (P : ℚ) (hP : 0 < P) (hd : roundDouble P = JNumber.finite P) :
    ∃ (k : ℕ) (t : ℤ), P = (k : ℚ) * (2 : ℚ) ^ t ∧ -1074 ≤ t ∧ k ≤ 2 ^ 53 ∧
      (t = -1074 ∨ 2 ^ 52 ≤ k) := by
  obtain ⟨s, m, hs1, _hup, hnorm, _hround, hm, hval⟩ := roundDouble_pos P hP
  rcases hval with hinf | hfin
  · rw [hd] at hinf
    cases hinf
  · rw [hd] at hfin
    have hPm : P = (m : ℚ) * (2 : ℚ) ^ s := by
      injection hfin
    refine ⟨m, s, hPm, hs1, hm, ?_⟩
    rcases hnorm with h | h
    · exact Or.inl h
    · right
      have h52 : (2 : ℚ) ^ (s + 52) = (2 : ℚ) ^ (52 : ℕ) * (2 : ℚ) ^ s := by
        rw [zpow_add₀ (by norm_num : (2 : ℚ) ≠ 0), mul_comm]
        norm_num
      rw [h52, hPm] at h
      have h' : (2 : ℚ) ^ (52 : ℕ) ≤ (m : ℚ) := le_of_mul_le_mul_right h (two_zpow_pos s)
      exact_mod_cast h'

/-- The significand `m1` and the shift `j` of the value of the format nearest
to ten times `k`, with the bounds that the product with `0.1` needs. -/
theorem ten_times_significand (k : ℕ) (hk0 : 0 < k) (hk : k ≤ 2 ^ 53) :
    ∃ (j m1 : ℕ), m1 ≤ 2 ^ 53 ∧ 0 < m1 ∧
      2 * 2 ^ j * m1 < 20 * k + 2 ^ j ∧
      (2 ^ (52 + j) ≤ 10 * k ∨ (j = 0 ∧ k < 2 ^ 52)) ∧
      2 * k * 2 ^ 55 < 2 * 2 ^ j * m1 * 3602879701896397 + 2 ^ 55 ∧
      (2 ^ 52 ≤ k → 2 ^ 52 * 2 ^ 55 ≤ 2 ^ j * m1 * 3602879701896397) := by
  by_cases h53 : 10 * k < 2 ^ 53
  · refine ⟨0, 10 * k, ?_, ?_, ?_, ?_, ?_, ?_⟩ <;> omega
  by_cases h54 : 10 * k < 2 ^ 54
  · refine ⟨1, 5 * k, ?_, ?_, ?_, ?_, ?_, ?_⟩ <;> omega
  by_cases h55 : 10 * k < 2 ^ 55
  · refine ⟨2, (10 * k + 1) / 4, ?_, ?_, ?_, ?_, ?_, ?_⟩ <;> omega
  by_cases h56 : 10 * k < 2 ^ 56
  · refine ⟨3, (10 * k + 3) / 8, ?_, ?_, ?_, ?_, ?_, ?_⟩ <;> omega
  · refine ⟨4, (10 * k + 7) / 16, ?_, ?_, ?_, ?_, ?_, ?_⟩ <;> omega

theorem oneTenth_pos : (0 : ℚ) < oneTenth := by
  unfold oneTenth
  norm_num

theorem oneTenth_eq : oneTenth = (3602879701896397 : ℚ) / (2 : ℚ) ^ (55 : ℕ) := by
  unfold oneTenth
  norm_num

theorem roundDouble_zero : roundDouble 0 = JNumber.finite 0 := by
  simp [roundDouble]

/-- The rounding of a rational that is not negative is not negative. -/
theorem roundDouble_nonneg (x : ℚ) (hx : 0 ≤ x) :
    roundDouble x = JNumber.posInf ∨ ∃ y, roundDouble x = JNumber.finite y ∧ 0 ≤ y := by
  rcases eq_or_lt_of_le hx with h0 | hpos
  · rw [← h0]
    exact Or.inr ⟨0, roundDouble_zero, le_refl 0⟩
  · obtain ⟨s, m, _hs1, _hup, _hnorm, _hround, _hm, hval⟩ := roundDouble_pos x hpos
    rcases hval with hinf | hfin
    · exact Or.inl hinf
    · exact Or.inr ⟨_, hfin, mul_nonneg (Nat.cast_nonneg m) (two_zpow_pos s).le⟩

/-- For a positive value `P` of the format and a rational `x` of at least ten
times `P`, the product of the rounding of `x` with `0.1` is not below `P`. -/
theorem tenth_of_rounded_ge (P x : ℚ) (hP : 0 < P) (hd : roundDouble P = JNumber.finite P)
    (hx : 10 * P ≤ x) :
    numberGt (JNumber.finite P) (numMul (roundDouble x) (JNumber.finite oneTenth)) = false := by
  obtain ⟨k, t, hPk, ht, hk, hnorm⟩ := double_grid P hP hd
  have hpt := two_zpow_pos t
  have hk0 : 0 < k := by
    rcases Nat.eq_zero_or_pos k with h | h
    · rw [h] at hPk
      simp at hPk
      linarith
    · exact h
  obtain ⟨j, m1, hm1, hm1pos, hb, hc, hd2, he⟩ := ten_times_significand k hk0 hk
  have hx0 : 0 < x := by linarith
  have htj : (2 : ℚ) ^ (t + (j : ℤ)) = (2 : ℚ) ^ t * (2 : ℚ) ^ j := by
    rw [zpow_add₀ (by norm_num : (2 : ℚ) ≠ 0), zpow_natCast]
  have hpj : (0 : ℚ) < (2 : ℚ) ^ j := by positivity
  have hbq : 2 * (2 : ℚ) ^ j * (m1 : ℚ) < 20 * (k : ℚ) + (2 : ℚ) ^ j := by exact_mod_cast hb
  have hnear1 : ((m1 : ℚ) - 1 / 2) * (2 : ℚ) ^ (t + (j : ℤ)) < x := by
    rw [htj]
    have h1 : ((m1 : ℚ) - 1 / 2) * (2 : ℚ) ^ j < 10 * (k : ℚ) := by linarith
    calc ((m1 : ℚ) - 1 / 2) * ((2 : ℚ) ^ t * (2 : ℚ) ^ j)
        = (((m1 : ℚ) - 1 / 2) * (2 : ℚ) ^ j) * (2 : ℚ) ^ t := by ring
      _ < (10 * (k : ℚ)) * (2 : ℚ) ^ t := mul_lt_mul_of_pos_right h1 hpt
      _ = 10 * P := by rw [hPk]; ring
      _ ≤ x := hx
  have hside1 : t + (j : ℤ) = -1074 ∨ (2 : ℚ) ^ (t + (j : ℤ) + 52) ≤ x := by
    rcases hc with h | ⟨hj0, hklt⟩
    · right
      have hq : (2 : ℚ) ^ (52 + j) ≤ 10 * (k : ℚ) := by exact_mod_cast h
      have hsplit : (2 : ℚ) ^ (t + (j : ℤ) + 52) = (2 : ℚ) ^ (52 + j) * (2 : ℚ) ^ t := by
        have : t + (j : ℤ) + 52 = t + ((52 + j : ℕ) : ℤ) := by push_cast; ring
        rw [this, zpow_add₀ (by norm_num : (2 : ℚ) ≠ 0), zpow_natCast, mul_comm]
      rw [hsplit]
      calc (2 : ℚ) ^ (52 + j) * (2 : ℚ) ^ t ≤ (10 * (k : ℚ)) * (2 : ℚ) ^ t :=
            mul_le_mul_of_nonneg_right hq hpt.le
        _ = 10 * P := by rw [hPk]; ring
        _ ≤ x := hx
    · left
      rcases hnorm with h | h
      · rw [hj0, h]
        norm_num
      · omega
  have hc0 := oneTenth_pos
  rcases roundDouble_ge_grid x m1 (t + (j : ℤ)) hx0 (by omega) hm1 hnear1 hside1 with
    hinf | ⟨y, hy, hyge⟩
  · rw [hinf]
    simp [numMul, numberGt, ne_of_gt hc0, hc0]
  · rw [hy]
    have hm1q : (0 : ℚ) < (m1 : ℚ) := by exact_mod_cast hm1pos
    have hypos : 0 < y := lt_of_lt_of_le (mul_pos hm1q (two_zpow_pos _)) hyge
    have hlow : (m1 : ℚ) * (2 : ℚ) ^ j * (2 : ℚ) ^ t * oneTenth ≤ y * oneTenth := by
      apply mul_le_mul_of_nonneg_right _ hc0.le
      rw [htj] at hyge
      calc (m1 : ℚ) * (2 : ℚ) ^ j * (2 : ℚ) ^ t
          = (m1 : ℚ) * ((2 : ℚ) ^ t * (2 : ℚ) ^ j) := by ring
        _ ≤ y := hyge
    have hdq : 2 * (k : ℚ) * (2 : ℚ) ^ (55 : ℕ) <
        2 * (2 : ℚ) ^ j * (m1 : ℚ) * (3602879701896397 : ℚ) + (2 : ℚ) ^ (55 : ℕ) := by
      exact_mod_cast hd2
    have h55 : (0 : ℚ) < (2 : ℚ) ^ (55 : ℕ) := by positivity
    have hnear2 : ((k : ℚ) - 1 / 2) * (2 : ℚ) ^ t < y * oneTenth := by
      have h1 : (k : ℚ) - 1 / 2 < (m1 : ℚ) * (2 : ℚ) ^ j * oneTenth := by
        rw [oneTenth_eq, ← mul_div_assoc, lt_div_iff₀ h55]
        linarith
      calc ((k : ℚ) - 1 / 2) * (2 : ℚ) ^ t
          < ((m1 : ℚ) * (2 : ℚ) ^ j * oneTenth) * (2 : ℚ) ^ t :=
            mul_lt_mul_of_pos_right h1 hpt
        _ = (m1 : ℚ) * (2 : ℚ) ^ j * (2 : ℚ) ^ t * oneTenth := by ring
        _ ≤ y * oneTenth := hlow
    have hside2 : t = -1074 ∨ (2 : ℚ) ^ (t + 52) ≤ y * oneTenth := by
      rcases hnorm with h | h
      · exact Or.inl h
      · right
        have heq : (2 : ℚ) ^ (52 : ℕ) * (2 : ℚ) ^ (55 : ℕ) ≤
            (2 : ℚ) ^ j * (m1 : ℚ) * (3602879701896397 : ℚ) := by
          exact_mod_cast he h
        have h1 : (2 : ℚ) ^ (52 : ℕ) ≤ (m1 : ℚ) * (2 : ℚ) ^ j * oneTenth := by
          rw [oneTenth_eq, ← mul_div_assoc, le_div_iff₀ h55]
          linarith
        have h52 : (2 : ℚ) ^ (t + 52) = (2 : ℚ) ^ (52 : ℕ) * (2 : ℚ) ^ t := by
          rw [zpow_add₀ (by norm_num : (2 : ℚ) ≠ 0), mul_comm]
          norm_num
        rw [h52]
        calc (2 : ℚ) ^ (52 : ℕ) * (2 : ℚ) ^ t
            ≤ ((m1 : ℚ) * (2 : ℚ) ^ j * oneTenth) * (2 : ℚ) ^ t :=
              mul_le_mul_of_nonneg_right h1 hpt.le
          _ = (m1 : ℚ) * (2 : ℚ) ^ j * (2 : ℚ) ^ t * oneTenth := by ring
          _ ≤ y * oneTenth := hlow
    have hnum : numMul (JNumber.finite y) (JNumber.finite oneTenth) =
        roundDouble (y * oneTenth) := rfl
    rw [hnum]
    rcases roundDouble_ge_grid (y * oneTenth) k t (mul_pos hypos hc0) ht hk hnear2 hside2 with
      hinf | ⟨T, hT, hTge⟩
    · rw [hinf]
      rfl
    · rw [hT]
      simp only [numberGt, gt_iff_lt, decide_eq_false_iff_not, not_lt]
      rw [hPk]
      exact hTge

/-- The number 0.30000000000000004 is a value of the format. -/
theorem roundDouble_threeTenthsRounded :
    roundDouble threeTenthsRounded = JNumber.finite threeTenthsRounded := by decide!

/-- The number 5 is a value of the format. -/
theorem roundDouble_five : roundDouble |(5 : ℚ)| = JNumber.finite |(5 : ℚ)| := by decide!

/-- When the magnitude of `p` is a value of the format and is not above the
exact product `b * n / 10`, line 253 does not find it above the product it
computes. -/
theorem not_above_of_exact (b n p : ℚ) (hd : roundDouble |p| = JNumber.finite |p|)
    (h : ¬ (b * n * (1 / 10) < |p|)) :
    numberGt (JNumber.finite |p|) (thresholdOf b n) = false := by
  have hle : |p| ≤ b * n * (1 / 10) := not_lt.1 h
  have hthr : thresholdOf b n = numMul (roundDouble (b * n)) (JNumber.finite oneTenth) := rfl
  rw [hthr]
  rcases eq_or_lt_of_le (abs_nonneg p) with h0 | hpos
  · rw [← h0]
    have hbn : 0 ≤ b * n := by
      rw [← h0] at hle
      linarith
    have hc0 := oneTenth_pos
    rcases roundDouble_nonneg (b * n) hbn with hinf | ⟨y, hy, hy0⟩
    · rw [hinf]
      simp [numMul, numberGt, ne_of_gt hc0, hc0]
    · rw [hy]
      have hnum : numMul (JNumber.finite y) (JNumber.finite oneTenth) =
          roundDouble (y * oneTenth) := rfl
      rw [hnum]
      rcases roundDouble_nonneg (y * oneTenth) (mul_nonneg hy0 hc0.le) with hinf | ⟨T, hT, hT0⟩
      · rw [hinf]
        rfl
      · rw [hT]
        simp only [numberGt, gt_iff_lt, decide_eq_false_iff_not, not_lt]
        exact hT0
  · exact tenth_of_rounded_ge |p| (b * n) hpos hd (by linarith)

theorem numberGt_finite (x y : ℚ) :
    numberGt (JNumber.finite x) (JNumber.finite y) = decide (y < x) := rfl

theorem profitThreshold_sample (c : JVal) :
    profitThreshold sampleEngine (payloadWith c) = Except.ok (JNumber.finite 10) := by
  rw [profitThreshold_num sampleEngine (payloadWith c) 1 100 rfl rfl, thresholdOf_sample]

theorem houseProfitRule_sample_large :
    houseProfitRule sampleEngine samplePayload (sampleComparison 5 0 0 1000)
      = Except.ok [profitTweakedMore "1000.00"] := by
  have hfix : toFixed sampleEngine 1000 2 = "1000.00" := by decide
  unfold houseProfitRule
  simp [samplePayload, profitThreshold_sample, sampleComparison, getProp, lookupKey, orZero, truthy, bind, Except.bind, pure,
    Except.pure, mathAbs_num, jsGt_num, ofOption, numberGt, callToFixed, hfix]
  norm_num

theorem houseProfitRule_sample_small :
    houseProfitRule sampleEngine payloadSmallProfit (sampleComparison 5 0 0 5)
      = Except.ok [] := by
  unfold houseProfitRule
  simp [payloadSmallProfit, profitThreshold_sample, sampleComparison, getProp, lookupKey, orZero, truthy, bind, Except.bind, pure,
    Except.pure, mathAbs_num, jsGt_num, ofOption, numberGt, callToFixed]
  norm_num

theorem tryBlock_sample : tryBlock sampleEngine samplePayload = Except.ok sampleInsights := by
  have h1 : winRateRule sampleEngine (sampleGame 55 2 3) (sampleGame 50 1 3)
      (sampleComparison 5 0 0 1000) = Except.ok [winFairHigher "55.0" "50.0"] := rfl
  have h2 : roiRule sampleEngine (sampleGame 55 2 3) (sampleGame 50 1 3)
      (sampleComparison 5 0 0 1000) = Except.ok [] := rfl
  have h3 : houseEdgeRule sampleEngine (sampleComparison 5 0 0 1000) = Except.ok [] := rfl
  have h5 : deviationRule sampleEngine (sampleGame 55 2 3) (sampleGame 50 1 3)
      = Except.ok [deviationClose "3.0" "3.0"] := rfl
  have h6 : streakRule sampleEngine (sampleGame 55 2 3) (sampleGame 50 1 3) = Except.ok [] := rfl
  have hf : getProp samplePayload "fair_game" = Except.ok (sampleGame 55 2 3) := rfl
  have ht : getProp samplePayload "tweaked_game" = Except.ok (sampleGame 50 1 3) := rfl
  have hc : getProp samplePayload "comparison" = Except.ok (sampleComparison 5 0 0 1000) := rfl
  unfold tryBlock insightRules
  simp only [hf, ht, hc, h1, h2, h3, houseProfitRule_sample_large, h5, h6, bind, Except.bind]
  rfl

theorem tryBlock_smallProfit :
    tryBlock sampleEngine payloadSmallProfit = Except.ok smallProfitInsights := by
  have h1 : winRateRule sampleEngine (sampleGame 55 2 3) (sampleGame 50 1 3)
      (sampleComparison 5 0 0 5) = Except.ok [winFairHigher "55.0" "50.0"] := rfl
  have h2 : roiRule sampleEngine (sampleGame 55 2 3) (sampleGame 50 1 3)
      (sampleComparison 5 0 0 5) = Except.ok [] := rfl
  have h3 : houseEdgeRule sampleEngine (sampleComparison 5 0 0 5) = Except.ok [] := rfl
  have h5 : deviationRule sampleEngine (sampleGame 55 2 3) (sampleGame 50 1 3)
      = Except.ok [deviationClose "3.0" "3.0"] := rfl
  have h6 : streakRule sampleEngine (sampleGame 55 2 3) (sampleGame 50 1 3) = Except.ok [] := rfl
  have hf : getProp payloadSmallProfit "fair_game" = Except.ok (sampleGame 55 2 3) := rfl
  have ht : getProp payloadSmallProfit "tweaked_game" = Except.ok (sampleGame 50 1 3) := rfl
  have hc : getProp payloadSmallProfit "comparison" = Except.ok (sampleComparison 5 0 0 5) := rfl
  unfold tryBlock insightRules
  simp only [hf, ht, hc, h1, h2, h3, houseProfitRule_sample_small, h5, h6, bind, Except.bind]
  rfl

theorem tryBlock_threeRounds :
    tryBlock sampleEngine payloadThreeRounds = Except.ok smallProfitInsights := by
  have h1 : winRateRule sampleEngine (sampleGame 55 2 3) (sampleGame 50 1 3)
      (sampleComparison 5 0 0 threeTenthsRounded) = Except.ok [winFairHigher "55.0" "50.0"] := rfl
  have h2 : roiRule sampleEngine (sampleGame 55 2 3) (sampleGame 50 1 3)
      (sampleComparison 5 0 0 threeTenthsRounded) = Except.ok [] := rfl
  have h3 : houseEdgeRule sampleEngine (sampleComparison 5 0 0 threeTenthsRounded)
      = Except.ok [] := rfl
  have h4 : houseProfitRule sampleEngine payloadThreeRounds
      (sampleComparison 5 0 0 threeTenthsRounded) = Except.ok [] := by
    have ht : profitThreshold sampleEngine payloadThreeRounds
        = Except.ok (JNumber.finite threeTenthsRounded) := by
      rw [profitThreshold_num sampleEngine payloadThreeRounds 1 3 rfl rfl, thresholdOf_rounded]
    have hz : orZero (JVal.num threeTenthsRounded) = JVal.num threeTenthsRounded :=
      orZero_num _
    unfold houseProfitRule
    simp [ht, hz, sampleComparison, getProp, lookupKey, bind, Except.bind, pure,
      Except.pure, mathAbs_num, ofOption, numberGt]
    intro habove
    have hpos : (0 : ℚ) < threeTenthsRounded := by
      unfold threeTenthsRounded
      norm_num
    rw [abs_of_pos hpos] at habove
    exact absurd habove (lt_irrefl _)
  have h5 : deviationRule sampleEngine (sampleGame 55 2 3) (sampleGame 50 1 3)
      = Except.ok [deviationClose "3.0" "3.0"] := rfl
  have h6 : streakRule sampleEngine (sampleGame 55 2 3) (sampleGame 50 1 3) = Except.ok [] := rfl
  have hf : getProp payloadThreeRounds "fair_game" = Except.ok (sampleGame 55 2 3) := rfl
  have ht : getProp payloadThreeRounds "tweaked_game" = Except.ok (sampleGame 50 1 3) := rfl
  have hc : getProp payloadThreeRounds "comparison"
      = Except.ok (sampleComparison 5 0 0 threeTenthsRounded) := rfl
  unfold tryBlock insightRules
  simp only [hf, ht, hc, h1, h2, h3, h4, h5, h6, bind, Except.bind]
  rfl

/-! ### Binary64 rounding and conversions that throw, on examples -/

/-- One tenth rounds to the double written `0.1`. -/
theorem roundDouble_oneTenth : roundDouble (1 / 10) = JNumber.finite oneTenth := by decide!

/-- A value that is a double is left as it is. -/
theorem roundDouble_exact : roundDouble (3 / 4) = JNumber.finite (3 / 4) := by decide!

theorem roundDouble_negative : roundDouble (-(1 / 10)) = JNumber.finite (-oneTenth) := by
  decide!

/-- Two to the power 1024 overflows to `Infinity`. -/
theorem roundDouble_overflow : roundDouble (2 ^ 1024) = JNumber.posInf := by decide!

/-- Just below the overflow boundary the result is the largest double. -/
theorem roundDouble_largest :
    roundDouble (2 ^ 1024 - 2 ^ 970 - 1) = JNumber.finite (2 ^ 1024 - 2 ^ 971) := by decide!

/-- A tie goes to the even significand, downwards here. -/
theorem roundDouble_tie_even : roundDouble (2 ^ 53 + 1) = JNumber.finite (2 ^ 53) := by decide!

/-- A tie goes to the even significand, upwards here. -/
theorem roundDouble_tie_up : roundDouble (2 ^ 53 + 3) = JNumber.finite (2 ^ 53 + 4) := by
  decide!

/-- Above half the smallest subnormal the result is the smallest subnormal. -/
theorem roundDouble_subnormal :
    roundDouble (1 / 2 ^ 1075 + 1 / 2 ^ 1080) = JNumber.finite (1 / 2 ^ 1074) := by decide!

/-- Half the smallest subnormal is a tie and goes to zero. -/
theorem roundDouble_underflow : roundDouble (1 / 2 ^ 1075) = JNumber.finite 0 := by decide!

/-- An object with an own `toString` that is not a function makes the
conversion to a number throw a TypeError. -/
theorem toNumber_objectWithToString (E : JSEngine) :
    toNumber E objectWithToString = Except.error JSError.typeError := rfl

/-- An array joins its elements, so one such element makes the conversion
throw. -/
theorem toNumber_array_objectWithToString (E : JSEngine) :
    toNumber E (JVal.arr [JVal.num 1, objectWithToString]) = Except.error JSError.typeError :=
  rfl

/-- An object without an own `toString` converts to `NaN`. -/
theorem toNumber_plain_object (E : JSEngine) :
    toNumber E (JVal.obj [("value", JVal.num 1)]) = Except.ok none := by
  simp [toNumber, conversionThrows, numericValue]

/-- A win-rate difference whose conversion throws is caught by the try block:
the only insight is the error sentence. -/
theorem generateInsights_objectDifference :
    generateInsights sampleEngine payloadObjectDifference = Except.ok [errorInsight] := rfl

/-- A house-edge increase whose conversion throws stops
`populateImpactAnalysis` after the first two cells. -/
theorem populateImpactAnalysis_objectHouseEdge :
    (populateImpactAnalysis sampleEngine payloadObjectHouseEdge).2 = some JSError.typeError ∧
    (populateImpactAnalysis sampleEngine payloadObjectHouseEdge).1.map DiffCell.id =
      ["winRateDiff", "roiDiff"] := ⟨rfl, rfl⟩

theorem generateInsights_of_tryBlock (E : JSEngine) (data : JVal) (l : List String)
    (h : tryBlock E data = Except.ok l) : generateInsights E data = Except.ok l := by
  unfold tryBlock at h
  simp only [bind_eq_ok] at h
  obtain ⟨fair, hf, tweaked, ht, comp, hc, hl⟩ := h
  simp [generateInsights, hf, ht, hc, hl, bind, Except.bind, pure, Except.pure]


/-! ### Sentences of one rule differ from each other -/

theorem winFairHigher_ne_winTweakedHigher (a b : String) :
    winFairHigher a b ≠ winTweakedHigher :=
  ne_of_key_ne _ _ (by rw [key_winFairHigher, key_winTweakedHigher]; decide)

theorem winFairHigher_ne_winSimilar (a b a' b' : String) :
    winFairHigher a b ≠ winSimilar a' b' :=
  ne_of_key_ne _ _ (by rw [key_winFairHigher, key_winSimilar]; decide)

theorem winTweakedHigher_ne_winSimilar (a b : String) : winTweakedHigher ≠ winSimilar a b :=
  ne_of_key_ne _ _ (by rw [key_winTweakedHigher, key_winSimilar]; decide)

theorem roiTweakedBetter_ne_roiFairBetter (a b a' b' : String) :
    roiTweakedBetter a b ≠ roiFairBetter a' b' :=
  ne_of_key_ne _ _ (by rw [key_roiTweakedBetter, key_roiFairBetter]; decide)

theorem houseEdgeDramatic_ne_houseEdgeModerate (a a' : String) :
    houseEdgeDramatic a ≠ houseEdgeModerate a' :=
  ne_of_key_ne _ _ (by rw [key_houseEdgeDramatic, key_houseEdgeModerate]; decide)

theorem profitTweakedMore_ne_profitFairMore (a a' : String) :
    profitTweakedMore a ≠ profitFairMore a' :=
  ne_of_key_ne _ _ (by rw [key_profitTweakedMore, key_profitFairMore]; decide)

theorem deviationLarge_ne_deviationClose (a b a' b' : String) :
    deviationLarge a b ≠ deviationClose a' b' :=
  ne_of_key_ne _ _ (by rw [key_deviationLarge, key_deviationClose]; decide)

/-- C6: when the try block of `generateInsights` completes and
`comparison.win_rate_difference || 0` is the number `d`, the first insight is
the "Fair Game shows a significantly higher win rate" sentence iff `d > 2`,
the "Surprisingly, the Tweaked Game shows a higher win rate" sentence iff
`d < -2`, and the "Win rates are relatively similar" sentence iff
`-2 ≤ d ≤ 2`; it is one of the three. -/
theorem winRate_insight (E : JSEngine) (data : JVal) (l : List String) (d : ℚ)
    (hrun : tryBlock E data = Except.ok l)
    (hd : comparisonField data "win_rate_difference" = Except.ok (JVal.num d)) :
    generateInsights E data = Except.ok l ∧
    ∃ s rest, l = s :: rest ∧
      ((∃ a b, s = winFairHigher a b) ↔ 2 < d) ∧
      (s = winTweakedHigher ↔ d < -2) ∧
      ((∃ a b, s = winSimilar a b) ↔ (-2 ≤ d ∧ d ≤ 2)) ∧
      ((∃ a b, s = winFairHigher a b) ∨ s = winTweakedHigher ∨ ∃ a b, s = winSimilar a b) := by
  refine ⟨generateInsights_of_tryBlock E data l hrun, ?_⟩
  obtain ⟨fair, tweaked, comp, r1, r2, r3, r4, r5, r6, -, -, hc, h1, -, -, -, -, -, rfl⟩ :=
    tryBlock_ok E data l hrun
  obtain ⟨comp', v, hc', hv, hz⟩ := comparisonField_ok data _ _ hd
  rw [hc] at hc'
  cases ok_inj hc'
  obtain ⟨v', hv', hcase⟩ := winRateRule_shape E fair tweaked comp r1 h1
  rw [hv] at hv'
  cases ok_inj hv'
  rw [hz] at hcase
  simp only [Except.ok.injEq, jsGt_num, jsLt_num, decide_eq_true_eq, decide_eq_false_iff_not, not_lt] at hcase
  rcases hcase with ⟨hgt, a, b, rfl⟩ | ⟨hle, hlt, rfl⟩ | ⟨hle, hge, a, b, rfl⟩
  · refine ⟨_, _, rfl, ?_, ?_, ?_, Or.inl ⟨a, b, rfl⟩⟩
    · exact ⟨fun _ => hgt, fun _ => ⟨a, b, rfl⟩⟩
    · exact ⟨fun h => absurd h (winFairHigher_ne_winTweakedHigher a b), fun h => by linarith⟩
    · constructor
      · rintro ⟨a', b', h⟩
        exact absurd h (winFairHigher_ne_winSimilar a b a' b')
      · rintro ⟨-, h⟩
        linarith
  · refine ⟨_, _, rfl, ?_, ?_, ?_, Or.inr (Or.inl rfl)⟩
    · constructor
      · rintro ⟨a', b', h⟩
        exact absurd h.symm (winFairHigher_ne_winTweakedHigher a' b')
      · intro h
        linarith
    · exact ⟨fun _ => hlt, fun _ => rfl⟩
    · constructor
      · rintro ⟨a', b', h⟩
        exact absurd h (winTweakedHigher_ne_winSimilar a' b')
      · rintro ⟨h, -⟩
        linarith
  · refine ⟨_, _, rfl, ?_, ?_, ?_, Or.inr (Or.inr ⟨a, b, rfl⟩)⟩
    · constructor
      · rintro ⟨a', b', h⟩
        exact absurd h.symm (winFairHigher_ne_winSimilar a' b' a b)
      · intro h
        linarith
    · exact ⟨fun h => absurd h.symm (winTweakedHigher_ne_winSimilar a b), fun h => by linarith⟩
    · exact ⟨fun _ => ⟨hge, hle⟩, fun _ => ⟨a, b, rfl⟩⟩

/-- On the sample payload the gap is 5 and the first insight is the "Fair
Game shows a significantly higher win rate" sentence. -/
theorem winRate_insight_witness :
    generateInsights sampleEngine samplePayload = Except.ok sampleInsights ∧
    ∃ s rest, sampleInsights = s :: rest ∧
      ((∃ a b, s = winFairHigher a b) ↔ 2 < (5 : ℚ)) ∧
      (s = winTweakedHigher ↔ (5 : ℚ) < -2) ∧
      ((∃ a b, s = winSimilar a b) ↔ (-2 ≤ (5 : ℚ) ∧ (5 : ℚ) ≤ 2)) ∧
      ((∃ a b, s = winFairHigher a b) ∨ s = winTweakedHigher ∨ ∃ a b, s = winSimilar a b) :=
  winRate_insight sampleEngine samplePayload sampleInsights 5 tryBlock_sample rfl


/-- A completed try block, seen from rules 2 to 5: a sentence of one of these
rules is in the list exactly when that rule pushed it. -/
theorem tryBlock_members (E : JSEngine) (data : JVal) (l : List String)
    (h : tryBlock E data = Except.ok l) :
    ∃ fair tweaked comp r2 r3 r4 r5,
      getProp data "fair_game" = Except.ok fair ∧
      getProp data "tweaked_game" = Except.ok tweaked ∧
      getProp data "comparison" = Except.ok comp ∧
      roiRule E fair tweaked comp = Except.ok r2 ∧
      houseEdgeRule E comp = Except.ok r3 ∧
      houseProfitRule E data comp = Except.ok r4 ∧
      deviationRule E fair tweaked = Except.ok r5 ∧
      (∀ s, insightRule s = 2 → (s ∈ l ↔ s ∈ r2)) ∧
      (∀ s, insightRule s = 3 → (s ∈ l ↔ s ∈ r3)) ∧
      (∀ s, insightRule s = 4 → (s ∈ l ↔ s ∈ r4)) ∧
      (∀ s, insightRule s = 5 → (s ∈ l ↔ s ∈ r5)) ∧
      l.filter (fun s => decide (insightRule s = 5)) = r5 := by
  obtain ⟨fair, tweaked, comp, r1, r2, r3, r4, r5, r6, hf, ht, hc, h1, h2, h3, h4, h5, h6, rfl⟩ :=
    tryBlock_ok E data l h
  have k1 := (winRateRule_rule E fair tweaked comp r1 h1).2
  have k2 := roiRule_rule E fair tweaked comp r2 h2
  have k3 := houseEdgeRule_rule E comp r3 h3
  have k4 := houseProfitRule_rule E data comp r4 h4
  have k5 := deviationRule_rule E fair tweaked r5 h5
  have k6 := streakRule_rule E fair tweaked r6 h6
  refine ⟨fair, tweaked, comp, r2, r3, r4, r5, hf, ht, hc, h2, h3, h4, h5, ?_, ?_, ?_, ?_, ?_⟩
  · intro s hs
    exact ⟨fun hm => (mem_of_rule r1 r2 r3 r4 r5 r6 k1 k2 k3 k4 k5 k6 s hm).2.1 hs,
      fun hm => by simp [hm]⟩
  · intro s hs
    exact ⟨fun hm => (mem_of_rule r1 r2 r3 r4 r5 r6 k1 k2 k3 k4 k5 k6 s hm).2.2.1 hs,
      fun hm => by simp [hm]⟩
  · intro s hs
    exact ⟨fun hm => (mem_of_rule r1 r2 r3 r4 r5 r6 k1 k2 k3 k4 k5 k6 s hm).2.2.2.1 hs,
      fun hm => by simp [hm]⟩
  · intro s hs
    exact ⟨fun hm => (mem_of_rule r1 r2 r3 r4 r5 r6 k1 k2 k3 k4 k5 k6 s hm).2.2.2.2.1 hs,
      fun hm => by simp [hm]⟩
  · have e1 : r1.filter (fun s => decide (insightRule s = 5)) = [] := by
      rw [List.filter_eq_nil_iff]; intro s hs; simp [k1 s hs]
    have e2 : r2.filter (fun s => decide (insightRule s = 5)) = [] := by
      rw [List.filter_eq_nil_iff]; intro s hs; simp [k2 s hs]
    have e3 : r3.filter (fun s => decide (insightRule s = 5)) = [] := by
      rw [List.filter_eq_nil_iff]; intro s hs; simp [k3 s hs]
    have e4 : r4.filter (fun s => decide (insightRule s = 5)) = [] := by
      rw [List.filter_eq_nil_iff]; intro s hs; simp [k4 s hs]
    have e5 : r5.filter (fun s => decide (insightRule s = 5)) = r5 := by
      rw [List.filter_eq_self]; intro s hs; simp [k5 s hs]
    have e6 : r6.filter (fun s => decide (insightRule s = 5)) = [] := by
      rw [List.filter_eq_nil_iff]; intro s hs; simp [k6 s hs]
    simp only [List.filter_append, e1, e2, e3, e4, e5, e6, List.append_nil, List.nil_append]

theorem exists_mem_congr (l r : List String) (i : Nat) (P : String → Prop)
    (hmem : ∀ s, insightRule s = i → (s ∈ l ↔ s ∈ r)) (hP : ∀ s, P s → insightRule s = i) :
    (∃ s ∈ l, P s) ↔ ∃ s ∈ r, P s := by
  constructor
  · rintro ⟨s, hs, hp⟩
    exact ⟨s, (hmem s (hP s hp)).1 hs, hp⟩
  · rintro ⟨s, hs, hp⟩
    exact ⟨s, (hmem s (hP s hp)).2 hs, hp⟩

/-- C7: when the try block of `generateInsights` completes and
`comparison.roi_difference || 0` is the number `d`, the list has the "Tweaked
Game provides much better ROI" sentence iff `d > 5`, the "Fair Game provides
much better ROI" sentence iff `d < -5`, neither iff `-5 ≤ d ≤ 5`, and never
both. -/
theorem roi_insight (E : JSEngine) (data : JVal) (l : List String) (d : ℚ)
    (hrun : tryBlock E data = Except.ok l)
    (hd : comparisonField data "roi_difference" = Except.ok (JVal.num d)) :
    generateInsights E data = Except.ok l ∧
    ((∃ s ∈ l, ∃ a b, s = roiTweakedBetter a b) ↔ 5 < d) ∧
    ((∃ s ∈ l, ∃ a b, s = roiFairBetter a b) ↔ d < -5) ∧
    (((¬ ∃ s ∈ l, ∃ a b, s = roiTweakedBetter a b) ∧ ¬ ∃ s ∈ l, ∃ a b, s = roiFairBetter a b)
      ↔ (-5 ≤ d ∧ d ≤ 5)) ∧
    ¬ ((∃ s ∈ l, ∃ a b, s = roiTweakedBetter a b) ∧ ∃ s ∈ l, ∃ a b, s = roiFairBetter a b) := by
  refine ⟨generateInsights_of_tryBlock E data l hrun, ?_⟩
  obtain ⟨fair, tweaked, comp, r2, r3, r4, r5, -, -, hc, h2, -, -, -, m2, -, -, -, -⟩ :=
    tryBlock_members E data l hrun
  obtain ⟨comp', v, hc', hv, hz⟩ := comparisonField_ok data _ _ hd
  rw [hc] at hc'
  cases ok_inj hc'
  obtain ⟨v', hv', hcase⟩ := roiRule_shape E fair tweaked comp r2 h2
  rw [hv] at hv'
  cases ok_inj hv'
  rw [hz] at hcase
  simp only [Except.ok.injEq, jsGt_num, jsLt_num, decide_eq_true_eq, decide_eq_false_iff_not, not_lt] at hcase
  have eT := exists_mem_congr l r2 2 (fun s => ∃ a b, s = roiTweakedBetter a b) m2
    (by rintro s ⟨a, b, rfl⟩; exact rule_roiTweakedBetter a b)
  have eF := exists_mem_congr l r2 2 (fun s => ∃ a b, s = roiFairBetter a b) m2
    (by rintro s ⟨a, b, rfl⟩; exact rule_roiFairBetter a b)
  simp only at eT eF
  rw [eT, eF]
  rcases hcase with ⟨hgt, a, b, rfl⟩ | ⟨hle, hlt, a, b, rfl⟩ | ⟨hle, hge, rfl⟩
  · have hT : ∃ s ∈ [roiTweakedBetter a b], ∃ a' b', s = roiTweakedBetter a' b' :=
      ⟨_, List.mem_singleton.2 rfl, a, b, rfl⟩
    have hF : ¬ ∃ s ∈ [roiTweakedBetter a b], ∃ a' b', s = roiFairBetter a' b' := by
      rintro ⟨s, hs, a', b', h⟩
      rw [List.mem_singleton.1 hs] at h
      exact roiTweakedBetter_ne_roiFairBetter a b a' b' h
    exact ⟨⟨fun _ => hgt, fun _ => hT⟩, ⟨fun h => absurd h hF, fun h => by linarith⟩,
      ⟨fun h => absurd hT h.1, fun h => by linarith⟩, fun h => hF h.2⟩
  · have hF : ∃ s ∈ [roiFairBetter a b], ∃ a' b', s = roiFairBetter a' b' :=
      ⟨_, List.mem_singleton.2 rfl, a, b, rfl⟩
    have hT : ¬ ∃ s ∈ [roiFairBetter a b], ∃ a' b', s = roiTweakedBetter a' b' := by
      rintro ⟨s, hs, a', b', h⟩
      rw [List.mem_singleton.1 hs] at h
      exact roiTweakedBetter_ne_roiFairBetter a' b' a b h.symm
    exact ⟨⟨fun h => absurd h hT, fun h => by linarith⟩, ⟨fun _ => hlt, fun _ => hF⟩,
      ⟨fun h => absurd hF h.2, fun h => by linarith⟩, fun h => hT h.1⟩
  · have hT : ¬ ∃ s ∈ ([] : List String), ∃ a' b', s = roiTweakedBetter a' b' := by simp
    have hF : ¬ ∃ s ∈ ([] : List String), ∃ a' b', s = roiFairBetter a' b' := by simp
    exact ⟨⟨fun h => absurd h hT, fun h => by linarith⟩,
      ⟨fun h => absurd h hF, fun h => by linarith⟩,
      ⟨fun _ => ⟨hge, hle⟩, fun _ => ⟨hT, hF⟩⟩, fun h => hT h.1⟩

/-- On the sample payload the ROI gap is 0 and neither ROI sentence is in the
list. -/
theorem roi_insight_witness :
    (¬ ∃ s ∈ sampleInsights, ∃ a b, s = roiTweakedBetter a b) ∧
    ¬ ∃ s ∈ sampleInsights, ∃ a b, s = roiFairBetter a b :=
  (roi_insight sampleEngine samplePayload sampleInsights 0 tryBlock_sample rfl).2.2.2.1.2
    ⟨by norm_num, by norm_num⟩


/-- C8: when the try block of `generateInsights` completes and
`comparison.house_edge_increase_rate || 0` is the number `h`, the list has the
"dramatically increases the house edge" sentence iff `h > 10`, the "moderately
increases casino profitability" sentence iff `5 < h ≤ 10`, and neither iff
`h ≤ 5`, so neither for a negative `h`. -/
theorem houseEdge_insight (E : JSEngine) (data : JVal) (l : List String) (h : ℚ)
    (hrun : tryBlock E data = Except.ok l)
    (hd : comparisonField data "house_edge_increase_rate" = Except.ok (JVal.num h)) :
    generateInsights E data = Except.ok l ∧
    ((∃ s ∈ l, ∃ a, s = houseEdgeDramatic a) ↔ 10 < h) ∧
    ((∃ s ∈ l, ∃ a, s = houseEdgeModerate a) ↔ (5 < h ∧ h ≤ 10)) ∧
    (((¬ ∃ s ∈ l, ∃ a, s = houseEdgeDramatic a) ∧ ¬ ∃ s ∈ l, ∃ a, s = houseEdgeModerate a)
      ↔ h ≤ 5) ∧
    (h < 0 →
      (¬ ∃ s ∈ l, ∃ a, s = houseEdgeDramatic a) ∧ ¬ ∃ s ∈ l, ∃ a, s = houseEdgeModerate a) := by
  refine ⟨generateInsights_of_tryBlock E data l hrun, ?_⟩
  obtain ⟨fair, tweaked, comp, r2, r3, r4, r5, -, -, hc, -, h3, -, -, -, m3, -, -, -⟩ :=
    tryBlock_members E data l hrun
  obtain ⟨comp', v, hc', hv, hz⟩ := comparisonField_ok data _ _ hd
  rw [hc] at hc'
  cases ok_inj hc'
  obtain ⟨v', hv', hcase⟩ := houseEdgeRule_shape E comp r3 h3
  rw [hv] at hv'
  cases ok_inj hv'
  rw [hz] at hcase
  simp only [Except.ok.injEq, jsGt_num, decide_eq_true_eq, decide_eq_false_iff_not, not_lt] at hcase
  have eD := exists_mem_congr l r3 3 (fun s => ∃ a, s = houseEdgeDramatic a) m3
    (by rintro s ⟨a, rfl⟩; exact rule_houseEdgeDramatic a)
  have eM := exists_mem_congr l r3 3 (fun s => ∃ a, s = houseEdgeModerate a) m3
    (by rintro s ⟨a, rfl⟩; exact rule_houseEdgeModerate a)
  simp only at eD eM
  rw [eD, eM]
  rcases hcase with ⟨hgt, a, rfl⟩ | ⟨hle, hgt, a, rfl⟩ | ⟨hle, hle5, rfl⟩
  · have hD : ∃ s ∈ [houseEdgeDramatic a], ∃ a', s = houseEdgeDramatic a' :=
      ⟨_, List.mem_singleton.2 rfl, a, rfl⟩
    have hM : ¬ ∃ s ∈ [houseEdgeDramatic a], ∃ a', s = houseEdgeModerate a' := by
      rintro ⟨s, hs, a', h'⟩
      rw [List.mem_singleton.1 hs] at h'
      exact houseEdgeDramatic_ne_houseEdgeModerate a a' h'
    exact ⟨⟨fun _ => hgt, fun _ => hD⟩, ⟨fun h' => absurd h' hM, fun h' => by linarith [h'.2]⟩,
      ⟨fun h' => absurd hD h'.1, fun h' => by linarith⟩, fun h' => by linarith⟩
  · have hM : ∃ s ∈ [houseEdgeModerate a], ∃ a', s = houseEdgeModerate a' :=
      ⟨_, List.mem_singleton.2 rfl, a, rfl⟩
    have hD : ¬ ∃ s ∈ [houseEdgeModerate a], ∃ a', s = houseEdgeDramatic a' := by
      rintro ⟨s, hs, a', h'⟩
      rw [List.mem_singleton.1 hs] at h'
      exact houseEdgeDramatic_ne_houseEdgeModerate a' a h'.symm
    exact ⟨⟨fun h' => absurd h' hD, fun h' => by linarith⟩, ⟨fun _ => ⟨hgt, hle⟩, fun _ => hM⟩,
      ⟨fun h' => absurd hM h'.2, fun h' => by linarith⟩, fun h' => by linarith⟩
  · have hD : ¬ ∃ s ∈ ([] : List String), ∃ a', s = houseEdgeDramatic a' := by simp
    have hM : ¬ ∃ s ∈ ([] : List String), ∃ a', s = houseEdgeModerate a' := by simp
    exact ⟨⟨fun h' => absurd h' hD, fun h' => by linarith⟩,
      ⟨fun h' => absurd h' hM, fun h' => by linarith [h'.1]⟩,
      ⟨fun _ => hle5, fun _ => ⟨hD, hM⟩⟩, fun _ => ⟨hD, hM⟩⟩

/-- On the sample payload the house-edge increase is 0 and neither house-edge
sentence is in the list. -/
theorem houseEdge_insight_witness :
    (¬ ∃ s ∈ sampleInsights, ∃ a, s = houseEdgeDramatic a) ∧
    ¬ ∃ s ∈ sampleInsights, ∃ a, s = houseEdgeModerate a :=
  (houseEdge_insight sampleEngine samplePayload sampleInsights 0 tryBlock_sample rfl).2.2.2.1.2
    (by norm_num)

/-- C9: when the try block of `generateInsights` completes,
`comparison.house_profit_increase || 0` is the number `p`, and `bet_amount`
and `num_rounds` are the numbers `b` and `n`, a house-profit sentence is in the
list iff `|p| > b * n * 0.1`, the right-hand side being the number the program
computes (`thresholdOf`: each of the two products rounded to the binary64
format); when that number is the finite `t`, this is `t < |p|`, for a bet of 1
and 100 rounds it is 10, and when `|p|` is a value of the binary64 format a
sentence in the list has `|p|` above the exact product `b * n / 10` as well.
The sentence is the "casino profits significantly more from the Tweaked Game"
sentence when `p > 0` and the "Unexpectedly, the Fair Game resulted in more
house profit" sentence otherwise. -/
theorem houseProfit_insight (E : JSEngine) (data : JVal) (l : List String) (p b n : ℚ)
    (hrun : tryBlock E data = Except.ok l)
    (hp : comparisonField data "house_profit_increase" = Except.ok (JVal.num p))
    (hb : getProp data "bet_amount" = Except.ok (JVal.num b))
    (hn : getProp data "num_rounds" = Except.ok (JVal.num n)) :
    generateInsights E data = Except.ok l ∧
    ((∃ s ∈ l, (∃ a, s = profitTweakedMore a) ∨ ∃ a, s = profitFairMore a)
      ↔ numberGt (JNumber.finite |p|) (thresholdOf b n) = true) ∧
    ((∃ s ∈ l, ∃ a, s = profitTweakedMore a)
      ↔ (numberGt (JNumber.finite |p|) (thresholdOf b n) = true ∧ 0 < p)) ∧
    ((∃ s ∈ l, ∃ a, s = profitFairMore a)
      ↔ (numberGt (JNumber.finite |p|) (thresholdOf b n) = true ∧ ¬ 0 < p)) ∧
    (∀ t, thresholdOf b n = JNumber.finite t →
      (numberGt (JNumber.finite |p|) (thresholdOf b n) = true ↔ t < |p|)) ∧
    (roundDouble |p| = JNumber.finite |p| →
      numberGt (JNumber.finite |p|) (thresholdOf b n) = true → b * n * (1 / 10) < |p|) ∧
    thresholdOf 1 100 = JNumber.finite 10 := by
  refine ⟨generateInsights_of_tryBlock E data l hrun, ?_⟩
  have hexact : roundDouble |p| = JNumber.finite |p| →
      numberGt (JNumber.finite |p|) (thresholdOf b n) = true → b * n * (1 / 10) < |p| := by
    intro hdouble hgt
    by_contra hnot
    rw [not_above_of_exact b n p hdouble hnot] at hgt
    exact Bool.false_ne_true hgt
  have hfinite : ∀ t, thresholdOf b n = JNumber.finite t →
      (numberGt (JNumber.finite |p|) (thresholdOf b n) = true ↔ t < |p|) := by
    intro t ht
    rw [ht]
    simp [numberGt]
  suffices hmain :
      ((∃ s ∈ l, (∃ a, s = profitTweakedMore a) ∨ ∃ a, s = profitFairMore a)
        ↔ numberGt (JNumber.finite |p|) (thresholdOf b n) = true) ∧
      ((∃ s ∈ l, ∃ a, s = profitTweakedMore a)
        ↔ (numberGt (JNumber.finite |p|) (thresholdOf b n) = true ∧ 0 < p)) ∧
      ((∃ s ∈ l, ∃ a, s = profitFairMore a)
        ↔ (numberGt (JNumber.finite |p|) (thresholdOf b n) = true ∧ ¬ 0 < p)) by
    obtain ⟨hB, hT, hF⟩ := hmain
    exact ⟨hB, hT, hF, hfinite, hexact, thresholdOf_sample⟩
  obtain ⟨fair, tweaked, comp, r2, r3, r4, r5, -, -, hc, -, -, h4, -, -, -, m4, -, -⟩ :=
    tryBlock_members E data l hrun
  obtain ⟨comp', v, hc', hv, hz⟩ := comparisonField_ok data _ _ hp
  rw [hc] at hc'
  cases ok_inj hc'
  obtain ⟨v', m, t, hv', hm, ht, hcase⟩ := houseProfitRule_shape E data comp r4 h4
  rw [hv] at hv'
  cases ok_inj hv'
  rw [profitThreshold_num E data b n hb hn] at ht
  cases ok_inj ht
  rw [hz] at hcase hm
  rw [mathAbs_num] at hm
  cases ok_inj hm
  simp only [Except.ok.injEq, jsGt_num, ofOption, decide_eq_true_eq, decide_eq_false_iff_not]
    at hcase
  have eB := exists_mem_congr l r4 4
    (fun s => (∃ a, s = profitTweakedMore a) ∨ ∃ a, s = profitFairMore a) m4
    (by rintro s (⟨a, rfl⟩ | ⟨a, rfl⟩)
        · exact rule_profitTweakedMore a
        · exact rule_profitFairMore a)
  have eT := exists_mem_congr l r4 4 (fun s => ∃ a, s = profitTweakedMore a) m4
    (by rintro s ⟨a, rfl⟩; exact rule_profitTweakedMore a)
  have eF := exists_mem_congr l r4 4 (fun s => ∃ a, s = profitFairMore a) m4
    (by rintro s ⟨a, rfl⟩; exact rule_profitFairMore a)
  simp only at eB eT eF
  rw [eB, eT, eF]
  rcases hcase with ⟨hgt, hpos, a, rfl⟩ | ⟨hgt, hneg, a, rfl⟩ | ⟨hle, rfl⟩
  · have hT : ∃ s ∈ [profitTweakedMore a], ∃ a', s = profitTweakedMore a' :=
      ⟨_, List.mem_singleton.2 rfl, a, rfl⟩
    have hF : ¬ ∃ s ∈ [profitTweakedMore a], ∃ a', s = profitFairMore a' := by
      rintro ⟨s, hs, a', h'⟩
      rw [List.mem_singleton.1 hs] at h'
      exact profitTweakedMore_ne_profitFairMore a a' h'
    exact ⟨⟨fun _ => hgt, fun _ => ⟨_, List.mem_singleton.2 rfl, Or.inl ⟨a, rfl⟩⟩⟩,
      ⟨fun _ => ⟨hgt, hpos⟩, fun _ => hT⟩, ⟨fun h' => absurd h' hF, fun h' => absurd hpos h'.2⟩⟩
  · have hF : ∃ s ∈ [profitFairMore a], ∃ a', s = profitFairMore a' :=
      ⟨_, List.mem_singleton.2 rfl, a, rfl⟩
    have hT : ¬ ∃ s ∈ [profitFairMore a], ∃ a', s = profitTweakedMore a' := by
      rintro ⟨s, hs, a', h'⟩
      rw [List.mem_singleton.1 hs] at h'
      exact profitTweakedMore_ne_profitFairMore a' a h'.symm
    exact ⟨⟨fun _ => hgt, fun _ => ⟨_, List.mem_singleton.2 rfl, Or.inr ⟨a, rfl⟩⟩⟩,
      ⟨fun h' => absurd h' hT, fun h' => absurd h'.2 hneg⟩, ⟨fun _ => ⟨hgt, hneg⟩, fun _ => hF⟩⟩
  · have hno : ¬ numberGt (JNumber.finite |p|) (thresholdOf b n) = true := by
      rw [hle]
      exact Bool.false_ne_true
    exact ⟨⟨fun h' => by simp at h', fun h' => absurd h' hno⟩,
      ⟨fun h' => by simp at h', fun h' => absurd h'.1 hno⟩,
      ⟨fun h' => by simp at h', fun h' => absurd h'.1 hno⟩⟩

/-- With a bet of 1 and 100 rounds the threshold is 10: a house profit
increase of 1000 gives the "casino profits significantly more" sentence and an
increase of 5 gives no house-profit sentence. With a bet of 1 and 3 rounds the
threshold is 0.30000000000000004, and a house profit increase of that value,
a value of the binary64 format above three tenths, gives no house-profit
sentence. -/
theorem houseProfit_insight_witness :
    thresholdOf 1 100 = JNumber.finite 10 ∧
    (∃ s ∈ sampleInsights, ∃ a, s = profitTweakedMore a) ∧
    (¬ ∃ s ∈ smallProfitInsights, (∃ a, s = profitTweakedMore a) ∨ ∃ a, s = profitFairMore a) ∧
    thresholdOf 1 3 = JNumber.finite threeTenthsRounded ∧
    roundDouble threeTenthsRounded = JNumber.finite threeTenthsRounded ∧
    (1 : ℚ) * 3 * (1 / 10) < |threeTenthsRounded| ∧
    tryBlock sampleEngine payloadThreeRounds = Except.ok smallProfitInsights := by
  obtain ⟨_hrun, _hany, htweaked, _hfair, hlarge, _hexact, hten⟩ :=
    houseProfit_insight sampleEngine samplePayload sampleInsights 1000 1 100 tryBlock_sample
      rfl rfl rfl
  obtain ⟨_hrun5, hany5, _htweaked5, _hfair5, hsmall, _hexact5, _hten5⟩ :=
    houseProfit_insight sampleEngine payloadSmallProfit smallProfitInsights 5 1 100
      tryBlock_smallProfit rfl rfl rfl
  refine ⟨hten, htweaked.2 ⟨(hlarge 10 hten).2 (by norm_num), by norm_num⟩, ?_,
    thresholdOf_rounded, roundDouble_threeTenthsRounded, ?_, tryBlock_threeRounds⟩
  · intro h
    have hlt : (10 : ℚ) < |5| := (hsmall 10 hten).1 (hany5.1 h)
    norm_num at hlt
  · unfold threeTenthsRounded
    norm_num [abs_of_pos]


/-- C10: when the try block of `generateInsights` completes and the two
`results.theoretical_vs_actual_deviation || 0` are the numbers `x` (fair) and
`y` (tweaked), exactly one deviation sentence is in the list: the "Large
deviations" sentence iff `|x| > 20` or `|y| > 20`, and the "Theoretical
predictions closely match actual results" sentence otherwise. -/
theorem deviation_insight (E : JSEngine) (data : JVal) (l : List String) (x y : ℚ)
    (hrun : tryBlock E data = Except.ok l)
    (hx : resultsField data "fair_game" "theoretical_vs_actual_deviation"
      = Except.ok (JVal.num x))
    (hy : resultsField data "tweaked_game" "theoretical_vs_actual_deviation"
      = Except.ok (JVal.num y)) :
    generateInsights E data = Except.ok l ∧
    ((∃ s ∈ l, ∃ a b, s = deviationLarge a b) ↔ (20 < |x| ∨ 20 < |y|)) ∧
    ((∃ s ∈ l, ∃ a b, s = deviationClose a b) ↔ ¬ (20 < |x| ∨ 20 < |y|)) ∧
    ∃ s, l.filter (fun s => decide (insightRule s = 5)) = [s] ∧
      ((∃ a b, s = deviationLarge a b) ∨ ∃ a b, s = deviationClose a b) := by
  refine ⟨generateInsights_of_tryBlock E data l hrun, ?_⟩
  obtain ⟨fair, tweaked, comp, r2, r3, r4, r5, hf, ht, -, -, -, -, h5, -, -, -, m5, hfilter⟩ :=
    tryBlock_members E data l hrun
  obtain ⟨fg, fr, vx, hfg, hfr, hvx, hzx⟩ := resultsField_ok data _ _ _ hx
  obtain ⟨tg, tr, vy, htg, htr, hvy, hzy⟩ := resultsField_ok data _ _ _ hy
  rw [hf] at hfg
  cases ok_inj hfg
  rw [ht] at htg
  cases ok_inj htg
  obtain ⟨fr', x', tr', y', dx, dy, h1, h2, h3, h4, hdx, hdy, hcase⟩ :=
    deviationRule_shape E fair tweaked r5 h5
  rw [hfr] at h1
  cases ok_inj h1
  rw [htr] at h3
  cases ok_inj h3
  rw [hvx] at h2
  cases ok_inj h2
  rw [hvy] at h4
  cases ok_inj h4
  rw [hzx, mathAbs_num] at hdx
  rw [hzy, mathAbs_num] at hdy
  cases ok_inj hdx
  cases ok_inj hdy
  simp only [Except.ok.injEq, mathAbs_num, numGt_some, Bool.or_eq_true, Bool.or_eq_false_iff, decide_eq_true_eq,
    decide_eq_false_iff_not] at hcase
  have eL := exists_mem_congr l r5 5 (fun s => ∃ a b, s = deviationLarge a b) m5
    (by rintro s ⟨a, b, rfl⟩; exact rule_deviationLarge a b)
  have eC := exists_mem_congr l r5 5 (fun s => ∃ a b, s = deviationClose a b) m5
    (by rintro s ⟨a, b, rfl⟩; exact rule_deviationClose a b)
  simp only at eL eC
  rw [eL, eC, hfilter]
  rcases hcase with ⟨hbig, a, b, rfl⟩ | ⟨hsmall, a, b, rfl⟩
  · have hL : ∃ s ∈ [deviationLarge a b], ∃ a' b', s = deviationLarge a' b' :=
      ⟨_, List.mem_singleton.2 rfl, a, b, rfl⟩
    have hC : ¬ ∃ s ∈ [deviationLarge a b], ∃ a' b', s = deviationClose a' b' := by
      rintro ⟨s, hs, a', b', h'⟩
      rw [List.mem_singleton.1 hs] at h'
      exact deviationLarge_ne_deviationClose a b a' b' h'
    exact ⟨⟨fun _ => hbig, fun _ => hL⟩, ⟨fun h' => absurd h' hC, fun h' => absurd hbig h'⟩,
      _, rfl, Or.inl ⟨a, b, rfl⟩⟩
  · have hC : ∃ s ∈ [deviationClose a b], ∃ a' b', s = deviationClose a' b' :=
      ⟨_, List.mem_singleton.2 rfl, a, b, rfl⟩
    have hL : ¬ ∃ s ∈ [deviationClose a b], ∃ a' b', s = deviationLarge a' b' := by
      rintro ⟨s, hs, a', b', h'⟩
      rw [List.mem_singleton.1 hs] at h'
      exact deviationLarge_ne_deviationClose a' b' a b h'.symm
    have hnot : ¬ (20 < |x| ∨ 20 < |y|) := fun h' => h'.elim hsmall.1 hsmall.2
    exact ⟨⟨fun h' => absurd h' hL, fun h' => absurd h' hnot⟩, ⟨fun _ => hnot, fun _ => hC⟩,
      _, rfl, Or.inr ⟨a, b, rfl⟩⟩

/-- On the sample payload both deviations are 3 and the list has the
"Theoretical predictions closely match actual results" sentence. -/
theorem deviation_insight_witness :
    ∃ s ∈ sampleInsights, ∃ a b, s = deviationClose a b :=
  (deviation_insight sampleEngine samplePayload sampleInsights 3 3 tryBlock_sample
    rfl rfl).2.2.1.2 (by norm_num)


/-! ### Reading the blocks of a payload on which the try block completes -/

theorem getProp_ok_all (v : JVal) (k : String) (x : JVal) (h : getProp v k = Except.ok x) :
    ∀ k', getProp v k' = Except.ok (peek v k') := by
  cases v <;> simp_all [getProp, peek]

theorem peek_of_getProp (v : JVal) (k : String) (x : JVal) (h : getProp v k = Except.ok x) :
    peek v k = x := by
  simp [peek, h]

theorem resultsValue_ok (data : JVal) (variant k : String) (x : JVal)
    (h : resultsValue data variant k = Except.ok x) :
    ∃ game results, getProp data variant = Except.ok game ∧
      getProp game "results" = Except.ok results ∧ getProp results k = Except.ok x := by
  unfold resultsValue at h
  simp only [bind_eq_ok] at h
  obtain ⟨game, hg, results, hr, hx⟩ := h
  exact ⟨game, results, hg, hr, hx⟩

theorem length_le_one_of_shape (r : List String) (h : r = [] ∨ ∃ s, r = [s]) : r.length ≤ 1 := by
  rcases h with rfl | ⟨s, rfl⟩ <;> simp

theorem roiRule_length (E : JSEngine) (fair tweaked comp : JVal) (r : List String)
    (h : roiRule E fair tweaked comp = Except.ok r) : r.length ≤ 1 := by
  obtain ⟨v, -, h1 | h1 | h1⟩ := roiRule_shape E fair tweaked comp r h
  · obtain ⟨-, a, b, rfl⟩ := h1; simp
  · obtain ⟨-, -, a, b, rfl⟩ := h1; simp
  · obtain ⟨-, -, rfl⟩ := h1; simp

theorem houseEdgeRule_length (E : JSEngine) (comp : JVal) (r : List String)
    (h : houseEdgeRule E comp = Except.ok r) : r.length ≤ 1 := by
  obtain ⟨v, -, h1 | h1 | h1⟩ := houseEdgeRule_shape E comp r h
  · obtain ⟨-, a, rfl⟩ := h1; simp
  · obtain ⟨-, -, a, rfl⟩ := h1; simp
  · obtain ⟨-, -, rfl⟩ := h1; simp

theorem houseProfitRule_length (E : JSEngine) (data comp : JVal) (r : List String)
    (h : houseProfitRule E data comp = Except.ok r) : r.length ≤ 1 := by
  obtain ⟨v, m, t, -, -, -, h1 | h1 | h1⟩ := houseProfitRule_shape E data comp r h
  · obtain ⟨-, -, a, rfl⟩ := h1; simp
  · obtain ⟨-, -, a, rfl⟩ := h1; simp
  · obtain ⟨-, rfl⟩ := h1; simp

theorem deviationRule_length (E : JSEngine) (fair tweaked : JVal) (r : List String)
    (h : deviationRule E fair tweaked = Except.ok r) : r.length = 1 := by
  obtain ⟨fr, x, tr, y, dx, dy, -, -, -, -, -, -, h1 | h1⟩ :=
    deviationRule_shape E fair tweaked r h
  · obtain ⟨-, a, b, rfl⟩ := h1; simp
  · obtain ⟨-, a, b, rfl⟩ := h1; simp

theorem streakRule_length (E : JSEngine) (fair tweaked : JVal) (r : List String)
    (h : streakRule E fair tweaked = Except.ok r) : r.length ≤ 1 := by
  rcases streakRule_shape E fair tweaked r h with rfl | ⟨a, rfl⟩ <;> simp

theorem pairwise_of_length_le_one (R : String → String → Prop) (r : List String)
    (h : r.length ≤ 1) : r.Pairwise R := by
  cases r with
  | nil => exact List.Pairwise.nil
  | cons a t =>
    cases t with
    | nil => simp
    | cons b u => simp at h

/-- A completed try block with everything the later properties use: the
blocks read, the result of each rule, the list as their concatenation and the
rule each pushed sentence belongs to. -/
theorem tryBlock_parts (E : JSEngine) (data : JVal) (l : List String)
    (h : tryBlock E data = Except.ok l) :
    ∃ fair tweaked comp fr tr r1 r2 r3 r4 r5 r6,
      getProp data "fair_game" = Except.ok fair ∧
      getProp data "tweaked_game" = Except.ok tweaked ∧
      getProp data "comparison" = Except.ok comp ∧
      getProp fair "results" = Except.ok fr ∧
      getProp tweaked "results" = Except.ok tr ∧
      winRateRule E fair tweaked comp = Except.ok r1 ∧
      roiRule E fair tweaked comp = Except.ok r2 ∧
      houseEdgeRule E comp = Except.ok r3 ∧
      houseProfitRule E data comp = Except.ok r4 ∧
      deviationRule E fair tweaked = Except.ok r5 ∧
      streakRule E fair tweaked = Except.ok r6 ∧
      l = r1 ++ r2 ++ r3 ++ r4 ++ r5 ++ r6 ∧
      (∀ s ∈ r1, insightRule s = 1) ∧ (∀ s ∈ r2, insightRule s = 2) ∧
      (∀ s ∈ r3, insightRule s = 3) ∧ (∀ s ∈ r4, insightRule s = 4) ∧
      (∀ s ∈ r5, insightRule s = 5) ∧ (∀ s ∈ r6, insightRule s = 6) := by
  obtain ⟨fair, tweaked, comp, r1, r2, r3, r4, r5, r6, hf, ht, hc, h1, h2, h3, h4, h5, h6, hl⟩ :=
    tryBlock_ok E data l h
  obtain ⟨fr, x, tr, y, dx, dy, hfr, -, htr, -, -, -, -⟩ :=
    deviationRule_shape E fair tweaked r5 h5
  exact ⟨fair, tweaked, comp, fr, tr, r1, r2, r3, r4, r5, r6, hf, ht, hc, hfr, htr, h1, h2, h3,
    h4, h5, h6, hl, (winRateRule_rule E fair tweaked comp r1 h1).2,
    roiRule_rule E fair tweaked comp r2 h2, houseEdgeRule_rule E comp r3 h3,
    houseProfitRule_rule E data comp r4 h4, deviationRule_rule E fair tweaked r5 h5,
    streakRule_rule E fair tweaked r6 h6⟩

theorem mathMax_num (E : JSEngine) (a b : ℚ) :
    mathMax E (JVal.num a) (JVal.num b) = Except.ok (some (max a b)) := by
  simp [mathMax, toNumber_num, bind, Except.bind, pure, Except.pure]

/-- The streak rule on blocks one of whose `results.streaks` is falsy. -/
theorem streakRule_absent (E : JSEngine) (fair tweaked fr tr fs ts : JVal)
    (h1 : getProp fair "results" = Except.ok fr) (h2 : getProp fr "streaks" = Except.ok fs)
    (h3 : getProp tweaked "results" = Except.ok tr) (h4 : getProp tr "streaks" = Except.ok ts)
    (h : truthy fs = false ∨ truthy ts = false) :
    streakRule E fair tweaked = Except.ok [] := by
  unfold streakRule
  by_cases hfs : truthy fs = true
  · have hts : truthy ts = false := by
      rcases h with h | h
      · rw [hfs] at h
        cases h
      · exact h
    simp [h1, h2, h3, h4, hfs, hts, bind, Except.bind, pure, Except.pure]
  · simp [h1, h2, hfs, bind, Except.bind, pure, Except.pure]

/-- The streak rule on blocks whose `results.streaks` are truthy and have the
numbers `a` and `b` as `max_loss_streak`. -/
theorem streakRule_eval (E : JSEngine) (fair tweaked fr tr fs ts : JVal) (a b : ℚ)
    (h1 : getProp fair "results" = Except.ok fr) (h2 : getProp fr "streaks" = Except.ok fs)
    (h3 : getProp tweaked "results" = Except.ok tr) (h4 : getProp tr "streaks" = Except.ok ts)
    (hfs : truthy fs = true) (hts : truthy ts = true)
    (ha : getProp fs "max_loss_streak" = Except.ok (JVal.num a))
    (hb : getProp ts "max_loss_streak" = Except.ok (JVal.num b)) :
    streakRule E fair tweaked = Except.ok
      (if 10 < a ∨ 10 < b then [longLosingStreaks (E.numberToString (max a b))] else []) := by
  unfold streakRule
  by_cases hca : 10 < a
  · simp [h1, h2, h3, h4, hfs, hts, ha, hb, hca, jsGt_num, mathMax_num, numToString, bind,
      Except.bind, pure, Except.pure]
  · by_cases hcb : 10 < b
    · simp [h1, h2, h3, h4, hfs, hts, ha, hb, hca, hcb, jsGt_num, mathMax_num, numToString, bind,
        Except.bind, pure, Except.pure]
    · simp [h1, h2, h3, h4, hfs, hts, ha, hb, hca, hcb, jsGt_num, mathMax_num, numToString, bind,
        Except.bind, pure, Except.pure]


theorem tryBlock_payloadWithStreaks :
    tryBlock sampleEngine payloadWithStreaks = Except.ok streakInsights := by
  have h1 : winRateRule sampleEngine (sampleGameWithStreaks 55 2 3 12)
      (sampleGameWithStreaks 50 1 3 8) (sampleComparison 5 0 0 5)
      = Except.ok [winFairHigher "55.0" "50.0"] := rfl
  have h2 : roiRule sampleEngine (sampleGameWithStreaks 55 2 3 12)
      (sampleGameWithStreaks 50 1 3 8) (sampleComparison 5 0 0 5) = Except.ok [] := rfl
  have h3 : houseEdgeRule sampleEngine (sampleComparison 5 0 0 5) = Except.ok [] := rfl
  have h4 : houseProfitRule sampleEngine payloadWithStreaks (sampleComparison 5 0 0 5)
      = Except.ok [] := by
    have ht : profitThreshold sampleEngine payloadWithStreaks
        = Except.ok (JNumber.finite 10) := by
      rw [profitThreshold_num sampleEngine payloadWithStreaks 1 100 rfl rfl, thresholdOf_sample]
    unfold houseProfitRule
    simp [ht, sampleComparison, getProp, lookupKey, orZero, truthy, bind, Except.bind, pure,
      Except.pure, mathAbs_num, jsGt_num, ofOption, numberGt, callToFixed]
    norm_num
  have h5 : deviationRule sampleEngine (sampleGameWithStreaks 55 2 3 12)
      (sampleGameWithStreaks 50 1 3 8) = Except.ok [deviationClose "3.0" "3.0"] := rfl
  have h6 : streakRule sampleEngine (sampleGameWithStreaks 55 2 3 12)
      (sampleGameWithStreaks 50 1 3 8) = Except.ok [longLosingStreaks "12"] := rfl
  have hf : getProp payloadWithStreaks "fair_game"
      = Except.ok (sampleGameWithStreaks 55 2 3 12) := rfl
  have ht : getProp payloadWithStreaks "tweaked_game"
      = Except.ok (sampleGameWithStreaks 50 1 3 8) := rfl
  have hc : getProp payloadWithStreaks "comparison"
      = Except.ok (sampleComparison 5 0 0 5) := rfl
  unfold tryBlock insightRules
  simp only [hf, ht, hc, h1, h2, h3, h4, h5, h6, bind, Except.bind]
  rfl

/-- C11: when the try block of `generateInsights` completes, the "Long losing
streaks observed" sentence is not in the list if `results.streaks` is absent
(or otherwise falsy) on either game. If it is present on both, with
`max_loss_streak` the numbers `a` and `b`, the sentence is in the list iff
`a > 10` or `b > 10`, and it cites the larger of `a` and `b`. -/
theorem streak_insight (E : JSEngine) (data : JVal) (l : List String) (fs ts : JVal)
    (hrun : tryBlock E data = Except.ok l)
    (hfs : resultsValue data "fair_game" "streaks" = Except.ok fs)
    (hts : resultsValue data "tweaked_game" "streaks" = Except.ok ts) :
    generateInsights E data = Except.ok l ∧
    ((truthy fs = false ∨ truthy ts = false) → ¬ ∃ s ∈ l, ∃ n, s = longLosingStreaks n) ∧
    (∀ a b : ℚ, truthy fs = true → truthy ts = true →
      getProp fs "max_loss_streak" = Except.ok (JVal.num a) →
      getProp ts "max_loss_streak" = Except.ok (JVal.num b) →
      ((∃ s ∈ l, ∃ n, s = longLosingStreaks n) ↔ (10 < a ∨ 10 < b)) ∧
      (∀ s ∈ l, (∃ n, s = longLosingStreaks n) →
        s = longLosingStreaks (E.numberToString (max a b)))) := by
  refine ⟨generateInsights_of_tryBlock E data l hrun, ?_⟩
  obtain ⟨fair, tweaked, comp, fr, tr, r1, r2, r3, r4, r5, r6, hf, ht, -, hfr, htr, -, -, -, -, -,
    h6, rfl, k1, k2, k3, k4, k5, k6⟩ := tryBlock_parts E data l hrun
  obtain ⟨fg, fres, hfg, hfres, hfv⟩ := resultsValue_ok data _ _ _ hfs
  obtain ⟨tg, tres, htg, htres, htv⟩ := resultsValue_ok data _ _ _ hts
  rw [hf] at hfg
  cases ok_inj hfg
  rw [ht] at htg
  cases ok_inj htg
  rw [hfr] at hfres
  cases ok_inj hfres
  rw [htr] at htres
  cases ok_inj htres
  have hmem : ∀ s, (∃ n, s = longLosingStreaks n) →
      (s ∈ r1 ++ r2 ++ r3 ++ r4 ++ r5 ++ r6 ↔ s ∈ r6) := by
    rintro s ⟨n, rfl⟩
    exact ⟨fun hm => (mem_of_rule r1 r2 r3 r4 r5 r6 k1 k2 k3 k4 k5 k6 _ hm).2.2.2.2.2
      (rule_longLosingStreaks n), fun hm => by simp [hm]⟩
  constructor
  · intro habsent
    rintro ⟨s, hs, n, hn⟩
    have hs6 := (hmem s ⟨n, hn⟩).1 hs
    have heval := streakRule_absent E fair tweaked fr tr fs ts hfr hfv htr htv habsent
    rw [h6] at heval
    rw [ok_inj heval] at hs6
    simp at hs6
  · intro a b hfa htb ha hb
    have heval := streakRule_eval E fair tweaked fr tr fs ts a b hfr hfv htr htv hfa htb ha hb
    rw [h6] at heval
    have hr6 := ok_inj heval
    by_cases hc : 10 < a ∨ 10 < b
    · rw [if_pos hc] at hr6
      constructor
      · exact ⟨fun _ => hc, fun _ =>
          ⟨longLosingStreaks (E.numberToString (max a b)), by simp [hr6], _, rfl⟩⟩
      · intro s hs hn
        have hs6 := (hmem s hn).1 hs
        rw [hr6] at hs6
        exact List.mem_singleton.1 hs6
    · rw [if_neg hc] at hr6
      constructor
      · constructor
        · rintro ⟨s, hs, hn⟩
          have hs6 := (hmem s hn).1 hs
          rw [hr6] at hs6
          simp at hs6
        · intro h
          exact absurd h hc
      · intro s hs hn
        have hs6 := (hmem s hn).1 hs
        rw [hr6] at hs6
        simp at hs6

/-- On the payload with streak data the longest losing streaks are 12 and 8:
the sentence is in the list and cites 12. On the sample payload, which has no
streak data, the sentence is not in the list. -/
theorem streak_insight_witness :
    ((∃ s ∈ streakInsights, ∃ n, s = longLosingStreaks n) ↔ ((10 : ℚ) < 12 ∨ (10 : ℚ) < 8)) ∧
    (∀ s ∈ streakInsights, (∃ n, s = longLosingStreaks n) →
      s = longLosingStreaks (sampleEngine.numberToString (max 12 8))) ∧
    ¬ ∃ s ∈ sampleInsights, ∃ n, s = longLosingStreaks n :=
  ⟨((streak_insight sampleEngine payloadWithStreaks streakInsights _ _
      tryBlock_payloadWithStreaks rfl rfl).2.2 12 8 rfl rfl rfl rfl).1,
   ((streak_insight sampleEngine payloadWithStreaks streakInsights _ _
      tryBlock_payloadWithStreaks rfl rfl).2.2 12 8 rfl rfl rfl rfl).2,
   (streak_insight sampleEngine samplePayload sampleInsights JVal.undefined JVal.undefined
      tryBlock_sample rfl rfl).2.1 (Or.inl rfl)⟩

/-- C12: when the try block of `generateInsights` completes, the list is what
the win-rate rule, the ROI rule, the house-edge rule, the house-profit rule,
the deviation rule and the streak rule pushed, concatenated in this order;
each rule pushed at most one sentence, and along the list the rule numbers
increase strictly, so no sentence of a later rule precedes one of an earlier
rule. -/
theorem insight_order (E : JSEngine) (data : JVal) (l : List String)
    (hrun : tryBlock E data = Except.ok l) :
    generateInsights E data = Except.ok l ∧
    (∃ fair tweaked comp r1 r2 r3 r4 r5 r6,
      getProp data "fair_game" = Except.ok fair ∧
      getProp data "tweaked_game" = Except.ok tweaked ∧
      getProp data "comparison" = Except.ok comp ∧
      winRateRule E fair tweaked comp = Except.ok r1 ∧
      roiRule E fair tweaked comp = Except.ok r2 ∧
      houseEdgeRule E comp = Except.ok r3 ∧
      houseProfitRule E data comp = Except.ok r4 ∧
      deviationRule E fair tweaked = Except.ok r5 ∧
      streakRule E fair tweaked = Except.ok r6 ∧
      l = r1 ++ r2 ++ r3 ++ r4 ++ r5 ++ r6 ∧
      r1.length ≤ 1 ∧ r2.length ≤ 1 ∧ r3.length ≤ 1 ∧ r4.length ≤ 1 ∧ r5.length ≤ 1 ∧
      r6.length ≤ 1) ∧
    l.Pairwise (fun s t => insightRule s < insightRule t) := by
  refine ⟨generateInsights_of_tryBlock E data l hrun, ?_⟩
  obtain ⟨fair, tweaked, comp, fr, tr, r1, r2, r3, r4, r5, r6, hf, ht, hc, -, -, h1, h2, h3, h4,
    h5, h6, rfl, k1, k2, k3, k4, k5, k6⟩ := tryBlock_parts E data l hrun
  have l1 : r1.length ≤ 1 := by
    obtain ⟨⟨s, rfl⟩, -⟩ := winRateRule_rule E fair tweaked comp r1 h1
    simp
  have l2 := roiRule_length E fair tweaked comp r2 h2
  have l3 := houseEdgeRule_length E comp r3 h3
  have l4 := houseProfitRule_length E data comp r4 h4
  have l5 : r5.length ≤ 1 := le_of_eq (deviationRule_length E fair tweaked r5 h5)
  have l6 := streakRule_length E fair tweaked r6 h6
  refine ⟨⟨fair, tweaked, comp, r1, r2, r3, r4, r5, r6, hf, ht, hc, h1, h2, h3, h4, h5, h6, rfl,
    l1, l2, l3, l4, l5, l6⟩, ?_⟩
  simp only [List.pairwise_append, List.mem_append]
  refine ⟨⟨⟨⟨⟨pairwise_of_length_le_one _ r1 l1, pairwise_of_length_le_one _ r2 l2, ?_⟩,
    pairwise_of_length_le_one _ r3 l3, ?_⟩, pairwise_of_length_le_one _ r4 l4, ?_⟩,
    pairwise_of_length_le_one _ r5 l5, ?_⟩, pairwise_of_length_le_one _ r6 l6, ?_⟩
  · intro a ha b hb
    rw [k1 a ha, k2 b hb]
    decide
  · rintro a (ha | ha) b hb
    · rw [k1 a ha, k3 b hb]; decide
    · rw [k2 a ha, k3 b hb]; decide
  · rintro a ((ha | ha) | ha) b hb
    · rw [k1 a ha, k4 b hb]; decide
    · rw [k2 a ha, k4 b hb]; decide
    · rw [k3 a ha, k4 b hb]; decide
  · rintro a (((ha | ha) | ha) | ha) b hb
    · rw [k1 a ha, k5 b hb]; decide
    · rw [k2 a ha, k5 b hb]; decide
    · rw [k3 a ha, k5 b hb]; decide
    · rw [k4 a ha, k5 b hb]; decide
  · rintro a ((((ha | ha) | ha) | ha) | ha) b hb
    · rw [k1 a ha, k6 b hb]; decide
    · rw [k2 a ha, k6 b hb]; decide
    · rw [k3 a ha, k6 b hb]; decide
    · rw [k4 a ha, k6 b hb]; decide
    · rw [k5 a ha, k6 b hb]; decide

/-- On the sample payload the rules push a win-rate, a house-profit and a
deviation sentence, in this order. -/
theorem insight_order_witness :
    generateInsights sampleEngine samplePayload = Except.ok sampleInsights ∧
    sampleInsights.Pairwise (fun s t => insightRule s < insightRule t) ∧
    sampleInsights.map insightRule = [1, 4, 5] :=
  ⟨(insight_order sampleEngine samplePayload sampleInsights tryBlock_sample).1,
   (insight_order sampleEngine samplePayload sampleInsights tryBlock_sample).2.2,
   by decide⟩


/-! ### The rules on blocks whose fields have been read -/

theorem winRateRule_figures (E : JSEngine) (fair tweaked comp fr tr v1 v2 : JVal)
    (r : List String) (w1 w2 : ℚ)
    (h : winRateRule E fair tweaked comp = Except.ok r)
    (h1 : getProp fair "results" = Except.ok fr) (h2 : getProp fr "win_rate" = Except.ok v1)
    (z1 : orZero v1 = JVal.num w1)
    (h3 : getProp tweaked "results" = Except.ok tr) (h4 : getProp tr "win_rate" = Except.ok v2)
    (z2 : orZero v2 = JVal.num w2) :
    r = [winFairHigher (toFixed E w1 1) (toFixed E w2 1)] ∨ r = [winTweakedHigher] ∨
    r = [winSimilar (toFixed E w1 1) (toFixed E w2 1)] := by
  unfold winRateRule at h
  simp only [bind_eq_ok] at h
  obtain ⟨fr', h1', v1', h2', tr', h3', v2', h4', v, -, above, -, h6⟩ := h
  rw [h1] at h1'
  cases ok_inj h1'
  rw [h2] at h2'
  cases ok_inj h2'
  rw [h3] at h3'
  cases ok_inj h3'
  rw [h4] at h4'
  cases ok_inj h4'
  rw [z1, z2] at h6
  have c1 : callToFixed E (JVal.num w1) 1 = Except.ok (toFixed E w1 1) := rfl
  have c2 : callToFixed E (JVal.num w2) 1 = Except.ok (toFixed E w2 1) := rfl
  cases above with
  | true =>
    simp only [if_true, c1, c2, bind, Except.bind, pure_eq_ok] at h6
    exact Or.inl h6.symm
  | false =>
    simp only [Bool.false_eq_true, if_false, bind_eq_ok] at h6
    obtain ⟨below, -, h7⟩ := h6
    cases below with
    | true =>
      simp only [if_true, pure_eq_ok] at h7
      exact Or.inr (Or.inl h7.symm)
    | false =>
      simp only [Bool.false_eq_true, if_false, c1, c2, bind, Except.bind, pure_eq_ok] at h7
      exact Or.inr (Or.inr h7.symm)

theorem winRateRule_eval (E : JSEngine) (fair tweaked comp fr tr v1 v2 vd : JVal)
    (w1 w2 d : ℚ)
    (h1 : getProp fair "results" = Except.ok fr) (h2 : getProp fr "win_rate" = Except.ok v1)
    (z1 : orZero v1 = JVal.num w1)
    (h3 : getProp tweaked "results" = Except.ok tr) (h4 : getProp tr "win_rate" = Except.ok v2)
    (z2 : orZero v2 = JVal.num w2)
    (h5 : getProp comp "win_rate_difference" = Except.ok vd) (zd : orZero vd = JVal.num d) :
    winRateRule E fair tweaked comp = Except.ok
      (if 2 < d then [winFairHigher (toFixed E w1 1) (toFixed E w2 1)]
       else if d < -2 then [winTweakedHigher]
       else [winSimilar (toFixed E w1 1) (toFixed E w2 1)]) := by
  unfold winRateRule
  simp only [Except.ok.injEq, h1, h2, h3, h4, h5, z1, z2, zd, bind, Except.bind, jsGt_num, jsLt_num,
    decide_eq_true_eq, callToFixed]
  split_ifs <;> rfl

theorem roiRule_silent (E : JSEngine) (fair tweaked comp fr tr v : JVal) (r : ℚ)
    (h1 : getProp fair "results" = Except.ok fr)
    (hfr : ∀ k, getProp fr k = Except.ok (peek fr k))
    (h3 : getProp tweaked "results" = Except.ok tr)
    (htr : ∀ k, getProp tr k = Except.ok (peek tr k))
    (h5 : getProp comp "roi_difference" = Except.ok v) (z : orZero v = JVal.num r)
    (hr : |r| ≤ 5) :
    roiRule E fair tweaked comp = Except.ok [] := by
  have hle := abs_le.1 hr
  unfold roiRule
  simp only [Except.ok.injEq, h1, hfr, h3, htr, h5, z, bind, Except.bind, jsGt_num, jsLt_num, decide_eq_true_eq]
  rw [if_neg (by linarith [hle.2]), if_neg (by linarith [hle.1])]
  rfl

theorem houseEdgeRule_silent (E : JSEngine) (comp v : JVal) (h : ℚ)
    (h5 : getProp comp "house_edge_increase_rate" = Except.ok v) (z : orZero v = JVal.num h)
    (hh : h ≤ 5) :
    houseEdgeRule E comp = Except.ok [] := by
  unfold houseEdgeRule
  simp only [Except.ok.injEq, h5, z, bind, Except.bind, jsGt_num, decide_eq_true_eq]
  rw [if_neg (by linarith), if_neg (by linarith)]
  rfl

theorem houseProfitRule_silent (E : JSEngine) (data comp v : JVal) (p b n : ℚ)
    (h5 : getProp comp "house_profit_increase" = Except.ok v) (z : orZero v = JVal.num p)
    (hb : getProp data "bet_amount" = Except.ok (JVal.num b))
    (hn : getProp data "num_rounds" = Except.ok (JVal.num n))
    (hp : numberGt (JNumber.finite |p|) (thresholdOf b n) = false) :
    houseProfitRule E data comp = Except.ok [] := by
  unfold houseProfitRule
  simp only [h5, z, profitThreshold_num E data b n hb hn, bind, Except.bind, mathAbs_num,
    ofOption, hp]
  rfl

theorem deviationRule_eval (E : JSEngine) (fair tweaked fr tr vx vy : JVal) (x y : ℚ)
    (h1 : getProp fair "results" = Except.ok fr)
    (h2 : getProp fr "theoretical_vs_actual_deviation" = Except.ok vx)
    (zx : orZero vx = JVal.num x)
    (h3 : getProp tweaked "results" = Except.ok tr)
    (h4 : getProp tr "theoretical_vs_actual_deviation" = Except.ok vy)
    (zy : orZero vy = JVal.num y) :
    deviationRule E fair tweaked = Except.ok
      (if 20 < |x| ∨ 20 < |y| then [deviationLarge (toFixed E |x| 1) (toFixed E |y| 1)]
       else [deviationClose (toFixed E |x| 1) (toFixed E |y| 1)]) := by
  unfold deviationRule
  simp only [Except.ok.injEq, h1, h2, h3, h4, zx, zy, bind, Except.bind, mathAbs_num,
    numGt_some, numToFixed, Bool.or_eq_true, decide_eq_true_eq]
  split_ifs <;> rfl


/-- C13: on a payload whose win rates are numbers, with
`win_rate_difference > 2`, `|roi_difference| ≤ 5`,
`house_edge_increase_rate ≤ 5`, `|house_profit_increase|` not above
`bet_amount * num_rounds * 0.1` (not above the number the program computes,
`thresholdOf`, or a value of the binary64 format that is not above the exact
product `b * n / 10`), both deviations of magnitude at most 20 and no streak
data, `generateInsights` produces exactly two insights: the "Fair Game shows a
significantly higher win rate" sentence followed by the "Theoretical
predictions closely match actual results" sentence. -/
theorem two_insights (E : JSEngine) (data : JVal) (w1 w2 d r h p b n x y : ℚ)
    (hw1 : resultsField data "fair_game" "win_rate" = Except.ok (JVal.num w1))
    (hw2 : resultsField data "tweaked_game" "win_rate" = Except.ok (JVal.num w2))
    (hd : comparisonField data "win_rate_difference" = Except.ok (JVal.num d))
    (hd2 : 2 < d)
    (hr : comparisonField data "roi_difference" = Except.ok (JVal.num r))
    (hr5 : |r| ≤ 5)
    (hh : comparisonField data "house_edge_increase_rate" = Except.ok (JVal.num h))
    (hh5 : h ≤ 5)
    (hp : comparisonField data "house_profit_increase" = Except.ok (JVal.num p))
    (hb : getProp data "bet_amount" = Except.ok (JVal.num b))
    (hn : getProp data "num_rounds" = Except.ok (JVal.num n))
    (hnot : numberGt (JNumber.finite |p|) (thresholdOf b n) = false ∨
      (roundDouble |p| = JNumber.finite |p| ∧ ¬ (b * n * (1 / 10) < |p|)))
    (hx : resultsField data "fair_game" "theoretical_vs_actual_deviation"
      = Except.ok (JVal.num x))
    (hx20 : |x| ≤ 20)
    (hy : resultsField data "tweaked_game" "theoretical_vs_actual_deviation"
      = Except.ok (JVal.num y))
    (hy20 : |y| ≤ 20)
    (hfs : resultsValue data "fair_game" "streaks" = Except.ok JVal.undefined)
    (hts : resultsValue data "tweaked_game" "streaks" = Except.ok JVal.undefined) :
    generateInsights E data = Except.ok
      [winFairHigher (toFixed E w1 1) (toFixed E w2 1),
       deviationClose (toFixed E |x| 1) (toFixed E |y| 1)] := by
  have hp10 : numberGt (JNumber.finite |p|) (thresholdOf b n) = false := by
    rcases hnot with htest | ⟨hdouble, hexact⟩
    · exact htest
    · exact not_above_of_exact b n p hdouble hexact
  obtain ⟨fair, fr, v1, hf, hfr, hv1, z1⟩ := resultsField_ok data _ _ _ hw1
  obtain ⟨tweaked, tr, v2, ht, htr, hv2, z2⟩ := resultsField_ok data _ _ _ hw2
  obtain ⟨comp, vd, hc, hvd, zd⟩ := comparisonField_ok data _ _ hd
  obtain ⟨comp', vr, hc', hvr, zr⟩ := comparisonField_ok data _ _ hr
  rw [hc] at hc'
  cases ok_inj hc'
  obtain ⟨comp', vh, hc', hvh, zh⟩ := comparisonField_ok data _ _ hh
  rw [hc] at hc'
  cases ok_inj hc'
  obtain ⟨comp', vp, hc', hvp, zp⟩ := comparisonField_ok data _ _ hp
  rw [hc] at hc'
  cases ok_inj hc'
  obtain ⟨fair', fr', vx, hf', hfr', hvx, zx⟩ := resultsField_ok data _ _ _ hx
  rw [hf] at hf'
  cases ok_inj hf'
  rw [hfr] at hfr'
  cases ok_inj hfr'
  obtain ⟨tweaked', tr', vy, ht', htr', hvy, zy⟩ := resultsField_ok data _ _ _ hy
  rw [ht] at ht'
  cases ok_inj ht'
  rw [htr] at htr'
  cases ok_inj htr'
  obtain ⟨fair', fr', hf', hfr', hfsv⟩ := resultsValue_ok data _ _ _ hfs
  rw [hf] at hf'
  cases ok_inj hf'
  rw [hfr] at hfr'
  cases ok_inj hfr'
  obtain ⟨tweaked', tr', ht', htr', htsv⟩ := resultsValue_ok data _ _ _ hts
  rw [ht] at ht'
  cases ok_inj ht'
  rw [htr] at htr'
  cases ok_inj htr'
  have e1 := winRateRule_eval E fair tweaked comp fr tr v1 v2 vd w1 w2 d hfr hv1 z1 htr hv2 z2
    hvd zd
  rw [if_pos hd2] at e1
  have e2 := roiRule_silent E fair tweaked comp fr tr vr r hfr (getProp_ok_all fr _ _ hv1) htr
    (getProp_ok_all tr _ _ hv2) hvr zr hr5
  have e3 := houseEdgeRule_silent E comp vh h hvh zh hh5
  have e4 := houseProfitRule_silent E data comp vp p b n hvp zp hb hn hp10
  have e5 := deviationRule_eval E fair tweaked fr tr vx vy x y hfr hvx zx htr hvy zy
  rw [if_neg (by
    rintro (h' | h')
    · exact absurd h' (not_lt.2 hx20)
    · exact absurd h' (not_lt.2 hy20))] at e5
  have e6 := streakRule_absent E fair tweaked fr tr _ _ hfr hfsv htr htsv (Or.inl rfl)
  simp [generateInsights, insightRules, hf, ht, hc, e1, e2, e3, e4, e5, e6, bind, Except.bind,
    pure, Except.pure]

/-- The case of the specification: a win-rate gap of 5, an ROI gap of 0, a
house-edge increase of 0, deviations of 3 and no streak data give the two
sentences. -/
theorem two_insights_witness :
    generateInsights sampleEngine payloadSmallProfit = Except.ok
      [winFairHigher (toFixed sampleEngine 55 1) (toFixed sampleEngine 50 1),
       deviationClose (toFixed sampleEngine |3| 1) (toFixed sampleEngine |3| 1)] :=
  two_insights sampleEngine payloadSmallProfit 55 50 5 0 0 5 1 100 3 3 rfl rfl rfl (by norm_num)
    rfl (by norm_num) rfl (by norm_num) rfl rfl rfl
    (Or.inr ⟨roundDouble_five, by norm_num⟩) rfl (by norm_num) rfl (by norm_num) rfl rfl

/-- C14, refuted as stated: on the payload of the example (win rates 55 and
50, gap 5, ROI 2 and 1, deviations 3) the second insight is the deviation
sentence, and the text "Theoretical predictions closely match actual results
(3.0% deviation for Fair, 3.0% for Tweaked)." does not occur in it: the
sentence has ", validating the mathematical model" before the bracket. -/
theorem second_insight_lacks_quoted_text :
    tryBlock sampleEngine payloadSmallProfit = Except.ok smallProfitInsights ∧
    resultsField payloadSmallProfit "fair_game" "win_rate" = Except.ok (JVal.num 55) ∧
    resultsField payloadSmallProfit "tweaked_game" "win_rate" = Except.ok (JVal.num 50) ∧
    comparisonField payloadSmallProfit "win_rate_difference" = Except.ok (JVal.num 5) ∧
    resultsField payloadSmallProfit "fair_game" "roi" = Except.ok (JVal.num 2) ∧
    resultsField payloadSmallProfit "tweaked_game" "roi" = Except.ok (JVal.num 1) ∧
    resultsField payloadSmallProfit "fair_game" "theoretical_vs_actual_deviation"
      = Except.ok (JVal.num 3) ∧
    resultsField payloadSmallProfit "tweaked_game" "theoretical_vs_actual_deviation"
      = Except.ok (JVal.num 3) ∧
    smallProfitInsights[1]? = some "Theoretical predictions closely match actual results, validating the mathematical model (3.0% deviation for Fair, 3.0% for Tweaked)." ∧
    containsText "Theoretical predictions closely match actual results, validating the mathematical model (3.0% deviation for Fair, 3.0% for Tweaked)."
      "Theoretical predictions closely match actual results (3.0% deviation for Fair, 3.0% for Tweaked)."
      = false :=
  ⟨tryBlock_smallProfit, rfl, rfl, rfl, rfl, rfl, rfl, rfl, rfl, by decide⟩

/-- C14, amended: when the try block of `generateInsights` completes on a
payload whose win rates are the numbers `w1` (fair) and `w2` (tweaked) and
whose deviations are the numbers `x` and `y`, the first insight is a win-rate
sentence that cites `w1` then `w2` to one decimal (the "Surprisingly" sentence
cites no figure), and the list has a deviation sentence that cites `|x|` then
`|y|` to one decimal. -/
theorem insight_figures (E : JSEngine) (data : JVal) (l : List String) (w1 w2 x y : ℚ)
    (hrun : tryBlock E data = Except.ok l)
    (hw1 : resultsField data "fair_game" "win_rate" = Except.ok (JVal.num w1))
    (hw2 : resultsField data "tweaked_game" "win_rate" = Except.ok (JVal.num w2))
    (hx : resultsField data "fair_game" "theoretical_vs_actual_deviation"
      = Except.ok (JVal.num x))
    (hy : resultsField data "tweaked_game" "theoretical_vs_actual_deviation"
      = Except.ok (JVal.num y)) :
    generateInsights E data = Except.ok l ∧
    (∃ s rest, l = s :: rest ∧
      (s = winFairHigher (toFixed E w1 1) (toFixed E w2 1) ∨ s = winTweakedHigher ∨
        s = winSimilar (toFixed E w1 1) (toFixed E w2 1))) ∧
    (∃ s ∈ l, s = deviationLarge (toFixed E |x| 1) (toFixed E |y| 1) ∨
      s = deviationClose (toFixed E |x| 1) (toFixed E |y| 1)) := by
  refine ⟨generateInsights_of_tryBlock E data l hrun, ?_⟩
  obtain ⟨fair, tweaked, comp, fr, tr, r1, r2, r3, r4, r5, r6, hf, ht, -, hfr, htr, h1, -, -, -,
    h5, -, rfl, -, -, -, -, -, -⟩ := tryBlock_parts E data l hrun
  obtain ⟨fair', fr', v1, hf', hfr', hv1, z1⟩ := resultsField_ok data _ _ _ hw1
  rw [hf] at hf'
  cases ok_inj hf'
  rw [hfr] at hfr'
  cases ok_inj hfr'
  obtain ⟨tweaked', tr', v2, ht', htr', hv2, z2⟩ := resultsField_ok data _ _ _ hw2
  rw [ht] at ht'
  cases ok_inj ht'
  rw [htr] at htr'
  cases ok_inj htr'
  obtain ⟨fair', fr', vx, hf', hfr', hvx, zx⟩ := resultsField_ok data _ _ _ hx
  rw [hf] at hf'
  cases ok_inj hf'
  rw [hfr] at hfr'
  cases ok_inj hfr'
  obtain ⟨tweaked', tr', vy, ht', htr', hvy, zy⟩ := resultsField_ok data _ _ _ hy
  rw [ht] at ht'
  cases ok_inj ht'
  rw [htr] at htr'
  cases ok_inj htr'
  have e5 := deviationRule_eval E fair tweaked fr tr vx vy x y hfr hvx zx htr hvy zy
  rw [h5] at e5
  have hr5 := ok_inj e5
  constructor
  · rcases winRateRule_figures E fair tweaked comp fr tr v1 v2 r1 w1 w2 h1 hfr hv1 z1 htr hv2 z2
      with rfl | rfl | rfl
    · exact ⟨_, _, rfl, Or.inl rfl⟩
    · exact ⟨_, _, rfl, Or.inr (Or.inl rfl)⟩
    · exact ⟨_, _, rfl, Or.inr (Or.inr rfl)⟩
  · by_cases hbig : 20 < |x| ∨ 20 < |y|
    · rw [if_pos hbig] at hr5
      exact ⟨_, by simp [hr5], Or.inl rfl⟩
    · rw [if_neg hbig] at hr5
      exact ⟨_, by simp [hr5], Or.inr rfl⟩

/-- On the payload of the example the first insight has the text "Fair Game
shows a significantly higher win rate (55.0% vs 50.0%)" and the second is the
deviation sentence with "3.0%" twice. -/
theorem insight_figures_witness :
    (∃ s rest, smallProfitInsights = s :: rest ∧
      (s = winFairHigher (toFixed sampleEngine 55 1) (toFixed sampleEngine 50 1) ∨
        s = winTweakedHigher ∨
        s = winSimilar (toFixed sampleEngine 55 1) (toFixed sampleEngine 50 1))) ∧
    (toFixed sampleEngine 55 1 = "55.0" ∧ toFixed sampleEngine 50 1 = "50.0" ∧
      toFixed sampleEngine |3| 1 = "3.0") ∧
    (smallProfitInsights[0]?.map
      (fun s => containsText s "Fair Game shows a significantly higher win rate (55.0% vs 50.0%)")
      = some true) ∧
    smallProfitInsights[1]? = some "Theoretical predictions closely match actual results, validating the mathematical model (3.0% deviation for Fair, 3.0% for Tweaked)." :=
  ⟨(insight_figures sampleEngine payloadSmallProfit smallProfitInsights 55 50 3 3
      tryBlock_smallProfit rfl rfl rfl rfl).2.1,
   ⟨by decide, by decide, by decide⟩, by decide, rfl⟩


/-! ### `populateImpactAnalysis` on numeric comparison fields -/

theorem getProp_orEmptyObj (comp : JVal) (k : String) (v : JVal)
    (h : getProp comp k = Except.ok v) :
    ∃ v', getProp (orEmptyObj comp) k = Except.ok v' ∧ orZero v' = orZero v := by
  cases comp <;> simp_all [getProp, orEmptyObj, truthy, lookupKey] <;> split_ifs <;>
    simp_all [getProp, lookupKey]

theorem populateImpactAnalysis_eval (E : JSEngine) (data : JVal) (a r h p : ℚ)
    (ha : comparisonField data "win_rate_difference" = Except.ok (JVal.num a))
    (hr : comparisonField data "roi_difference" = Except.ok (JVal.num r))
    (hh : comparisonField data "house_edge_increase_rate" = Except.ok (JVal.num h))
    (hp : comparisonField data "house_profit_increase" = Except.ok (JVal.num p)) :
    populateImpactAnalysis E data =
      ([⟨"winRateDiff", toFixed E a 2 ++ "%",
          "comparison-difference " ++
            (if 0 ≤ a then "positive-difference" else "negative-difference")⟩,
        ⟨"roiDiff", (if 0 ≤ r then "+" else "") ++ toFixed E r 2 ++ "%",
          "comparison-difference " ++
            (if 0 ≤ r then "positive-difference" else "negative-difference")⟩,
        ⟨"houseEdgeIncrease", toFixed E |h| 2 ++ "%",
          "comparison-difference " ++ "negative-difference"⟩,
        ⟨"houseProfitIncrease", (if 0 ≤ p then "+" else "") ++ "$" ++ toFixed E |p| 2,
          "comparison-difference " ++
            (if 0 ≤ p then "negative-difference" else "positive-difference")⟩],
       none) := by
  obtain ⟨comp, va, hc, hva, za⟩ := comparisonField_ok data _ _ ha
  obtain ⟨comp', vr, hc', hvr, zr⟩ := comparisonField_ok data _ _ hr
  rw [hc] at hc'
  cases ok_inj hc'
  obtain ⟨comp', vh, hc', hvh, zh⟩ := comparisonField_ok data _ _ hh
  rw [hc] at hc'
  cases ok_inj hc'
  obtain ⟨comp', vp, hc', hvp, zp⟩ := comparisonField_ok data _ _ hp
  rw [hc] at hc'
  cases ok_inj hc'
  obtain ⟨va', ga, ea⟩ := getProp_orEmptyObj comp _ _ hva
  obtain ⟨vr', gr, er⟩ := getProp_orEmptyObj comp _ _ hvr
  obtain ⟨vh', gh, eh⟩ := getProp_orEmptyObj comp _ _ hvh
  obtain ⟨vp', gp, ep⟩ := getProp_orEmptyObj comp _ _ hvp
  rw [za] at ea
  rw [zr] at er
  rw [zh] at eh
  rw [zp] at ep
  have c1 : winRateDiffCell E (orEmptyObj comp) = Except.ok
      ⟨"winRateDiff", toFixed E a 2 ++ "%", "comparison-difference " ++
        (if 0 ≤ a then "positive-difference" else "negative-difference")⟩ := by
    simp [winRateDiffCell, ga, ea, bind, Except.bind, pure, Except.pure, callToFixed, jsGe_num]
  have c2 : roiDiffCell E (orEmptyObj comp) = Except.ok
      ⟨"roiDiff", (if 0 ≤ r then "+" else "") ++ toFixed E r 2 ++ "%",
        "comparison-difference " ++
          (if 0 ≤ r then "positive-difference" else "negative-difference")⟩ := by
    simp [roiDiffCell, gr, er, bind, Except.bind, pure, Except.pure, callToFixed, jsGe_num]
  have c3 : houseEdgeIncreaseCell E (orEmptyObj comp) = Except.ok
      ⟨"houseEdgeIncrease", toFixed E |h| 2 ++ "%",
        "comparison-difference " ++ "negative-difference"⟩ := by
    simp [houseEdgeIncreaseCell, gh, eh, bind, Except.bind, pure, Except.pure, mathAbs_num,
      numToFixed]
  have c4 : houseProfitIncreaseCell E (orEmptyObj comp) = Except.ok
      ⟨"houseProfitIncrease", (if 0 ≤ p then "+" else "") ++ "$" ++ toFixed E |p| 2,
        "comparison-difference " ++
          (if 0 ≤ p then "negative-difference" else "positive-difference")⟩ := by
    simp [houseProfitIncreaseCell, gp, ep, bind, Except.bind, pure, Except.pure, mathAbs_num,
      numToFixed, jsGe_num]
  simp only [populateImpactAnalysis, hc, c1, c2, c3, c4, runWrites]

theorem populateImpactAnalysis_no_comparison (E : JSEngine) (kvs : List (String × JVal))
    (hcomp : lookupKey "comparison" kvs = JVal.undefined) :
    populateImpactAnalysis E (JVal.obj kvs) =
      ([⟨"winRateDiff", "0.00%", "comparison-difference positive-difference"⟩,
        ⟨"roiDiff", "+0.00%", "comparison-difference positive-difference"⟩,
        ⟨"houseEdgeIncrease", "0.00%", "comparison-difference negative-difference"⟩,
        ⟨"houseProfitIncrease", "+$0.00", "comparison-difference negative-difference"⟩],
       none) := by
  simp [populateImpactAnalysis, getProp, hcomp, orEmptyObj, truthy, runWrites, winRateDiffCell,
    roiDiffCell, houseEdgeIncreaseCell, houseProfitIncreaseCell, lookupKey, orZero, bind,
    Except.bind, pure, Except.pure, callToFixed, jsGe_num, mathAbs_num, numGe, numericValue,
    numToFixed, toFixed_zero_two]

/-! ### No minus sign in the digits of `toFixed` -/

theorem digitChar_ne_minus (d : Nat) (h : d < 10) : Nat.digitChar d ≠ '-' := by
  interval_cases d <;> decide

theorem toDigitsCore_no_minus :
    ∀ (fuel n : Nat) (ds : List Char), '-' ∉ ds → '-' ∉ Nat.toDigitsCore 10 fuel n ds := by
  intro fuel
  induction fuel with
  | zero =>
    intro n ds h
    simpa [Nat.toDigitsCore] using h
  | succ fuel ih =>
    intro n ds h
    have hcons : '-' ∉ Nat.digitChar (n % 10) :: ds := by
      simp only [List.mem_cons, not_or]
      exact ⟨fun e => digitChar_ne_minus _ (Nat.mod_lt _ (by decide)) e.symm, h⟩
    simp only [Nat.toDigitsCore]
    split_ifs
    · exact hcons
    · exact ih _ _ hcons

theorem fixedDigits_no_minus (q : ℚ) (f : Nat) : '-' ∉ (fixedDigits q f).data := by
  have hm : ∀ n : Nat, '-' ∉ Nat.toDigits 10 n := fun n =>
    toDigitsCore_no_minus _ _ [] (by simp)
  unfold fixedDigits
  simp only
  split_ifs
  · exact hm _
  · intro hmem
    simp only [List.mem_append, List.mem_cons] at hmem
    have hpad : ∀ c ∈ List.replicate
        (f + 1 - (Nat.toDigits 10 ((2 * q.num.natAbs * 10 ^ f + q.den) / (2 * q.den))).length) '0'
        ++ Nat.toDigits 10 ((2 * q.num.natAbs * 10 ^ f + q.den) / (2 * q.den)), c ≠ '-' := by
      intro c hc
      rcases List.mem_append.1 hc with h | h
      · rw [List.eq_of_mem_replicate h]
        decide
      · intro e
        exact hm _ (e ▸ h)
    rcases hmem with h | h | h
    · exact hpad _ (List.mem_of_mem_take h) rfl
    · exact absurd h (by decide)
    · exact hpad _ (List.mem_of_mem_drop h) rfl


theorem toFixed_abs (E : JSEngine) (x : ℚ) (f : Nat) (h : |x| < 10 ^ 21) :
    toFixed E |x| f = fixedDigits |x| f := by
  have h0 : ¬ (|x| < 0) := not_lt.2 (abs_nonneg x)
  have h1 : ¬ ((10 : ℚ) ^ 21 ≤ |x|) := not_le.2 h
  simp only [toFixed, h0, if_false, abs_abs, ge_iff_le, h1]
  exact String.empty_append _

/-- C17: `populateImpactAnalysis` renders a house-edge increase of `x` and one
of `-x` as the same cell: the text is `|x|` to two decimals followed by `%`,
and the class is `comparison-difference negative-difference` whatever the sign
of `x`. Below `10^21` the text has no minus sign. The other three comparison
fields are numbers, so that the calls before this one do not throw. -/
theorem houseEdge_rendered_as_magnitude (E : JSEngine) (d1 d2 : JVal)
    (a1 r1 p1 a2 r2 p2 x : ℚ)
    (ha1 : comparisonField d1 "win_rate_difference" = Except.ok (JVal.num a1))
    (hr1 : comparisonField d1 "roi_difference" = Except.ok (JVal.num r1))
    (hx1 : comparisonField d1 "house_edge_increase_rate" = Except.ok (JVal.num x))
    (hp1 : comparisonField d1 "house_profit_increase" = Except.ok (JVal.num p1))
    (ha2 : comparisonField d2 "win_rate_difference" = Except.ok (JVal.num a2))
    (hr2 : comparisonField d2 "roi_difference" = Except.ok (JVal.num r2))
    (hx2 : comparisonField d2 "house_edge_increase_rate" = Except.ok (JVal.num (-x)))
    (hp2 : comparisonField d2 "house_profit_increase" = Except.ok (JVal.num p2)) :
    (populateImpactAnalysis E d1).1[2]? = some
      ⟨"houseEdgeIncrease", toFixed E |x| 2 ++ "%", "comparison-difference negative-difference"⟩ ∧
    (populateImpactAnalysis E d2).1[2]? = some
      ⟨"houseEdgeIncrease", toFixed E |x| 2 ++ "%", "comparison-difference negative-difference"⟩ ∧
    (|x| < 10 ^ 21 →
      toFixed E |x| 2 = fixedDigits |x| 2 ∧ '-' ∉ (toFixed E |x| 2 ++ "%").data) := by
  refine ⟨?_, ?_, ?_⟩
  · rw [populateImpactAnalysis_eval E d1 a1 r1 x p1 ha1 hr1 hx1 hp1]
    rfl
  · rw [populateImpactAnalysis_eval E d2 a2 r2 (-x) p2 ha2 hr2 hx2 hp2, abs_neg]
    rfl
  · intro hsmall
    refine ⟨toFixed_abs E x 2 hsmall, ?_⟩
    rw [toFixed_abs E x 2 hsmall, String.data_append]
    intro hmem
    rcases List.mem_append.1 hmem with h | h
    · exact fixedDigits_no_minus _ _ h
    · exact absurd h (by decide)

theorem houseEdge_sample_negative :
    comparisonField (payloadWith (sampleComparison 5 0 (-7) 5)) "house_edge_increase_rate"
      = Except.ok (JVal.num (-7)) := by
  simp [comparisonField, payloadWith, sampleComparison, getProp, lookupKey, orZero, truthy, bind,
    Except.bind, pure, Except.pure]

/-- A house-edge increase of 7 and one of -7 are both rendered as "7.00%". -/
theorem houseEdge_rendered_as_magnitude_witness :
    (populateImpactAnalysis sampleEngine (payloadWith (sampleComparison 5 0 7 5))).1[2]? = some
      ⟨"houseEdgeIncrease", toFixed sampleEngine |7| 2 ++ "%",
        "comparison-difference negative-difference"⟩ ∧
    (populateImpactAnalysis sampleEngine (payloadWith (sampleComparison 5 0 (-7) 5))).1[2]? = some
      ⟨"houseEdgeIncrease", toFixed sampleEngine |7| 2 ++ "%",
        "comparison-difference negative-difference"⟩ ∧
    toFixed sampleEngine |7| 2 ++ "%" = "7.00%" :=
  ⟨(houseEdge_rendered_as_magnitude sampleEngine (payloadWith (sampleComparison 5 0 7 5))
      (payloadWith (sampleComparison 5 0 (-7) 5)) 5 0 5 5 0 5 7 rfl rfl rfl rfl rfl rfl
      houseEdge_sample_negative rfl).1,
   (houseEdge_rendered_as_magnitude sampleEngine (payloadWith (sampleComparison 5 0 7 5))
      (payloadWith (sampleComparison 5 0 (-7) 5)) 5 0 5 5 0 5 7 rfl rfl rfl rfl rfl rfl
      houseEdge_sample_negative rfl).2.1,
   by decide⟩

/-- C16, refuted as stated: the sample payload without `comparison` has the
win rates 55 and 50, whose difference 5 would be rendered as "5.00%"; the
check rejects the payload, and `populateImpactAnalysis` renders every
comparison quantity of it as zero. -/
theorem comparison_not_recomputed :
    peek payloadWithoutComparison "comparison" = JVal.undefined ∧
    resultsField payloadWithoutComparison "fair_game" "win_rate" = Except.ok (JVal.num 55) ∧
    resultsField payloadWithoutComparison "tweaked_game" "win_rate" = Except.ok (JVal.num 50) ∧
    toFixed sampleEngine (55 - 50) 2 ++ "%" = "5.00%" ∧
    (populateImpactAnalysis sampleEngine payloadWithoutComparison).1.map (fun c => c.text)
      = ["0.00%", "+0.00%", "0.00%", "+$0.00"] ∧
    validate payloadWithoutComparison = Except.error (JSError.error missingGameDataMessage) := by
  refine ⟨rfl, rfl, rfl, ?_, ?_, rfl⟩
  · have h : (55 : ℚ) - 50 = 5 := by norm_num
    rw [h]
    decide
  · rfl

theorem comparisonSummary_no_comparison (E : JSEngine) (kvs : List (String × JVal))
    (hcomp : lookupKey "comparison" kvs = JVal.undefined) :
    comparisonSummary E (JVal.obj kvs) = Except.error JSError.typeError := by
  simp [comparisonSummary, getProp, hcomp, bind, Except.bind]

/-- C16, amended: when a payload object lacks `comparison`, no comparison
quantity is recomputed from the result blocks. Whatever the blocks hold,
`populateImpactAnalysis` renders the four quantities as zero and does not
throw, the check of `loadResultsData` rejects the payload so that
`displayResults` is not called, and `displayResults` of `simulate.js` throws a
`TypeError` before it shows a better game. -/
theorem no_comparison_no_derivation (E : JSEngine) (kvs : List (String × JVal))
    (gd : Option JVal) (text : String) (page : Page)
    (hcomp : lookupKey "comparison" kvs = JVal.undefined)
    (htext : text ≠ "") (hparse : E.jsonParse text = some (JVal.obj kvs)) :
    (populateImpactAnalysis E (JVal.obj kvs)).1.map (fun c => c.text)
      = ["0.00%", "+0.00%", "0.00%", "+$0.00"] ∧
    (populateImpactAnalysis E (JVal.obj kvs)).2 = none ∧
    (loadResultsData E gd (some text) page).1.displayed = page.displayed ∧
    comparisonSummary E (JVal.obj kvs) = Except.error JSError.typeError := by
  refine ⟨?_, ?_, ?_, comparisonSummary_no_comparison E kvs hcomp⟩
  · rw [populateImpactAnalysis_no_comparison E kvs hcomp]
    rfl
  · rw [populateImpactAnalysis_no_comparison E kvs hcomp]
  · have hv : validate (JVal.obj kvs) = Except.error (JSError.error missingGameDataMessage) := by
      rw [validate_of_readable (JVal.obj kvs) (fun _ => rfl)]
      simp [peek_obj, hcomp, not_truthy_undefined]
    exact load_displayed_of_fail E gd text page _ htext
      (parseAndValidate_of_reject E text _ _ hparse hv)

/-- The four facts on the sample payload without `comparison`. -/
theorem no_comparison_no_derivation_witness :
    (populateImpactAnalysis sampleEngine payloadWithoutComparison).1.map (fun c => c.text)
      = ["0.00%", "+0.00%", "0.00%", "+$0.00"] ∧
    (populateImpactAnalysis sampleEngine payloadWithoutComparison).2 = none ∧
    (loadResultsData sampleEngine none (some "without comparison") blankPage).1.displayed
      = blankPage.displayed ∧
    comparisonSummary sampleEngine payloadWithoutComparison = Except.error JSError.typeError :=
  no_comparison_no_derivation sampleEngine _ none "without comparison" blankPage rfl
    (by decide) rfl


/-! ### The branch of rules 1 to 4 is decided by the comparison block -/

theorem winRateRule_keys (E : JSEngine) (fair tweaked comp : JVal) (r : List String)
    (h : winRateRule E fair tweaked comp = Except.ok r) :
    ∃ v, getProp comp "win_rate_difference" = Except.ok v ∧
      r.map sentenceKey =
        if holds (jsGt E (orZero v) (some 2)) = true then ["The Fair Game sh".data]
        else if holds (jsLt E (orZero v) (some (-2))) = true then ["Surprisingly, th".data]
        else ["Win rates are re".data] := by
  obtain ⟨v, hv, h1 | h1 | h1⟩ := winRateRule_shape E fair tweaked comp r h
  · obtain ⟨c1, a, b, rfl⟩ := h1
    exact ⟨v, hv, by simp [holds, c1, key_winFairHigher]⟩
  · obtain ⟨c1, c2, rfl⟩ := h1
    exact ⟨v, hv, by simp [holds, c1, c2, key_winTweakedHigher]⟩
  · obtain ⟨c1, c2, a, b, rfl⟩ := h1
    exact ⟨v, hv, by simp [holds, c1, c2, key_winSimilar]⟩

theorem roiRule_keys (E : JSEngine) (fair tweaked comp : JVal) (r : List String)
    (h : roiRule E fair tweaked comp = Except.ok r) :
    ∃ v, getProp comp "roi_difference" = Except.ok v ∧
      r.map sentenceKey =
        if holds (jsGt E (orZero v) (some 5)) = true then ["Tweaked Game pro".data]
        else if holds (jsLt E (orZero v) (some (-5))) = true then ["Fair Game provid".data]
        else [] := by
  obtain ⟨v, hv, h1 | h1 | h1⟩ := roiRule_shape E fair tweaked comp r h
  · obtain ⟨c1, a, b, rfl⟩ := h1
    exact ⟨v, hv, by simp [holds, c1, key_roiTweakedBetter]⟩
  · obtain ⟨c1, c2, a, b, rfl⟩ := h1
    exact ⟨v, hv, by simp [holds, c1, c2, key_roiFairBetter]⟩
  · obtain ⟨c1, c2, rfl⟩ := h1
    exact ⟨v, hv, by simp [holds, c1, c2]⟩

theorem houseEdgeRule_keys (E : JSEngine) (comp : JVal) (r : List String)
    (h : houseEdgeRule E comp = Except.ok r) :
    ∃ v, getProp comp "house_edge_increase_rate" = Except.ok v ∧
      r.map sentenceKey =
        if holds (jsGt E (orZero v) (some 10)) = true then ["The Joker card d".data]
        else if holds (jsGt E (orZero v) (some 5)) = true then ["The Joker card m".data]
        else [] := by
  obtain ⟨v, hv, h1 | h1 | h1⟩ := houseEdgeRule_shape E comp r h
  · obtain ⟨c1, a, rfl⟩ := h1
    exact ⟨v, hv, by simp [holds, c1, key_houseEdgeDramatic]⟩
  · obtain ⟨c1, c2, a, rfl⟩ := h1
    exact ⟨v, hv, by simp [holds, c1, c2, key_houseEdgeModerate]⟩
  · obtain ⟨c1, c2, rfl⟩ := h1
    exact ⟨v, hv, by simp [holds, c1, c2]⟩

theorem houseProfitRule_keys (E : JSEngine) (data comp : JVal) (r : List String)
    (h : houseProfitRule E data comp = Except.ok r) :
    ∃ v m t, getProp comp "house_profit_increase" = Except.ok v ∧
      mathAbs E (orZero v) = Except.ok m ∧
      profitThreshold E data = Except.ok t ∧
      r.map sentenceKey =
        if numberGt (ofOption m) t = true then
          if holds (jsGt E (orZero v) (some 0)) = true then ["The casino profi".data]
          else ["Unexpectedly, th".data]
        else [] := by
  obtain ⟨v, m, t, hv, hm, ht, h1 | h1 | h1⟩ := houseProfitRule_shape E data comp r h
  · obtain ⟨c1, c2, a, rfl⟩ := h1
    exact ⟨v, m, t, hv, hm, ht, by simp [holds, c1, c2, key_profitTweakedMore]⟩
  · obtain ⟨c1, c2, a, rfl⟩ := h1
    exact ⟨v, m, t, hv, hm, ht, by simp [holds, c1, c2, key_profitFairMore]⟩
  · obtain ⟨c1, rfl⟩ := h1
    exact ⟨v, m, t, hv, hm, ht, by simp [holds, c1]⟩

theorem filter_rules_le_four (r1 r2 r3 r4 r5 r6 : List String)
    (k1 : ∀ s ∈ r1, insightRule s = 1) (k2 : ∀ s ∈ r2, insightRule s = 2)
    (k3 : ∀ s ∈ r3, insightRule s = 3) (k4 : ∀ s ∈ r4, insightRule s = 4)
    (k5 : ∀ s ∈ r5, insightRule s = 5) (k6 : ∀ s ∈ r6, insightRule s = 6) :
    (r1 ++ r2 ++ r3 ++ r4 ++ r5 ++ r6).filter (fun s => decide (insightRule s ≤ 4))
      = r1 ++ r2 ++ r3 ++ r4 := by
  have e1 : r1.filter (fun s => decide (insightRule s ≤ 4)) = r1 := by
    rw [List.filter_eq_self]; intro s hs; simp [k1 s hs]
  have e2 : r2.filter (fun s => decide (insightRule s ≤ 4)) = r2 := by
    rw [List.filter_eq_self]; intro s hs; simp [k2 s hs]
  have e3 : r3.filter (fun s => decide (insightRule s ≤ 4)) = r3 := by
    rw [List.filter_eq_self]; intro s hs; simp [k3 s hs]
  have e4 : r4.filter (fun s => decide (insightRule s ≤ 4)) = r4 := by
    rw [List.filter_eq_self]; intro s hs; simp [k4 s hs]
  have e5 : r5.filter (fun s => decide (insightRule s ≤ 4)) = [] := by
    rw [List.filter_eq_nil_iff]; intro s hs; simp [k5 s hs]
  have e6 : r6.filter (fun s => decide (insightRule s ≤ 4)) = [] := by
    rw [List.filter_eq_nil_iff]; intro s hs; simp [k6 s hs]
  simp only [List.filter_append, e1, e2, e3, e4, e5, e6, List.append_nil]

theorem nullish_of_getProp_error (d : JVal) (k : String) (e : JSError)
    (h : getProp d k = Except.error e) : ∀ k', getProp d k' = Except.error JSError.typeError := by
  cases d <;> simp_all [getProp]

theorem comparisonSummary_congr (E : JSEngine) (d1 d2 : JVal)
    (hcomp : getProp d1 "comparison" = getProp d2 "comparison") :
    comparisonSummary E d1 = comparisonSummary E d2 := by
  cases h1 : getProp d1 "comparison" with
  | error e =>
    have h2 : getProp d2 "comparison" = Except.error e := by rw [← hcomp, h1]
    unfold comparisonSummary
    simp [nullish_of_getProp_error d1 _ e h1, nullish_of_getProp_error d2 _ e h2, bind,
      Except.bind]
  | ok comp =>
    have h2 : getProp d2 "comparison" = Except.ok comp := by rw [← hcomp, h1]
    unfold comparisonSummary
    simp only [getProp_ok_all d1 _ _ h1 "fair_game", getProp_ok_all d1 _ _ h1 "tweaked_game",
      getProp_ok_all d2 _ _ h2 "fair_game", getProp_ok_all d2 _ _ h2 "tweaked_game", h1, h2,
      bind, Except.bind]

theorem toNumber_ok (E : JSEngine) (v : JVal) (h : conversionThrows v = false) :
    toNumber E v = Except.ok (numericValue E v) := by
  simp [toNumber, h]

/-- The summary is written when the conversion of the three fields whose
magnitude is shown does not throw. -/
theorem comparisonSummary_betterGame (E : JSEngine) (d comp fb : JVal)
    (hc : getProp d "comparison" = Except.ok comp)
    (hfb : getProp comp "fair_better" = Except.ok fb)
    (h1 : conversionThrows (peek comp "profit_difference") = false)
    (h2 : conversionThrows (peek comp "win_rate_difference") = false)
    (h3 : conversionThrows (peek comp "house_edge_difference") = false) :
    ∃ s, comparisonSummary E d = Except.ok s ∧
      s.betterGame = (if truthy fb = true then "Fair Game" else "Tweaked Game") := by
  unfold comparisonSummary
  simp only [getProp_ok_all d _ _ hc "fair_game", getProp_ok_all d _ _ hc "tweaked_game", hc,
    getProp_ok_all comp _ _ hfb "profit_difference",
    getProp_ok_all comp _ _ hfb "win_rate_difference",
    getProp_ok_all comp _ _ hfb "house_edge_difference", hfb, jsGe, mathAbs,
    toNumber_ok E _ h1, toNumber_ok E _ h2, toNumber_ok E _ h3, bind, Except.bind, pure,
    Except.pure]
  exact ⟨_, rfl, rfl⟩

/-- Whenever the summary is written, its better game is decided by
`comparison.fair_better`. -/
theorem comparisonSummary_betterGame_of_ok (E : JSEngine) (d comp fb : JVal)
    (s : ComparisonSummary) (hc : getProp d "comparison" = Except.ok comp)
    (hfb : getProp comp "fair_better" = Except.ok fb)
    (hs : comparisonSummary E d = Except.ok s) :
    s.betterGame = (if truthy fb = true then "Fair Game" else "Tweaked Game") := by
  unfold comparisonSummary at hs
  simp only [bind_eq_ok, pure_eq_ok] at hs
  obtain ⟨f, -, t, -, comp', hc', pd, -, c, -, pm, -, wd, -, wm, -, hd, -, hm, -, fb', hfb',
    rfl⟩ := hs
  rw [hc] at hc'
  cases ok_inj hc'
  rw [hfb] at hfb'
  cases ok_inj hfb'
  rfl


theorem tryBlock_otherFigures :
    tryBlock sampleEngine payloadOtherFigures = Except.ok otherFiguresInsights := by
  have h1 : winRateRule sampleEngine (sampleGame 60 9 3) (sampleGame 40 4 3)
      (sampleComparison 5 0 0 1000) = Except.ok [winFairHigher "60.0" "40.0"] := rfl
  have h2 : roiRule sampleEngine (sampleGame 60 9 3) (sampleGame 40 4 3)
      (sampleComparison 5 0 0 1000) = Except.ok [] := rfl
  have h3 : houseEdgeRule sampleEngine (sampleComparison 5 0 0 1000) = Except.ok [] := rfl
  have h4 : houseProfitRule sampleEngine payloadOtherFigures (sampleComparison 5 0 0 1000)
      = Except.ok [profitTweakedMore "1000.00"] := by
    have ht : profitThreshold sampleEngine payloadOtherFigures
        = Except.ok (JNumber.finite 10) := by
      rw [profitThreshold_num sampleEngine payloadOtherFigures 1 100 rfl rfl, thresholdOf_sample]
    have hfix : toFixed sampleEngine 1000 2 = "1000.00" := by decide
    unfold houseProfitRule
    simp [ht, sampleComparison, getProp, lookupKey, orZero, truthy, bind, Except.bind, pure,
      Except.pure, mathAbs_num, jsGt_num, ofOption, numberGt, callToFixed, hfix]
    norm_num
  have h5 : deviationRule sampleEngine (sampleGame 60 9 3) (sampleGame 40 4 3)
      = Except.ok [deviationClose "3.0" "3.0"] := rfl
  have h6 : streakRule sampleEngine (sampleGame 60 9 3) (sampleGame 40 4 3)
      = Except.ok [] := rfl
  have hf : getProp payloadOtherFigures "fair_game" = Except.ok (sampleGame 60 9 3) := rfl
  have ht : getProp payloadOtherFigures "tweaked_game" = Except.ok (sampleGame 40 4 3) := rfl
  have hc : getProp payloadOtherFigures "comparison"
      = Except.ok (sampleComparison 5 0 0 1000) := rfl
  unfold tryBlock insightRules
  simp only [hf, ht, hc, h1, h2, h3, h4, h5, h6, bind, Except.bind]
  rfl

/-- C15: two payloads with the same `comparison`, `bet_amount` and
`num_rounds` get the same cells from `populateImpactAnalysis`, whatever their
result blocks hold. When the try block of `generateInsights` completes on
both, the sentences of rules 1 to 4 are the same up to the figures they quote:
their first sixteen characters, which tell the sentences apart, agree in
order. `displayResults` of `simulate.js` writes the same comparison summary for
both (or throws on both); whenever it writes the summary its better game is
"Fair Game" iff `comparison.fair_better` is truthy, and it writes the summary
when `comparison` is an object and the conversion to a number of the three
fields whose magnitude it shows does not throw. -/
theorem comparison_used_as_is (E : JSEngine) (d1 d2 : JVal)
    (hcomp : getProp d1 "comparison" = getProp d2 "comparison")
    (hbet : getProp d1 "bet_amount" = getProp d2 "bet_amount")
    (hn : getProp d1 "num_rounds" = getProp d2 "num_rounds") :
    populateImpactAnalysis E d1 = populateImpactAnalysis E d2 ∧
    (∀ l1 l2, tryBlock E d1 = Except.ok l1 → tryBlock E d2 = Except.ok l2 →
      (l1.filter (fun s => decide (insightRule s ≤ 4))).map sentenceKey
        = (l2.filter (fun s => decide (insightRule s ≤ 4))).map sentenceKey) ∧
    comparisonSummary E d1 = comparisonSummary E d2 ∧
    (∀ comp fb s, getProp d1 "comparison" = Except.ok comp →
      getProp comp "fair_better" = Except.ok fb →
      comparisonSummary E d1 = Except.ok s →
      (s.betterGame = "Fair Game" ↔ truthy fb = true) ∧
      (s.betterGame = "Tweaked Game" ↔ truthy fb = false)) ∧
    (∀ comp fb, getProp d1 "comparison" = Except.ok comp →
      getProp comp "fair_better" = Except.ok fb →
      conversionThrows (peek comp "profit_difference") = false →
      conversionThrows (peek comp "win_rate_difference") = false →
      conversionThrows (peek comp "house_edge_difference") = false →
      ∃ s, comparisonSummary E d1 = Except.ok s ∧
        (s.betterGame = "Fair Game" ↔ truthy fb = true) ∧
        (s.betterGame = "Tweaked Game" ↔ truthy fb = false)) := by
  have hbetter : ∀ (fb : JVal) (s : ComparisonSummary),
      s.betterGame = (if truthy fb = true then "Fair Game" else "Tweaked Game") →
      (s.betterGame = "Fair Game" ↔ truthy fb = true) ∧
      (s.betterGame = "Tweaked Game" ↔ truthy fb = false) := by
    intro fb s hb
    rw [hb]
    by_cases h : truthy fb = true
    · simp [h]
    · simp only [if_neg h]
      exact ⟨⟨fun h' => absurd h' (by decide), fun h' => absurd h' h⟩, by simp [h]⟩
  refine ⟨?_, ?_, comparisonSummary_congr E d1 d2 hcomp, ?_, ?_⟩
  · unfold populateImpactAnalysis
    rw [hcomp]
  · intro l1 l2 hl1 hl2
    obtain ⟨fair, tweaked, comp, fr, tr, r1, r2, r3, r4, r5, r6, -, -, hc, -, -, h1, h2, h3, h4, -,
      -, rfl, k1, k2, k3, k4, k5, k6⟩ := tryBlock_parts E d1 _ hl1
    obtain ⟨fair', tweaked', comp', fr', tr', s1, s2, s3, s4, s5, s6, -, -, hc', -, -, g1, g2, g3,
      g4, -, -, rfl, j1, j2, j3, j4, j5, j6⟩ := tryBlock_parts E d2 _ hl2
    rw [hcomp, hc'] at hc
    cases ok_inj hc
    rw [filter_rules_le_four r1 r2 r3 r4 r5 r6 k1 k2 k3 k4 k5 k6,
      filter_rules_le_four s1 s2 s3 s4 s5 s6 j1 j2 j3 j4 j5 j6]
    simp only [List.map_append]
    obtain ⟨v1, hv1, e1⟩ := winRateRule_keys E fair tweaked comp r1 h1
    obtain ⟨w1, hw1, f1⟩ := winRateRule_keys E fair' tweaked' comp s1 g1
    rw [hv1] at hw1
    cases ok_inj hw1
    obtain ⟨v2, hv2, e2⟩ := roiRule_keys E fair tweaked comp r2 h2
    obtain ⟨w2, hw2, f2⟩ := roiRule_keys E fair' tweaked' comp s2 g2
    rw [hv2] at hw2
    cases ok_inj hw2
    obtain ⟨v3, hv3, e3⟩ := houseEdgeRule_keys E comp r3 h3
    obtain ⟨w3, hw3, f3⟩ := houseEdgeRule_keys E comp s3 g3
    rw [hv3] at hw3
    cases ok_inj hw3
    obtain ⟨v4, m, t, hv4, hm, ht, e4⟩ := houseProfitRule_keys E d1 comp r4 h4
    obtain ⟨w4, m', t', hw4, hm', ht', f4⟩ := houseProfitRule_keys E d2 comp s4 g4
    rw [hv4] at hw4
    cases ok_inj hw4
    rw [hm] at hm'
    cases ok_inj hm'
    have hthr : profitThreshold E d1 = profitThreshold E d2 := by
      unfold profitThreshold
      rw [hbet, hn]
    rw [hthr, ht'] at ht
    cases ok_inj ht
    rw [e1, e2, e3, e4, f1, f2, f3, f4]
  · intro comp fb s hc hfb hs
    exact hbetter fb s (comparisonSummary_betterGame_of_ok E d1 comp fb s hc hfb hs)
  · intro comp fb hc hfb h1 h2 h3
    obtain ⟨s, hs, hb⟩ := comparisonSummary_betterGame E d1 comp fb hc hfb h1 h2 h3
    exact ⟨s, hs, hbetter fb s hb⟩

/-- The sample payload and the payload with the other figures share the
comparison: same cells, the same sentences of rules 1 to 4 up to the figures,
and "Tweaked Game" as the better game, the comparison having no
`fair_better`. -/
theorem comparison_used_as_is_witness :
    populateImpactAnalysis sampleEngine samplePayload
      = populateImpactAnalysis sampleEngine payloadOtherFigures ∧
    (sampleInsights.filter (fun s => decide (insightRule s ≤ 4))).map sentenceKey
      = (otherFiguresInsights.filter (fun s => decide (insightRule s ≤ 4))).map sentenceKey ∧
    sampleInsights ≠ otherFiguresInsights ∧
    ∃ s, comparisonSummary sampleEngine samplePayload = Except.ok s ∧
      (s.betterGame = "Fair Game" ↔ truthy JVal.undefined = true) ∧
      (s.betterGame = "Tweaked Game" ↔ truthy JVal.undefined = false) := by
  obtain ⟨hcells, hkeys, _hsummary, _hany, hshown⟩ :=
    comparison_used_as_is sampleEngine samplePayload payloadOtherFigures rfl rfl rfl
  exact ⟨hcells, hkeys _ _ tryBlock_sample tryBlock_otherFigures, by decide,
    hshown _ _ rfl rfl rfl rfl rfl⟩


/-- C18, at the failing input: the payload passes the check of
`loadResultsData` and its `fair_game.results.win_rate` is `null`. `safeGet`
returns that `null`, not the fallback 0, and `populateGameResults` throws a
`TypeError` at the first `toFixed` without writing a cell. With the fields
missing instead, or with the whole `theoretical` block `null`, every field
resolves to 0 and the twelve cells show zero values. -/
theorem safeGet_returns_null_leaf :
    validate payloadNullWinRate = Except.ok () ∧
    safeGet gameWithNullWinRate ["results", "win_rate"] (JVal.num 0) = JVal.null ∧
    populateGameResults sampleEngine payloadNullWinRate = ([], some JSError.typeError) ∧
    validate payloadMissingFields = Except.ok () ∧
    (populateGameResults sampleEngine payloadMissingFields).2 = none ∧
    (populateGameResults sampleEngine payloadMissingFields).1.map (fun c => c.text)
      = ["0.0%", "$0.00", "$0.0000", "0.00%", "0.00%", "0.00%",
         "0.0%", "$0.00", "$0.0000", "0.00%", "0.00%", "0.00%"] :=
  ⟨rfl, rfl, rfl, rfl, by decide, by decide⟩

/-- C19: for every pair of series, `renderProfitChart` and `renderRoiChart`
build the labels 1, 2, ... up to the larger of the two lengths (no label when
both series are empty) and pass each series through unchanged, so each keeps
its own length. -/
theorem timeSeries_labels_and_series (fair tweaked : List JVal) :
    (profitChartConfig fair tweaked).labels = List.range' 1 (max fair.length tweaked.length) ∧
    (roiChartConfig fair tweaked).labels = List.range' 1 (max fair.length tweaked.length) ∧
    (profitChartConfig fair tweaked).labels.length = max fair.length tweaked.length ∧
    (∀ i, i < max fair.length tweaked.length →
      (profitChartConfig fair tweaked).labels[i]? = some (i + 1)) ∧
    (fair = [] → tweaked = [] → (profitChartConfig fair tweaked).labels = []) ∧
    (profitChartConfig fair tweaked).fairData = fair ∧
    (profitChartConfig fair tweaked).tweakedData = tweaked ∧
    (roiChartConfig fair tweaked).fairData = fair ∧
    (roiChartConfig fair tweaked).tweakedData = tweaked ∧
    (profitChartConfig fair tweaked).fairData.length = fair.length ∧
    (profitChartConfig fair tweaked).tweakedData.length = tweaked.length := by
  have hlab : timeSeriesLabels fair tweaked
      = List.range' 1 (max fair.length tweaked.length) := by
    unfold timeSeriesLabels
    rw [List.range'_eq_map_range]
    apply List.map_congr_left
    intro i _
    omega
  refine ⟨hlab, hlab, ?_, ?_, ?_, rfl, rfl, rfl, rfl, rfl, rfl⟩
  · simp [profitChartConfig, timeSeriesLabels]
  · intro i hi
    simp [profitChartConfig, timeSeriesLabels, hi]
  · intro hf ht
    subst hf
    subst ht
    rfl

/-! ### The order of `sort` on strings -/

theorem unitsLe_total : ∀ a b : List Nat, unitsLe a b = true ∨ unitsLe b a = true
  | [], _ => Or.inl (by simp [unitsLe])
  | _ :: _, [] => Or.inr (by simp [unitsLe])
  | a :: as, b :: bs => by
    rcases Nat.lt_trichotomy a b with h | h | h
    · left
      simp [unitsLe, h]
    · subst h
      rcases unitsLe_total as bs with h' | h'
      · left
        simp [unitsLe, h']
      · right
        simp [unitsLe, h']
    · right
      simp [unitsLe, h]

theorem unitsLe_trans : ∀ a b c : List Nat,
    unitsLe a b = true → unitsLe b c = true → unitsLe a c = true
  | [], _, _, _, _ => by simp [unitsLe]
  | _ :: _, [], _, h, _ => by simp [unitsLe] at h
  | _ :: _, _ :: _, [], _, h => by simp [unitsLe] at h
  | a :: as, b :: bs, c :: cs, h1, h2 => by
    simp only [unitsLe] at h1 h2 ⊢
    by_cases hab : a < b
    · by_cases hbc : b < c
      · simp [lt_trans hab hbc]
      · by_cases hcb : c < b
        · simp [hbc, hcb] at h2
        · have : b = c := by omega
          subst this
          simp [hab]
    · by_cases hba : b < a
      · simp [hab, hba] at h1
      · have : a = b := by omega
        subst this
        simp only [hab, if_false] at h1
        by_cases hbc : a < c
        · simp [hbc]
        · by_cases hcb : c < a
          · simp [hbc, hcb] at h2
          · simp only [hbc, hcb, if_false] at h2 ⊢
            exact unitsLe_trans as bs cs h1 h2

theorem sorted_categoryLabels (fair tweaked : List (String × JVal)) :
    (categoryLabels fair tweaked).Sorted sortsBefore :=
  @List.sorted_insertionSort String sortsBefore _
    ⟨fun _ _ => unitsLe_total _ _⟩ ⟨fun _ _ _ => unitsLe_trans _ _ _⟩ _

theorem mem_objectKeys (entries : List (String × JVal)) (k : String) :
    k ∈ objectKeys entries ↔ hasKey entries k = true := by
  simp [objectKeys, hasKey]

theorem mem_categoryLabels (fair tweaked : List (String × JVal)) (k : String) :
    k ∈ categoryLabels fair tweaked ↔ (hasKey fair k = true ∨ hasKey tweaked k = true) := by
  unfold categoryLabels
  rw [List.mem_insertionSort, List.mem_dedup, List.mem_append, mem_objectKeys, mem_objectKeys]

theorem nodup_categoryLabels (fair tweaked : List (String × JVal)) :
    (categoryLabels fair tweaked).Nodup :=
  (List.perm_insertionSort _ _).nodup_iff.2 (List.nodup_dedup _)


theorem countOrZero_of_label (freq : List (String × JVal)) (k : String)
    (hk : k ∉ objectPrototypeNames) :
    countOrZero freq k =
      if hasKey freq k = true then ChartValue.value (orZero (lookupKey k freq))
      else ChartValue.value (JVal.num 0) := by
  unfold countOrZero
  split_ifs <;> rfl

/-- C20: for two card-to-count objects none of whose keys names a member of
`Object.prototype`, the labels of the four category charts are the keys of
the two objects, each once, in ascending order of the default `sort`; both
data series have the length of the label list; and at every index the fair
entry is fair's count for that label (a falsy count reading as 0) when fair
has the key and 0 otherwise, likewise for tweaked. A count stored as a number
is passed as that number. -/
theorem categoryChart_labels_and_series (fair tweaked : List (String × JVal))
    (hnames : ∀ k, hasKey fair k = true ∨ hasKey tweaked k = true → k ∉ objectPrototypeNames) :
    cardFreqChartConfig fair tweaked = categoryChartConfig fair tweaked ∧
    singleBallChartConfig fair tweaked = categoryChartConfig fair tweaked ∧
    doubleBallChartConfig fair tweaked = categoryChartConfig fair tweaked ∧
    tripleBallChartConfig fair tweaked = categoryChartConfig fair tweaked ∧
    (∀ k, k ∈ (categoryChartConfig fair tweaked).labels ↔
      (hasKey fair k = true ∨ hasKey tweaked k = true)) ∧
    (categoryChartConfig fair tweaked).labels.Nodup ∧
    (categoryChartConfig fair tweaked).labels.Sorted sortsBefore ∧
    (categoryChartConfig fair tweaked).fairData.length
      = (categoryChartConfig fair tweaked).labels.length ∧
    (categoryChartConfig fair tweaked).tweakedData.length
      = (categoryChartConfig fair tweaked).labels.length ∧
    (∀ (i : Nat) (k : String), (categoryChartConfig fair tweaked).labels[i]? = some k →
      (categoryChartConfig fair tweaked).fairData[i]? = some
        (if hasKey fair k = true then ChartValue.value (orZero (lookupKey k fair))
         else ChartValue.value (JVal.num 0)) ∧
      (categoryChartConfig fair tweaked).tweakedData[i]? = some
        (if hasKey tweaked k = true then ChartValue.value (orZero (lookupKey k tweaked))
         else ChartValue.value (JVal.num 0)) ∧
      (∀ n : ℚ, hasKey fair k = true → lookupKey k fair = JVal.num n →
        (categoryChartConfig fair tweaked).fairData[i]? = some (ChartValue.value (JVal.num n))) ∧
      (∀ n : ℚ, hasKey tweaked k = true → lookupKey k tweaked = JVal.num n →
        ((categoryChartConfig fair tweaked).tweakedData[i]?) =
          some (ChartValue.value (JVal.num n)))) := by
  refine ⟨rfl, rfl, rfl, rfl, mem_categoryLabels fair tweaked, nodup_categoryLabels fair tweaked,
    sorted_categoryLabels fair tweaked, ?_, ?_, ?_⟩
  · simp [categoryChartConfig]
  · simp [categoryChartConfig]
  · intro i k hik
    have hmem : k ∈ categoryLabels fair tweaked := List.getElem?_mem hik
    have hk : k ∉ objectPrototypeNames := hnames k ((mem_categoryLabels fair tweaked k).1 hmem)
    have hfair : (categoryChartConfig fair tweaked).fairData[i]? = some
        (if hasKey fair k = true then ChartValue.value (orZero (lookupKey k fair))
         else ChartValue.value (JVal.num 0)) := by
      have hik' : (categoryLabels fair tweaked)[i]? = some k := hik
      simp only [categoryChartConfig, List.getElem?_map, hik', Option.map_some']
      rw [countOrZero_of_label fair k hk]
    have htweaked : (categoryChartConfig fair tweaked).tweakedData[i]? = some
        (if hasKey tweaked k = true then ChartValue.value (orZero (lookupKey k tweaked))
         else ChartValue.value (JVal.num 0)) := by
      have hik' : (categoryLabels fair tweaked)[i]? = some k := hik
      simp only [categoryChartConfig, List.getElem?_map, hik', Option.map_some']
      rw [countOrZero_of_label tweaked k hk]
    refine ⟨hfair, htweaked, ?_, ?_⟩
    · intro n hhas hn
      rw [hfair, if_pos hhas, hn, orZero_num]
    · intro n hhas hn
      rw [htweaked, if_pos hhas, hn, orZero_num]

theorem sampleCards_names (k : String)
    (h : hasKey sampleFairCards k = true ∨ hasKey sampleTweakedCards k = true) :
    k ∉ objectPrototypeNames := by
  simp only [hasKey, sampleFairCards, sampleTweakedCards, List.any_cons, List.any_nil,
    Bool.or_false, Bool.or_eq_true, decide_eq_true_eq] at h
  rcases h with (h | h) | (h | h) <;> subst h <;> decide

/-- Fair has King and Ace, tweaked has Joker and Ace: the labels are Ace,
Joker, King, the fair entry at Joker is 0 and the tweaked entry at Joker is
its count 4. -/
theorem categoryChart_labels_and_series_witness :
    (categoryChartConfig sampleFairCards sampleTweakedCards).labels = ["Ace", "Joker", "King"] ∧
    (categoryChartConfig sampleFairCards sampleTweakedCards).labels.Sorted sortsBefore ∧
    ((categoryChartConfig sampleFairCards sampleTweakedCards).fairData[1]?) =
      some (ChartValue.value (JVal.num 0)) ∧
    ((categoryChartConfig sampleFairCards sampleTweakedCards).tweakedData[1]?) =
      some (ChartValue.value (JVal.num 4)) := by
  obtain ⟨_hcard, _hsingle, _hdouble, _htriple, _hmem, _hnodup, hsorted, _hflen, _htlen, hentry⟩ :=
    categoryChart_labels_and_series sampleFairCards sampleTweakedCards sampleCards_names
  obtain ⟨hfair, -, -, htweaked⟩ := hentry 1 "Joker" (by decide)
  exact ⟨by decide, hsorted, hfair, htweaked 4 rfl rfl⟩


/-- With a fair series of three values and a tweaked series of one, the labels
are 1, 2, 3 and the tweaked series keeps its single value. -/
theorem timeSeries_labels_and_series_witness :
    (profitChartConfig [JVal.num 1, JVal.num 2, JVal.num 3] [JVal.num 5]).labels = [1, 2, 3] ∧
    (roiChartConfig [JVal.num 1, JVal.num 2, JVal.num 3] [JVal.num 5]).labels = [1, 2, 3] ∧
    (profitChartConfig [JVal.num 1, JVal.num 2, JVal.num 3] [JVal.num 5]).tweakedData.length = 1 ∧
    (profitChartConfig [] []).labels = [] := by
  obtain ⟨hprofit, hroi, _hlen, _hidx, _hnil, _hfair, _htw, _hrfair, _hrtw, _hflen, htweaked⟩ :=
    timeSeries_labels_and_series [JVal.num 1, JVal.num 2, JVal.num 3] [JVal.num 5]
  obtain ⟨_hp, _hr, _hl, _hi, hempty, _hrest⟩ := timeSeries_labels_and_series [] []
  exact ⟨hprofit.trans (by decide), hroi.trans (by decide), htweaked, hempty rfl rfl⟩


/-! ### The default insight and the length of the list -/

theorem generateInsights_cases (E : JSEngine) (data : JVal) (l : List String)
    (h : generateInsights E data = Except.ok l) :
    tryBlock E data = Except.ok l ∨
    ((∃ e, tryBlock E data = Except.error e) ∧ l = [errorInsight]) := by
  unfold generateInsights at h
  simp only [bind_eq_ok] at h
  obtain ⟨fair, hf, tweaked, ht, comp, hc, hm⟩ := h
  cases hr : insightRules E data fair tweaked comp with
  | ok l' =>
    left
    rw [hr] at hm
    simp only [pure_eq_ok] at hm
    subst hm
    simp [tryBlock, hf, ht, hc, hr, bind, Except.bind]
  | error e =>
    right
    rw [hr] at hm
    simp only [pure_eq_ok] at hm
    exact ⟨⟨e, by simp [tryBlock, hf, ht, hc, hr, bind, Except.bind]⟩, hm.symm⟩

theorem rule_defaultInsight : insightRule defaultInsight = 0 := by decide

/-- C24: the list computed by `generateInsights` never has the default insight
"Both games performed as expected based on their theoretical models." When
the try block completes, the list has between 2 and 6 entries, among them a
win-rate sentence and a deviation sentence; when it faults, the list is the
error insight alone. -/
theorem default_insight_unreachable (E : JSEngine) (data : JVal) (l : List String)
    (h : generateInsights E data = Except.ok l) :
    defaultInsight ∉ l ∧
    (∀ l', tryBlock E data = Except.ok l' →
      l = l' ∧ 2 ≤ l.length ∧ l.length ≤ 6 ∧
      (∃ s ∈ l, (∃ a b, s = winFairHigher a b) ∨ s = winTweakedHigher ∨
        ∃ a b, s = winSimilar a b) ∧
      (∃ s ∈ l, (∃ a b, s = deviationLarge a b) ∨ ∃ a b, s = deviationClose a b)) ∧
    ((∃ e, tryBlock E data = Except.error e) → l = [errorInsight] ∧ l.length = 1) := by
  have hparts : ∀ l', tryBlock E data = Except.ok l' →
      defaultInsight ∉ l' ∧ 2 ≤ l'.length ∧ l'.length ≤ 6 ∧
      (∃ s ∈ l', (∃ a b, s = winFairHigher a b) ∨ s = winTweakedHigher ∨
        ∃ a b, s = winSimilar a b) ∧
      (∃ s ∈ l', (∃ a b, s = deviationLarge a b) ∨ ∃ a b, s = deviationClose a b) := by
    intro l' hl'
    obtain ⟨fair, tweaked, comp, fr, tr, r1, r2, r3, r4, r5, r6, -, -, -, -, -, h1, h2, h3, h4,
      h5, h6, rfl, k1, k2, k3, k4, k5, k6⟩ := tryBlock_parts E data l' hl'
    have n2 := roiRule_length E fair tweaked comp r2 h2
    have n3 := houseEdgeRule_length E comp r3 h3
    have n4 := houseProfitRule_length E data comp r4 h4
    have n5 := deviationRule_length E fair tweaked r5 h5
    have n6 := streakRule_length E fair tweaked r6 h6
    have hwin : (∃ s, r1 = [s]) ∧ ∃ s ∈ r1, (∃ a b, s = winFairHigher a b) ∨
        s = winTweakedHigher ∨ ∃ a b, s = winSimilar a b := by
      obtain ⟨v, -, c | c | c⟩ := winRateRule_shape E fair tweaked comp r1 h1
      · obtain ⟨-, a, b, rfl⟩ := c
        exact ⟨⟨_, rfl⟩, _, List.mem_singleton.2 rfl, Or.inl ⟨a, b, rfl⟩⟩
      · obtain ⟨-, -, rfl⟩ := c
        exact ⟨⟨_, rfl⟩, _, List.mem_singleton.2 rfl, Or.inr (Or.inl rfl)⟩
      · obtain ⟨-, -, a, b, rfl⟩ := c
        exact ⟨⟨_, rfl⟩, _, List.mem_singleton.2 rfl, Or.inr (Or.inr ⟨a, b, rfl⟩)⟩
    have hdev : ∃ s ∈ r5, (∃ a b, s = deviationLarge a b) ∨ ∃ a b, s = deviationClose a b := by
      obtain ⟨fr', x, tr', y, dx, dy, -, -, -, -, -, -, c | c⟩ :=
        deviationRule_shape E fair tweaked r5 h5
      · obtain ⟨-, a, b, rfl⟩ := c
        exact ⟨_, List.mem_singleton.2 rfl, Or.inl ⟨a, b, rfl⟩⟩
      · obtain ⟨-, a, b, rfl⟩ := c
        exact ⟨_, List.mem_singleton.2 rfl, Or.inr ⟨a, b, rfl⟩⟩
    obtain ⟨⟨s1, hs1⟩, w, hw, hwk⟩ := hwin
    obtain ⟨d, hd, hdk⟩ := hdev
    have n1 : r1.length = 1 := by rw [hs1]; rfl
    refine ⟨?_, ?_, ?_, ⟨w, by simp [hw], hwk⟩, ⟨d, by simp [hd], hdk⟩⟩
    · intro hmem
      simp only [List.mem_append] at hmem
      have h0 := rule_defaultInsight
      rcases hmem with ((((m | m) | m) | m) | m) | m
      · have := k1 _ m; omega
      · have := k2 _ m; omega
      · have := k3 _ m; omega
      · have := k4 _ m; omega
      · have := k5 _ m; omega
      · have := k6 _ m; omega
    · simp only [List.length_append]; omega
    · simp only [List.length_append]; omega
  rcases generateInsights_cases E data l h with hok | ⟨⟨e, he⟩, hl⟩
  · obtain ⟨hd, hrest⟩ := hparts l hok
    refine ⟨hd, ?_, ?_⟩
    · intro l' hl'
      rw [hok] at hl'
      cases ok_inj hl'
      exact ⟨rfl, hrest⟩
    · rintro ⟨e, he⟩
      rw [hok] at he
      cases he
  · refine ⟨?_, ?_, ?_⟩
    · rw [hl]
      decide
    · intro l' hl'
      rw [he] at hl'
      cases hl'
    · intro _
      exact ⟨hl, by rw [hl]; rfl⟩

/-- On the sample payload the list has three entries and no default insight;
on the sample payload without `comparison` the try block faults and the list
has one entry. -/
theorem default_insight_unreachable_witness :
    defaultInsight ∉ sampleInsights ∧ 2 ≤ sampleInsights.length ∧ sampleInsights.length ≤ 6 ∧
    defaultInsight ∉ [errorInsight] ∧
    generateInsights sampleEngine payloadWithoutComparison = Except.ok [errorInsight] := by
  obtain ⟨hdefault, hcomplete, _hfault⟩ := default_insight_unreachable sampleEngine samplePayload
    sampleInsights (generateInsights_of_tryBlock _ _ _ tryBlock_sample)
  obtain ⟨_heq, hlow, hhigh, _hwin, _hdev⟩ := hcomplete sampleInsights tryBlock_sample
  have hfaulting : generateInsights sampleEngine payloadWithoutComparison
      = Except.ok [errorInsight] := rfl
  exact ⟨hdefault, hlow, hhigh,
    (default_insight_unreachable sampleEngine payloadWithoutComparison [errorInsight]
      hfaulting).1, hfaulting⟩


/-- C25: with `house_profit_increase` the number `v` (and the other three
comparison fields numbers, so that the calls before this one do not throw),
the house-profit cell of `populateImpactAnalysis` has the text `+$` followed
by `v` to two decimals when `v ≥ 0`, and `$` followed by `|v|` to two decimals
when `v < 0`, without a minus sign below `10^21`. For `v > 0` the text for `v`
is `+` followed by the text for `-v`. The class is
`comparison-difference negative-difference` iff `v ≥ 0` and
`comparison-difference positive-difference` iff `v < 0`. -/
theorem houseProfit_sign_handling (E : JSEngine) (d1 d2 : JVal)
    (a1 r1 h1 a2 r2 h2 v : ℚ)
    (ha1 : comparisonField d1 "win_rate_difference" = Except.ok (JVal.num a1))
    (hr1 : comparisonField d1 "roi_difference" = Except.ok (JVal.num r1))
    (hh1 : comparisonField d1 "house_edge_increase_rate" = Except.ok (JVal.num h1))
    (hv1 : comparisonField d1 "house_profit_increase" = Except.ok (JVal.num v))
    (ha2 : comparisonField d2 "win_rate_difference" = Except.ok (JVal.num a2))
    (hr2 : comparisonField d2 "roi_difference" = Except.ok (JVal.num r2))
    (hh2 : comparisonField d2 "house_edge_increase_rate" = Except.ok (JVal.num h2))
    (hv2 : comparisonField d2 "house_profit_increase" = Except.ok (JVal.num (-v))) :
    ∃ c1 c2 : DiffCell,
      (populateImpactAnalysis E d1).1[3]? = some c1 ∧
      (populateImpactAnalysis E d2).1[3]? = some c2 ∧
      c1.id = "houseProfitIncrease" ∧
      (0 ≤ v → c1.text = "+$" ++ toFixed E v 2) ∧
      (v < 0 → c1.text = "$" ++ toFixed E |v| 2) ∧
      (v < 0 → |v| < 10 ^ 21 → '-' ∉ c1.text.data) ∧
      (0 < v → c2.text = "$" ++ toFixed E v 2 ∧ c1.text = "+" ++ c2.text) ∧
      (c1.className = "comparison-difference negative-difference" ↔ 0 ≤ v) ∧
      (c1.className = "comparison-difference positive-difference" ↔ v < 0) := by
  rw [populateImpactAnalysis_eval E d1 a1 r1 h1 v ha1 hr1 hh1 hv1,
    populateImpactAnalysis_eval E d2 a2 r2 h2 (-v) ha2 hr2 hh2 hv2]
  refine ⟨⟨"houseProfitIncrease", (if 0 ≤ v then "+" else "") ++ "$" ++ toFixed E |v| 2,
      "comparison-difference " ++
        (if 0 ≤ v then "negative-difference" else "positive-difference")⟩,
    ⟨"houseProfitIncrease", (if 0 ≤ -v then "+" else "") ++ "$" ++ toFixed E |(-v)| 2,
      "comparison-difference " ++
        (if 0 ≤ -v then "negative-difference" else "positive-difference")⟩,
    rfl, rfl, rfl, ?_, ?_, ?_, ?_, ?_, ?_⟩
  · intro hv
    simp only [if_pos hv, abs_of_nonneg hv]
    rfl
  · intro hv
    simp only [if_neg (not_le.2 hv)]
    rw [String.empty_append]
  · intro hv hsmall
    simp only [if_neg (not_le.2 hv)]
    rw [String.empty_append, toFixed_abs E v 2 hsmall, String.data_append]
    intro hmem
    rcases List.mem_append.1 hmem with m | m
    · exact absurd m (by decide)
    · exact fixedDigits_no_minus _ _ m
  · intro hv
    have hneg : ¬ (0 ≤ -v) := by linarith
    simp only [if_neg hneg, if_pos (le_of_lt hv), abs_neg, abs_of_pos hv, String.empty_append]
    exact ⟨trivial, String.append_assoc _ _ _⟩
  · by_cases hv : 0 ≤ v
    · simp only [if_pos hv]
      exact ⟨fun _ => hv, fun _ => rfl⟩
    · simp only [if_neg hv]
      exact ⟨fun hc => absurd hc (by decide), fun h' => absurd h' hv⟩
  · by_cases hv : 0 ≤ v
    · simp only [if_pos hv]
      exact ⟨fun hc => absurd hc (by decide), fun h' => absurd hv (not_le.2 h')⟩
    · simp only [if_neg hv]
      exact ⟨fun _ => not_le.1 hv, fun _ => rfl⟩

theorem houseProfit_sample_negative :
    comparisonField (payloadWith (sampleComparison 5 0 0 (-7))) "house_profit_increase"
      = Except.ok (JVal.num (-7)) := by
  simp [comparisonField, payloadWith, sampleComparison, getProp, lookupKey, orZero, truthy, bind,
    Except.bind, pure, Except.pure]

/-- A house profit increase of 7 is rendered as "+$7.00" and one of -7 as
"$7.00". -/
theorem houseProfit_sign_handling_witness :
    ∃ c1 c2 : DiffCell,
      (populateImpactAnalysis sampleEngine (payloadWith (sampleComparison 5 0 0 7))).1[3]?
        = some c1 ∧
      (populateImpactAnalysis sampleEngine (payloadWith (sampleComparison 5 0 0 (-7)))).1[3]?
        = some c2 ∧
      c1.text = "+" ++ c2.text ∧ c2.text = "$" ++ toFixed sampleEngine 7 2 ∧
      toFixed sampleEngine 7 2 = "7.00" := by
  obtain ⟨c1, c2, hc1, hc2, _hid, _hpos, _hneg, _hminus, hpair, _hclass⟩ :=
    houseProfit_sign_handling sampleEngine (payloadWith (sampleComparison 5 0 0 7))
      (payloadWith (sampleComparison 5 0 0 (-7))) 5 0 0 5 0 0 7 rfl rfl rfl rfl rfl rfl rfl
      houseProfit_sample_negative
  exact ⟨c1, c2, hc1, hc2, (hpair (by norm_num)).2, (hpair (by norm_num)).1, by decide⟩


/-! ### The chart state -/

theorem consistent_initial : ChartsConsistent initialCharts := by
  refine ⟨?_, ?_, ?_, ?_, ?_⟩ <;> simp [initialCharts]

theorem destroyHeld_sublist (st : ChartState) (c : ChartId) :
    (destroyHeld st c).Sublist st.live := by
  unfold destroyHeld
  cases st.handles c with
  | none => exact List.Sublist.refl _
  | some held => exact List.filter_sublist _

theorem destroyHeld_not_chart (st : ChartState) (c : ChartId) (h : ChartsConsistent st) :
    ∀ inst ∈ destroyHeld st c, inst.chart ≠ c := by
  intro inst hmem hc
  have hlive : inst ∈ st.live := (destroyHeld_sublist st c).subset hmem
  have hheld := h.1 inst hlive
  rw [hc] at hheld
  unfold destroyHeld at hmem
  simp [hheld] at hmem

theorem destroyHeld_other (st : ChartState) (c c' : ChartId) (h : ChartsConsistent st)
    (hne : c' ≠ c) :
    (destroyHeld st c).filter (fun inst => decide (inst.chart = c')) =
      st.live.filter (fun inst => decide (inst.chart = c')) := by
  unfold destroyHeld
  cases hh : st.handles c with
  | none => rfl
  | some held =>
    simp only [List.filter_filter]
    apply List.filter_congr
    intro inst hmem
    by_cases hc : inst.chart = c'
    · have hid : inst.id ≠ held := by
        intro hid
        exact hne (hc.symm.trans (h.2.1 c held hh inst hmem hid))
      simp [hc, hid]
    · simp [hc]

theorem destroyHeld_self (st : ChartState) (c : ChartId) (h : ChartsConsistent st) :
    (destroyHeld st c).filter (fun inst => decide (inst.chart = c)) = [] := by
  rw [List.filter_eq_nil_iff]
  intro inst hmem
  simpa using destroyHeld_not_chart st c h inst hmem

theorem renderChart_liveSpecs_other (m : ChartId → Bool) (f : ChartId → Option JSError)
    (c c' : ChartId) (spec : ChartSpec) (st : ChartState) (h : ChartsConsistent st)
    (hne : c' ≠ c) :
    liveSpecs (renderChart m f c spec st).1 c' = liveSpecs st c' := by
  unfold renderChart liveSpecs
  cases hm : m c
  · simp
  · cases hf : f c with
    | some e => simp [destroyHeld_other st c c' h hne]
    | none => simp [List.filter_append, destroyHeld_other st c c' h hne, hne.symm]

theorem renderChart_created (m : ChartId → Bool) (f : ChartId → Option JSError)
    (c : ChartId) (spec : ChartSpec) (st : ChartState) (h : ChartsConsistent st)
    (hm : m c = true) (hf : f c = none) :
    (renderChart m f c spec st).2 = none ∧ liveSpecs (renderChart m f c spec st).1 c = [spec] := by
  unfold renderChart liveSpecs
  simp [hm, hf, List.filter_append, destroyHeld_self st c h]

theorem renderChart_failed (m : ChartId → Bool) (f : ChartId → Option JSError)
    (c : ChartId) (spec : ChartSpec) (st : ChartState) (e : JSError) (h : ChartsConsistent st)
    (hm : m c = true) (hf : f c = some e) :
    (renderChart m f c spec st).2 = some e ∧ liveSpecs (renderChart m f c spec st).1 c = [] := by
  unfold renderChart liveSpecs
  simp [hm, hf, destroyHeld_self st c h]

theorem renderChart_skipped (m : ChartId → Bool) (f : ChartId → Option JSError)
    (c : ChartId) (spec : ChartSpec) (st : ChartState) (hm : m c = false) :
    renderChart m f c spec st = ({ st with invoked := st.invoked ++ [c] }, none) := by
  simp [renderChart, hm]

theorem renderChart_mounted_ok (m : ChartId → Bool) (f : ChartId → Option JSError)
    (c : ChartId) (spec : ChartSpec) (st : ChartState) (hm : m c = true) (hf : f c = none) :
    renderChart m f c spec st =
      ({ handles := fun c' => if c' = c then some st.created else st.handles c'
         live := destroyHeld st c ++ [⟨st.created, c, spec⟩]
         created := st.created + 1
         invoked := st.invoked ++ [c] }, none) := by
  simp [renderChart, hm, hf]

theorem renderChart_mounted_fail (m : ChartId → Bool) (f : ChartId → Option JSError)
    (c : ChartId) (spec : ChartSpec) (st : ChartState) (e : JSError) (hm : m c = true)
    (hf : f c = some e) :
    renderChart m f c spec st =
      ({ handles := st.handles, live := destroyHeld st c, created := st.created,
         invoked := st.invoked ++ [c] }, some e) := by
  simp [renderChart, hm, hf]

theorem renderChart_consistent (m : ChartId → Bool) (f : ChartId → Option JSError)
    (c : ChartId) (spec : ChartSpec) (st : ChartState) (h : ChartsConsistent st) :
    ChartsConsistent (renderChart m f c spec st).1 := by
  obtain ⟨h1, h2, h3, h4, h5⟩ := h
  have hsub := destroyHeld_sublist st c
  have hnot := destroyHeld_not_chart st c ⟨h1, h2, h3, h4, h5⟩
  cases hm : m c
  · rw [renderChart_skipped m f c spec st hm]
    exact ⟨h1, h2, h3, h4, h5⟩
  · cases hf : f c with
    | some e =>
      rw [renderChart_mounted_fail m f c spec st e hm hf]
      refine ⟨?_, ?_, h3, ?_, ?_⟩
      · intro inst hmem
        exact h1 inst (hsub.subset hmem)
      · intro c' held hh inst hmem hid
        exact h2 c' held hh inst (hsub.subset hmem) hid
      · intro inst hmem
        exact h4 inst (hsub.subset hmem)
      · exact (hsub.map _).nodup h5
    | none =>
      rw [renderChart_mounted_ok m f c spec st hm hf]
      refine ⟨?_, ?_, ?_, ?_, ?_⟩
      · intro inst hmem
        dsimp only at hmem ⊢
        rcases List.mem_append.1 hmem with hold | hnew
        · have hc : inst.chart ≠ c := hnot inst hold
          rw [if_neg hc]
          exact h1 inst (hsub.subset hold)
        · rw [List.mem_singleton] at hnew
          subst hnew
          simp
      · intro c' held hh inst hmem hid
        dsimp only at hmem hh
        by_cases hc : c' = c
        · subst hc
          rw [if_pos rfl] at hh
          have hheld : st.created = held := Option.some.inj hh
          rcases List.mem_append.1 hmem with hold | hnew
          · have := h4 inst (hsub.subset hold)
            omega
          · rw [List.mem_singleton] at hnew
            subst hnew
            rfl
        · rw [if_neg hc] at hh
          rcases List.mem_append.1 hmem with hold | hnew
          · exact h2 c' held hh inst (hsub.subset hold) hid
          · rw [List.mem_singleton] at hnew
            subst hnew
            have := h3 c' held hh
            dsimp only at hid
            omega
      · intro c' held hh
        dsimp only at hh ⊢
        by_cases hc : c' = c
        · subst hc
          rw [if_pos rfl] at hh
          have hheld : st.created = held := Option.some.inj hh
          omega
        · rw [if_neg hc] at hh
          have := h3 c' held hh
          omega
      · intro inst hmem
        dsimp only at hmem ⊢
        rcases List.mem_append.1 hmem with hold | hnew
        · have := h4 inst (hsub.subset hold)
          omega
        · rw [List.mem_singleton] at hnew
          subst hnew
          dsimp only
          omega
      · dsimp only
        rw [List.map_append, List.nodup_append]
        refine ⟨(hsub.map _).nodup h5, List.nodup_singleton _, ?_⟩
        intro a ha hb
        rw [List.map_singleton, List.mem_singleton] at hb
        obtain ⟨inst, hinst, hid⟩ := List.mem_map.1 ha
        have := h4 inst (hsub.subset hinst)
        dsimp only at hb hid
        omega


theorem runBuilders_consistent (m : ChartId → Bool) (f : ChartId → Option JSError)
    (specs : List (ChartId × ChartSpec)) :
    ∀ st, ChartsConsistent st → ChartsConsistent (runBuilders m f specs st).1 := by
  induction specs with
  | nil => intro st h; exact h
  | cons p rest ih =>
    intro st h
    obtain ⟨c, spec⟩ := p
    have hc := renderChart_consistent m f c spec st h
    unfold runBuilders
    cases hr : renderChart m f c spec st with
    | mk st1 r =>
      rw [hr] at hc
      cases r with
      | some e => exact hc
      | none => exact ih st1 hc

theorem renderCharts_consistent (m : ChartId → Bool) (f : ChartId → Option JSError)
    (st st1 : ChartState) (data : JVal) (r : Option JSError) (h : ChartsConsistent st)
    (hr : renderCharts m f st data = some (st1, r)) : ChartsConsistent st1 := by
  unfold renderCharts at hr
  cases ha : chartArguments data with
  | error e =>
    rw [ha] at hr
    cases hr
    exact h
  | ok oa =>
    cases oa with
    | none => rw [ha] at hr; cases hr
    | some args =>
      rw [ha] at hr
      have hst : st1 = (runBuilders m f (chartSpecs args) st).1 := by
        rw [Option.some.inj hr]
      rw [hst]
      exact runBuilders_consistent m f _ st h

theorem renderAll_consistent (m : ChartId → Bool) (f : ChartId → Option JSError)
    (payloads : List JVal) :
    ∀ st st1, ChartsConsistent st → renderAll m f payloads st = some st1 →
      ChartsConsistent st1 := by
  induction payloads with
  | nil =>
    intro st st1 h hr
    cases hr
    exact h
  | cons data rest ih =>
    intro st st1 h hr
    unfold renderAll at hr
    cases hc : renderCharts m f st data with
    | none => rw [hc] at hr; cases hr
    | some p =>
      obtain ⟨st2, r⟩ := p
      rw [hc] at hr
      exact ih st2 st1 (renderCharts_consistent m f st st2 data r h hc) hr

/-- In a consistent state the live charts of one chart id are at most one. -/
theorem consistent_at_most_one (st : ChartState) (h : ChartsConsistent st) (c : ChartId) :
    (st.live.filter (fun inst => decide (inst.chart = c))).length ≤ 1 := by
  obtain ⟨h1, _, _, _, h5⟩ := h
  have hsub : (st.live.filter (fun inst => decide (inst.chart = c))).Sublist st.live :=
    List.filter_sublist _
  have hnodup := (hsub.map (fun inst => inst.id)).nodup h5
  have hall : ∀ inst ∈ st.live.filter (fun inst => decide (inst.chart = c)),
      st.handles c = some inst.id := by
    intro inst hmem
    obtain ⟨hlive, hc⟩ := List.mem_filter.1 hmem
    have hc' : inst.chart = c := by simpa using hc
    rw [← hc']
    exact h1 inst hlive
  generalize st.live.filter (fun inst => decide (inst.chart = c)) = l at hnodup hall
  match l, hnodup, hall with
  | [], _, _ => simp
  | [_], _, _ => simp
  | a :: b :: rest, hnodup, hall =>
    exfalso
    have ha := hall a (by simp)
    have hb := hall b (by simp)
    rw [ha] at hb
    have hid : a.id = b.id := Option.some.inj hb
    simp [hid] at hnodup

/-- A chart that is not among the render calls keeps its live charts. -/
theorem runBuilders_liveSpecs_absent (m : ChartId → Bool) (f : ChartId → Option JSError)
    (c : ChartId) (specs : List (ChartId × ChartSpec)) :
    ∀ st, ChartsConsistent st → c ∉ specs.map Prod.fst →
      liveSpecs (runBuilders m f specs st).1 c = liveSpecs st c := by
  induction specs with
  | nil => intro st _ _; rfl
  | cons p rest ih =>
    intro st h hnot
    obtain ⟨c0, spec⟩ := p
    have hne : c ≠ c0 := by
      intro heq
      exact hnot (by simp [heq])
    have hrest : c ∉ rest.map Prod.fst := by
      intro hmem
      exact hnot (by simp only [List.map_cons, List.mem_cons]; exact Or.inr hmem)
    have hc := renderChart_consistent m f c0 spec st h
    have hl := renderChart_liveSpecs_other m f c0 c spec st h hne
    unfold runBuilders
    cases hr : renderChart m f c0 spec st with
    | mk st1 r =>
      rw [hr] at hc hl
      cases r with
      | some e => exact hl
      | none => exact (ih st1 hc hrest).trans hl

/-- With every mount point present and no failure of the chart library, the
render calls leave exactly the chart of each call live for its chart id. -/
theorem runBuilders_liveSpecs_present (m : ChartId → Bool) (f : ChartId → Option JSError)
    (hm : ∀ c, m c = true) (hf : ∀ c, f c = none) (specs : List (ChartId × ChartSpec)) :
    ∀ st, ChartsConsistent st → (specs.map Prod.fst).Nodup →
      (runBuilders m f specs st).2 = none ∧
      ∀ c spec, (c, spec) ∈ specs → liveSpecs (runBuilders m f specs st).1 c = [spec] := by
  induction specs with
  | nil =>
    intro st _ _
    exact ⟨rfl, fun c spec hmem => absurd hmem (List.not_mem_nil _)⟩
  | cons p rest ih =>
    intro st h hnodup
    obtain ⟨c0, spec0⟩ := p
    rw [List.map_cons, List.nodup_cons] at hnodup
    obtain ⟨hnot, hrest⟩ := hnodup
    have hc := renderChart_consistent m f c0 spec0 st h
    obtain ⟨hnone, hlive⟩ := renderChart_created m f c0 spec0 st h (hm c0) (hf c0)
    have hstep : runBuilders m f ((c0, spec0) :: rest) st
        = runBuilders m f rest (renderChart m f c0 spec0 st).1 := by
      conv_lhs => unfold runBuilders
      cases hr : renderChart m f c0 spec0 st with
      | mk st1 r =>
        rw [hr] at hnone
        dsimp only at hnone
        subst hnone
        rfl
    rw [hstep]
    obtain ⟨hok, hall⟩ := ih _ hc hrest
    refine ⟨hok, ?_⟩
    intro c spec hmem
    rcases List.mem_cons.1 hmem with heq | hin
    · obtain ⟨hc0, hspec⟩ := Prod.mk.inj heq
      rw [hc0, hspec, runBuilders_liveSpecs_absent m f c0 rest _ hc hnot]
      exact hlive
    · exact hall c spec hin

/-- For each chart id the render calls either keep the live charts of that id
or leave a list that does not depend on the state before. -/
theorem runBuilders_liveSpecs_shape (m : ChartId → Bool) (f : ChartId → Option JSError)
    (c : ChartId) (specs : List (ChartId × ChartSpec)) :
    (∀ st, ChartsConsistent st → liveSpecs (runBuilders m f specs st).1 c = liveSpecs st c) ∨
    (∃ k, ∀ st, ChartsConsistent st → liveSpecs (runBuilders m f specs st).1 c = k) := by
  induction specs with
  | nil => exact Or.inl (fun st _ => rfl)
  | cons p rest ih =>
    obtain ⟨c0, spec⟩ := p
    cases hm : m c0
    · have hstep : ∀ st, runBuilders m f ((c0, spec) :: rest) st
          = runBuilders m f rest { st with invoked := st.invoked ++ [c0] } := by
        intro st
        conv_lhs => unfold runBuilders
        rw [renderChart_skipped m f c0 spec st hm]
      have hcons : ∀ st, ChartsConsistent st →
          ChartsConsistent { st with invoked := st.invoked ++ [c0] } := fun st h => h
      rcases ih with hid | ⟨k, hk⟩
      · left
        intro st h
        rw [hstep, hid _ (hcons st h)]
        rfl
      · right
        refine ⟨k, ?_⟩
        intro st h
        rw [hstep, hk _ (hcons st h)]
    · cases hf : f c0 with
      | some e =>
        have hstep : ∀ st, runBuilders m f ((c0, spec) :: rest) st
            = (renderChart m f c0 spec st) := by
          intro st
          conv_lhs => unfold runBuilders
          rw [renderChart_mounted_fail m f c0 spec st e hm hf]
        by_cases hc : c = c0
        · right
          refine ⟨[], ?_⟩
          intro st h
          rw [hstep, hc]
          exact (renderChart_failed m f c0 spec st e h hm hf).2
        · left
          intro st h
          rw [hstep]
          exact renderChart_liveSpecs_other m f c0 c spec st h hc
      | none =>
        have hstep : ∀ st, runBuilders m f ((c0, spec) :: rest) st
            = runBuilders m f rest (renderChart m f c0 spec st).1 := by
          intro st
          conv_lhs => unfold runBuilders
          rw [renderChart_mounted_ok m f c0 spec st hm hf]
        rcases ih with hid | ⟨k, hk⟩
        · by_cases hc : c = c0
          · right
            refine ⟨[spec], ?_⟩
            intro st h
            rw [hstep, hid _ (renderChart_consistent m f c0 spec st h), hc]
            exact (renderChart_created m f c0 spec st h hm hf).2
          · left
            intro st h
            rw [hstep, hid _ (renderChart_consistent m f c0 spec st h)]
            exact renderChart_liveSpecs_other m f c0 c spec st h hc
        · right
          refine ⟨k, ?_⟩
          intro st h
          rw [hstep, hk _ (renderChart_consistent m f c0 spec st h)]

theorem chartSpecs_ids (a : ChartArgs) : (chartSpecs a).map Prod.fst = builderOrder := rfl

theorem builderOrder_nodup : builderOrder.Nodup := by decide

theorem mem_builderOrder (c : ChartId) : c ∈ builderOrder := by
  cases c <;> decide


theorem renderCharts_of_args (m : ChartId → Bool) (f : ChartId → Option JSError)
    (st : ChartState) (data : JVal) (args : ChartArgs)
    (h : chartArguments data = Except.ok (some args)) :
    renderCharts m f st data = some (runBuilders m f (chartSpecs args) st) := by
  simp [renderCharts, h]

theorem renderCharts_of_error (m : ChartId → Bool) (f : ChartId → Option JSError)
    (st : ChartState) (data : JVal) (e : JSError)
    (h : chartArguments data = Except.error e) :
    renderCharts m f st data = some (st, some e) := by
  simp [renderCharts, h]

theorem renderCharts_of_none (m : ChartId → Bool) (f : ChartId → Option JSError)
    (st : ChartState) (data : JVal) (h : chartArguments data = Except.ok none) :
    renderCharts m f st data = none := by
  simp [renderCharts, h]

/-- The state after a sequence of calls is the state after the render calls
of its last payload, from a consistent state. -/
theorem renderAll_last (m : ChartId → Bool) (f : ChartId → Option JSError)
    (last : JVal) (args : ChartArgs) (hargs : chartArguments last = Except.ok (some args))
    (payloads : List JVal) :
    ∀ st st1, ChartsConsistent st → renderAll m f payloads st = some st1 →
      payloads.getLast? = some last →
      ∃ prev, ChartsConsistent prev ∧ st1 = (runBuilders m f (chartSpecs args) prev).1 := by
  induction payloads with
  | nil =>
    intro st st1 _ _ hlast
    cases hlast
  | cons data rest ih =>
    intro st st1 h hr hlast
    unfold renderAll at hr
    cases hc : renderCharts m f st data with
    | none => rw [hc] at hr; cases hr
    | some p =>
      obtain ⟨st2, r⟩ := p
      rw [hc] at hr
      have h2 := renderCharts_consistent m f st st2 data r h hc
      cases rest with
      | nil =>
        have hd : data = last := by simpa using hlast
        subst hd
        rw [renderCharts_of_args m f st data args hargs] at hc
        have hst2 : (runBuilders m f (chartSpecs args) st).1 = st2 := by
          rw [Option.some.inj hc]
        have hst1 : st2 = st1 := by
          simpa [renderAll] using hr
        exact ⟨st, h, by rw [← hst1, ← hst2]⟩
      | cons b rest' =>
        rw [List.getLast?_cons_cons] at hlast
        exact ih st2 st1 h2 hr hlast

/-- Rendering one payload twice leaves the same configurations live as
rendering it once. -/
theorem renderCharts_twice (m : ChartId → Bool) (f : ChartId → Option JSError)
    (st st1 st2 : ChartState) (data : JVal) (h : ChartsConsistent st)
    (h1 : renderAll m f [data] st = some st1)
    (h2 : renderAll m f [data, data] st = some st2) (c : ChartId) :
    liveSpecs st2 c = liveSpecs st1 c := by
  cases ha : chartArguments data with
  | error e =>
    simp only [renderAll, renderCharts_of_error m f _ data e ha, Option.some.injEq] at h1 h2
    rw [← h1, ← h2]
  | ok oa =>
    cases oa with
    | none => simp [renderAll, renderCharts_of_none m f _ data ha] at h1
    | some args =>
      simp only [renderAll, renderCharts_of_args m f _ data args ha, Option.some.injEq] at h1 h2
      have hc1 : ChartsConsistent (runBuilders m f (chartSpecs args) st).1 :=
        runBuilders_consistent m f _ st h
      rw [← h1, ← h2]
      rcases runBuilders_liveSpecs_shape m f c (chartSpecs args) with hid | ⟨k, hk⟩
      · exact hid _ hc1
      · rw [hk _ hc1, hk _ h]

/-- A render call on an existing mount point leaves no chart with the number
held in its handle. -/
theorem renderChart_destroys_held (m : ChartId → Bool) (f : ChartId → Option JSError)
    (c : ChartId) (spec : ChartSpec) (st : ChartState) (held : Nat) (h : ChartsConsistent st)
    (hm : m c = true) (hh : st.handles c = some held) :
    ∀ inst ∈ (renderChart m f c spec st).1.live, inst.id ≠ held := by
  have hrem : ∀ inst ∈ destroyHeld st c, inst.id ≠ held := by
    intro inst hmem
    unfold destroyHeld at hmem
    rw [hh] at hmem
    simpa using (List.mem_filter.1 hmem).2
  cases hf : f c with
  | some e =>
    rw [renderChart_mounted_fail m f c spec st e hm hf]
    exact hrem
  | none =>
    rw [renderChart_mounted_ok m f c spec st hm hf]
    intro inst hmem
    rcases List.mem_append.1 hmem with hold | hnew
    · exact hrem inst hold
    · rw [List.mem_singleton] at hnew
      subst hnew
      have := h.2.2.1 c held hh
      dsimp only
      omega

/-- C22: from a consistent state (the one of the loaded page is), after any
sequence of `renderCharts` calls, whatever the mount points and the failures
of the chart library, the state is consistent and every chart id has at most
one live chart; a render call on an existing mount point leaves no chart with
the number its handle held; when every mount point exists, the library does
not fail and the last payload of the sequence is renderable, every chart id
has exactly one live chart, the one of that payload; and rendering a payload
twice leaves the same configurations live as rendering it once. -/
theorem one_live_chart_per_id (mounted : ChartId → Bool) (fails : ChartId → Option JSError)
    (payloads : List JVal) (st0 st : ChartState) (h0 : ChartsConsistent st0)
    (h : renderAll mounted fails payloads st0 = some st) :
    ChartsConsistent initialCharts ∧
    ChartsConsistent st ∧
    (∀ c, (st.live.filter (fun inst => decide (inst.chart = c))).length ≤ 1) ∧
    (∀ c spec held, mounted c = true → st.handles c = some held →
      ∀ inst ∈ (renderChart mounted fails c spec st).1.live, inst.id ≠ held) ∧
    (∀ last args, payloads.getLast? = some last →
      chartArguments last = Except.ok (some args) →
      (∀ c, mounted c = true) → (∀ c, fails c = none) →
      ∀ c, (st.live.filter (fun inst => decide (inst.chart = c))).length = 1 ∧
        ∃ spec, (c, spec) ∈ chartSpecs args ∧ liveSpecs st c = [spec]) ∧
    (∀ data st1 st2, renderAll mounted fails [data] st = some st1 →
      renderAll mounted fails [data, data] st = some st2 →
      ∀ c, liveSpecs st2 c = liveSpecs st1 c) := by
  have hst : ChartsConsistent st := renderAll_consistent mounted fails payloads st0 st h0 h
  refine ⟨consistent_initial, hst, consistent_at_most_one st hst, ?_, ?_, ?_⟩
  · intro c spec held hm hh
    exact renderChart_destroys_held mounted fails c spec st held hst hm hh
  · intro last args hlast hargs hm hf c
    obtain ⟨prev, hprev, hst1⟩ :=
      renderAll_last mounted fails last args hargs payloads st0 st h0 h hlast
    have hnodup : ((chartSpecs args).map Prod.fst).Nodup := by
      rw [chartSpecs_ids]
      exact builderOrder_nodup
    obtain ⟨_, hall⟩ :=
      runBuilders_liveSpecs_present mounted fails hm hf (chartSpecs args) prev hprev hnodup
    have hc : c ∈ (chartSpecs args).map Prod.fst := by
      rw [chartSpecs_ids]
      exact mem_builderOrder c
    obtain ⟨p, hp, hpc⟩ := List.mem_map.1 hc
    obtain ⟨c1, spec⟩ := p
    have hc1 : c1 = c := hpc
    subst hc1
    have hlive : liveSpecs st c1 = [spec] := by
      rw [hst1]
      exact hall c1 spec hp
    refine ⟨?_, spec, hp, hlive⟩
    have hlen := congrArg List.length hlive
    simpa [liveSpecs] using hlen
  · intro data st1 st2 h1 h2 c
    exact renderCharts_twice mounted fails st st1 st2 data hst h1 h2 c

theorem sample_renders :
    (renderAll allMounted noFailure [payloadTweakedWithoutViz, payloadTweakedWithoutViz]
      initialCharts).isSome = true := rfl

theorem sample_arguments :
    ∃ args, chartArguments payloadTweakedWithoutViz = Except.ok (some args) := ⟨_, rfl⟩

/-- On the loaded page with every mount point, rendering the sample payload
twice leaves exactly one live chart for every chart id. -/
theorem one_live_chart_per_id_witness :
    ChartsConsistent initialCharts ∧
    ∃ st, renderAll allMounted noFailure [payloadTweakedWithoutViz, payloadTweakedWithoutViz]
        initialCharts = some st ∧
      ∀ c, (st.live.filter (fun inst => decide (inst.chart = c))).length = 1 := by
  obtain ⟨args, hargs⟩ := sample_arguments
  have hrun := (Option.some_get sample_renders).symm
  obtain ⟨hinit, _hcons, _hmost, _hdestroy, hone, _htwice⟩ :=
    one_live_chart_per_id allMounted noFailure
      [payloadTweakedWithoutViz, payloadTweakedWithoutViz] initialCharts _ consistent_initial hrun
  refine ⟨hinit, _, hrun, ?_⟩
  intro c
  exact (hone payloadTweakedWithoutViz args rfl hargs (fun _ => rfl) (fun _ => rfl) c).1


theorem validate_games (data : JVal) (hv : validate data = Except.ok ()) :
    (∀ k, getProp data k = Except.ok (peek data k)) ∧
    truthy (peek data "fair_game") = true ∧ truthy (peek data "tweaked_game") = true := by
  rcases readable_or_nullish data with hread | hnull
  · refine ⟨hread, ?_⟩
    rw [validate_of_readable data hread] at hv
    by_cases h1 : truthy (peek data "fair_game") = true
    · by_cases h2 : truthy (peek data "tweaked_game") = true
      · exact ⟨h1, h2⟩
      · simp [h1, h2] at hv
    · simp [h1] at hv
  · rw [validate_nullish data hnull] at hv
    cases hv

theorem chartArguments_parts (data : JVal) (args : ChartArgs)
    (h : chartArguments data = Except.ok (some args)) :
    ∃ fv tv, fv = orEmptyObj (peek (peek data "fair_game") "visualizations") ∧
      tv = orEmptyObj (peek (peek data "tweaked_game") "visualizations") ∧
      mappingArg (peek fv "card_frequencies") = some args.fairFreq ∧
      mappingArg (peek tv "card_frequencies") = some args.tweakedFreq ∧
      mappingArg (peek fv "single_hit_cards") = some args.fairSingle ∧
      mappingArg (peek tv "single_hit_cards") = some args.tweakedSingle ∧
      mappingArg (peek fv "double_hit_cards") = some args.fairDouble ∧
      mappingArg (peek tv "double_hit_cards") = some args.tweakedDouble ∧
      mappingArg (peek fv "triple_hit_cards") = some args.fairTriple ∧
      mappingArg (peek tv "triple_hit_cards") = some args.tweakedTriple := by
  unfold chartArguments at h
  simp only [bind_eq_ok, pure_eq_ok] at h
  obtain ⟨fair, hfair, tweaked, htweaked, fv, hfv, tv, htv, hopt⟩ := h
  obtain ⟨fp, hfp, hopt⟩ := Option.bind_eq_some.1 hopt
  obtain ⟨tp, htp, hopt⟩ := Option.bind_eq_some.1 hopt
  obtain ⟨fr, hfr, hopt⟩ := Option.bind_eq_some.1 hopt
  obtain ⟨tr, htr, hopt⟩ := Option.bind_eq_some.1 hopt
  obtain ⟨fh, hfh, hopt⟩ := Option.bind_eq_some.1 hopt
  obtain ⟨th, hth, hopt⟩ := Option.bind_eq_some.1 hopt
  obtain ⟨ff, hff, hopt⟩ := Option.bind_eq_some.1 hopt
  obtain ⟨tf, htf, hopt⟩ := Option.bind_eq_some.1 hopt
  obtain ⟨fs, hfs, hopt⟩ := Option.bind_eq_some.1 hopt
  obtain ⟨ts, hts, hopt⟩ := Option.bind_eq_some.1 hopt
  obtain ⟨fd, hfd, hopt⟩ := Option.bind_eq_some.1 hopt
  obtain ⟨td, htd, hopt⟩ := Option.bind_eq_some.1 hopt
  obtain ⟨ft, hft, hopt⟩ := Option.bind_eq_some.1 hopt
  obtain ⟨tt, htt, hopt⟩ := Option.bind_eq_some.1 hopt
  have hargs := Option.some.inj hopt
  rw [← hargs]
  rw [peek_of_getProp data _ fair hfair, peek_of_getProp data _ tweaked htweaked,
    peek_of_getProp fair _ fv hfv, peek_of_getProp tweaked _ tv htv]
  exact ⟨_, _, rfl, rfl, hff, htf, hfs, hts, hfd, htd, hft, htt⟩

theorem mappingArg_absent (v : JVal) (k : String) (h : truthy v = false) :
    mappingArg (peek (orEmptyObj v) k) = some [] := by
  have he : orEmptyObj v = JVal.obj [] := by simp [orEmptyObj, h]
  rw [he]
  rfl

theorem validate_chartArguments (data : JVal) (hv : validate data = Except.ok ()) :
    ∃ oa, chartArguments data = Except.ok oa := by
  obtain ⟨hread, hf, ht⟩ := validate_games data hv
  unfold chartArguments
  rw [hread "fair_game", ok_bind, hread "tweaked_game", ok_bind,
    getProp_of_truthy _ "visualizations" hf, ok_bind,
    getProp_of_truthy _ "visualizations" ht, ok_bind]
  exact ⟨_, rfl⟩

theorem runBuilders_no_failure (m : ChartId → Bool) (f : ChartId → Option JSError)
    (hf : ∀ c, f c = none) (specs : List (ChartId × ChartSpec)) :
    ∀ st, (runBuilders m f specs st).2 = none := by
  induction specs with
  | nil => intro st; rfl
  | cons p rest ih =>
    intro st
    obtain ⟨c, spec⟩ := p
    have hnone : (renderChart m f c spec st).2 = none := by
      unfold renderChart
      cases hm : m c <;> simp [hf c]
    unfold runBuilders
    cases hr : renderChart m f c spec st with
    | mk st1 r =>
      rw [hr] at hnone
      dsimp only at hnone
      subst hnone
      exact ih st1

/-- The category chart of a game whose counterpart has no counts: the labels
are the keys of the game, each once, in ascending order, the game's series
has its counts and the counterpart's series is zero at every label. -/
theorem categoryChartConfig_empty_tweaked (fair : List (String × JVal))
    (hnames : ∀ k, hasKey fair k = true → k ∉ objectPrototypeNames) :
    (∀ k, k ∈ (categoryChartConfig fair []).labels ↔ hasKey fair k = true) ∧
    (categoryChartConfig fair []).labels.Nodup ∧
    (categoryChartConfig fair []).labels.Sorted sortsBefore ∧
    (categoryChartConfig fair []).fairData = (categoryChartConfig fair []).labels.map
      (fun k => ChartValue.value (orZero (lookupKey k fair))) ∧
    (categoryChartConfig fair []).tweakedData =
      List.replicate (categoryChartConfig fair []).labels.length (ChartValue.value (JVal.num 0)) := by
  have hmem : ∀ k, k ∈ categoryLabels fair [] ↔ hasKey fair k = true := by
    intro k
    rw [mem_categoryLabels]
    simp [hasKey]
  refine ⟨hmem, nodup_categoryLabels fair [], sorted_categoryLabels fair [], ?_, ?_⟩
  · show (categoryLabels fair []).map (fun card => countOrZero fair card) = _
    apply List.map_congr_left
    intro k hk
    have hhas := (hmem k).1 hk
    rw [countOrZero_of_label fair k (hnames k hhas), if_pos hhas]
  · show (categoryLabels fair []).map (fun card => countOrZero [] card) = _
    rw [List.eq_replicate_iff]
    refine ⟨by simp [categoryChartConfig], ?_⟩
    intro v hv
    obtain ⟨k, hk, hkv⟩ := List.mem_map.1 hv
    have hhas := (hmem k).1 hk
    rw [← hkv, countOrZero_of_label [] k (hnames k hhas)]
    simp [hasKey]


/-- C21: for a payload that passes the check of `loadResultsData` and whose
`tweaked_game.visualizations` is absent (or falsy), reading the arguments of
the render calls does not throw; the four tweaked card objects are empty; the
four fair card objects are the ones of the payload; `renderCharts` makes the
eight render calls and reports no exception unless the chart library raises
one; the card-frequency, single-ball, double-ball and triple-ball render calls
get the category chart of the fair object and the empty object, which, when no
fair key names a member of `Object.prototype`, has as labels the fair keys,
each once, in ascending order, as fair series the fair counts and as tweaked
series a zero for every label; and with every mount point present and no
failure of the library these four charts are the live ones. -/
theorem charts_without_tweaked_visualizations (mounted : ChartId → Bool)
    (fails : ChartId → Option JSError) (st : ChartState) (data : JVal)
    (hvalid : validate data = Except.ok ())
    (habsent : truthy (peek (peek data "tweaked_game") "visualizations") = false) :
    (∃ oa, chartArguments data = Except.ok oa) ∧
    ∀ args, chartArguments data = Except.ok (some args) →
      (args.tweakedFreq = [] ∧ args.tweakedSingle = [] ∧ args.tweakedDouble = [] ∧
        args.tweakedTriple = []) ∧
      (∃ fairViz, fairViz = orEmptyObj (peek (peek data "fair_game") "visualizations") ∧
        mappingArg (peek fairViz "card_frequencies") = some args.fairFreq ∧
        mappingArg (peek fairViz "single_hit_cards") = some args.fairSingle ∧
        mappingArg (peek fairViz "double_hit_cards") = some args.fairDouble ∧
        mappingArg (peek fairViz "triple_hit_cards") = some args.fairTriple) ∧
      ((ChartId.cardFreq, ChartSpec.bar (categoryChartConfig args.fairFreq []))
          ∈ chartSpecs args ∧
        (ChartId.singleBall, ChartSpec.bar (categoryChartConfig args.fairSingle []))
          ∈ chartSpecs args ∧
        (ChartId.doubleBall, ChartSpec.bar (categoryChartConfig args.fairDouble []))
          ∈ chartSpecs args ∧
        (ChartId.tripleBall, ChartSpec.bar (categoryChartConfig args.fairTriple []))
          ∈ chartSpecs args) ∧
      (∀ fair ∈ [args.fairFreq, args.fairSingle, args.fairDouble, args.fairTriple],
        (∀ k, hasKey fair k = true → k ∉ objectPrototypeNames) →
        (∀ k, k ∈ (categoryChartConfig fair []).labels ↔ hasKey fair k = true) ∧
        (categoryChartConfig fair []).labels.Nodup ∧
        (categoryChartConfig fair []).labels.Sorted sortsBefore ∧
        (categoryChartConfig fair []).fairData = (categoryChartConfig fair []).labels.map
          (fun k => ChartValue.value (orZero (lookupKey k fair))) ∧
        (categoryChartConfig fair []).tweakedData =
          List.replicate (categoryChartConfig fair []).labels.length
            (ChartValue.value (JVal.num 0))) ∧
      renderCharts mounted fails st data
        = some (runBuilders mounted fails (chartSpecs args) st) ∧
      ((∀ c, fails c = none) → (runBuilders mounted fails (chartSpecs args) st).2 = none) ∧
      (ChartsConsistent st → (∀ c, mounted c = true) → (∀ c, fails c = none) →
        liveSpecs (runBuilders mounted fails (chartSpecs args) st).1 ChartId.cardFreq
          = [ChartSpec.bar (categoryChartConfig args.fairFreq [])] ∧
        liveSpecs (runBuilders mounted fails (chartSpecs args) st).1 ChartId.singleBall
          = [ChartSpec.bar (categoryChartConfig args.fairSingle [])] ∧
        liveSpecs (runBuilders mounted fails (chartSpecs args) st).1 ChartId.doubleBall
          = [ChartSpec.bar (categoryChartConfig args.fairDouble [])] ∧
        liveSpecs (runBuilders mounted fails (chartSpecs args) st).1 ChartId.tripleBall
          = [ChartSpec.bar (categoryChartConfig args.fairTriple [])]) := by
  refine ⟨validate_chartArguments data hvalid, ?_⟩
  intro args hargs
  obtain ⟨fv, tv, hfv, htv, hff, htf, hfs, hts, hfd, htd, hft, htt⟩ :=
    chartArguments_parts data args hargs
  rw [htv, mappingArg_absent _ _ habsent] at htf hts htd htt
  have e1 : args.tweakedFreq = [] := (Option.some.inj htf).symm
  have e2 : args.tweakedSingle = [] := (Option.some.inj hts).symm
  have e3 : args.tweakedDouble = [] := (Option.some.inj htd).symm
  have e4 : args.tweakedTriple = [] := (Option.some.inj htt).symm
  have m1 : (ChartId.cardFreq, ChartSpec.bar (categoryChartConfig args.fairFreq []))
      ∈ chartSpecs args := by
    simp [chartSpecs, cardFreqChartConfig, e1]
  have m2 : (ChartId.singleBall, ChartSpec.bar (categoryChartConfig args.fairSingle []))
      ∈ chartSpecs args := by
    simp [chartSpecs, singleBallChartConfig, e2]
  have m3 : (ChartId.doubleBall, ChartSpec.bar (categoryChartConfig args.fairDouble []))
      ∈ chartSpecs args := by
    simp [chartSpecs, doubleBallChartConfig, e3]
  have m4 : (ChartId.tripleBall, ChartSpec.bar (categoryChartConfig args.fairTriple []))
      ∈ chartSpecs args := by
    simp [chartSpecs, tripleBallChartConfig, e4]
  refine ⟨⟨e1, e2, e3, e4⟩, ⟨fv, hfv, hff, hfs, hfd, hft⟩, ⟨m1, m2, m3, m4⟩, ?_,
    renderCharts_of_args mounted fails st data args hargs,
    fun hf => runBuilders_no_failure mounted fails hf _ st, ?_⟩
  · intro fair _ hnames
    exact categoryChartConfig_empty_tweaked fair hnames
  · intro hst hm hf
    have hnodup : ((chartSpecs args).map Prod.fst).Nodup := by
      rw [chartSpecs_ids]
      exact builderOrder_nodup
    obtain ⟨_, hall⟩ :=
      runBuilders_liveSpecs_present mounted fails hm hf (chartSpecs args) st hst hnodup
    exact ⟨hall _ _ m1, hall _ _ m2, hall _ _ m3, hall _ _ m4⟩

theorem sampleFairCards_names (k : String) (h : hasKey sampleFairCards k = true) :
    k ∉ objectPrototypeNames :=
  sampleCards_names k (Or.inl h)

/-- The sample payload has fair counts for King and Ace and no tweaked
visualisations: the card-frequency chart has the labels Ace and King and a
tweaked series of two zeros, and no exception is reported. -/
theorem charts_without_tweaked_visualizations_witness :
    ∃ args, chartArguments payloadTweakedWithoutViz = Except.ok (some args) ∧
      args.fairFreq = sampleFairCards ∧ args.tweakedFreq = [] ∧
      (categoryChartConfig args.fairFreq []).labels = ["Ace", "King"] ∧
      (categoryChartConfig args.fairFreq []).tweakedData =
        [ChartValue.value (JVal.num 0), ChartValue.value (JVal.num 0)] ∧
      (renderCharts allMounted noFailure initialCharts payloadTweakedWithoutViz).map Prod.snd
        = some none := by
  obtain ⟨args, hargs⟩ := sample_arguments
  obtain ⟨_hread, hparts⟩ :=
    charts_without_tweaked_visualizations allMounted noFailure initialCharts
      payloadTweakedWithoutViz rfl rfl
  obtain ⟨hempty, hfairs, _hspecs, hcfg, hrun, hnone, _hlive⟩ := hparts args hargs
  obtain ⟨fairViz, hviz, hfreq, _hsingle, _hdouble, _htriple⟩ := hfairs
  have hfair : args.fairFreq = sampleFairCards := by
    rw [hviz] at hfreq
    exact (Option.some.inj hfreq).symm
  have hsample := hcfg args.fairFreq (by simp)
  rw [hfair] at hsample
  obtain ⟨_hmem, _hnodup, _hsorted, _hfairData, htweaked⟩ := hsample sampleFairCards_names
  refine ⟨args, hargs, hfair, hempty.1, ?_, ?_, ?_⟩
  · rw [hfair]
    decide
  · have hlabels : (categoryChartConfig sampleFairCards []).labels = ["Ace", "King"] := by
      decide
    rw [hfair, htweaked, hlabels]
    rfl
  · rw [hrun, Option.map_some', hnone (fun _ => rfl)]


/-! ### A failure of the chart library -/

theorem renderChart_invoked (m : ChartId → Bool) (f : ChartId → Option JSError)
    (c : ChartId) (spec : ChartSpec) (st : ChartState) :
    (renderChart m f c spec st).1.invoked = st.invoked ++ [c] := by
  unfold renderChart
  cases hm : m c
  · simp
  · cases hf : f c <;> simp

theorem renderChart_no_exception (m : ChartId → Bool) (f : ChartId → Option JSError)
    (c : ChartId) (spec : ChartSpec) (st : ChartState) (h : m c = false ∨ f c = none) :
    (renderChart m f c spec st).2 = none := by
  unfold renderChart
  rcases h with h | h
  · simp [h]
  · cases hm : m c <;> simp [h]

/-- The render calls up to the first one in which the chart library raises
are made, and no call after it. -/
theorem runBuilders_stops_at_failure (m : ChartId → Bool) (f : ChartId → Option JSError)
    (k : ChartId) (e : JSError) (hk : m k = true) (hfail : f k = some e)
    (specs : List (ChartId × ChartSpec)) :
    ∀ st, k ∈ specs.map Prod.fst →
      (∀ c ∈ (specs.map Prod.fst).takeWhile (fun c => decide (c ≠ k)),
        m c = false ∨ f c = none) →
      (runBuilders m f specs st).2 = some e ∧
      (runBuilders m f specs st).1.invoked =
        st.invoked ++ (specs.map Prod.fst).takeWhile (fun c => decide (c ≠ k)) ++ [k] := by
  induction specs with
  | nil =>
    intro st hmem
    cases hmem
  | cons p rest ih =>
    intro st hmem hbefore
    obtain ⟨c0, spec⟩ := p
    by_cases hc : c0 = k
    · subst hc
      have hstep : runBuilders m f ((c0, spec) :: rest) st = renderChart m f c0 spec st := by
        conv_lhs => unfold runBuilders
        rw [renderChart_mounted_fail m f c0 spec st e hk hfail]
      rw [hstep]
      refine ⟨(by rw [renderChart_mounted_fail m f c0 spec st e hk hfail]), ?_⟩
      rw [renderChart_invoked]
      simp
    · have htake : (((c0, spec) :: rest).map Prod.fst).takeWhile (fun c => decide (c ≠ k))
          = c0 :: (rest.map Prod.fst).takeWhile (fun c => decide (c ≠ k)) := by
        simp [List.takeWhile, hc]
      rw [htake] at hbefore ⊢
      have hnone := renderChart_no_exception m f c0 spec st (hbefore c0 (by simp))
      have hinv := renderChart_invoked m f c0 spec st
      have hstep : runBuilders m f ((c0, spec) :: rest) st
          = runBuilders m f rest (renderChart m f c0 spec st).1 := by
        conv_lhs => unfold runBuilders
        cases hr : renderChart m f c0 spec st with
        | mk st1 r =>
          rw [hr] at hnone
          dsimp only at hnone
          subst hnone
          rfl
      have hrest : k ∈ rest.map Prod.fst := by
        rcases List.mem_cons.1 hmem with h | h
        · exact absurd h.symm hc
        · exact h
      obtain ⟨herr, hlist⟩ := ih (renderChart m f c0 spec st).1 hrest
        (fun c hmemc => hbefore c (List.mem_cons_of_mem _ hmemc))
      rw [hstep]
      refine ⟨herr, ?_⟩
      rw [hlist, hinv]
      simp

/-- C23, amended: when the chart library raises in the render call
of chart `k` (its mount point exists, and no call before it raises), the
exception leaves the render function and is caught by the one handler of
`renderCharts`, which reports it and returns normally; the render functions
called are those before `k` in the sequence and `k` itself, and none of the
render functions after `k` is called. -/
theorem failure_stops_later_builders (mounted : ChartId → Bool)
    (fails : ChartId → Option JSError) (st : ChartState) (data : JVal) (args : ChartArgs)
    (k : ChartId) (e : JSError)
    (hargs : chartArguments data = Except.ok (some args))
    (hk : mounted k = true) (hfail : fails k = some e)
    (hbefore : ∀ c ∈ builderOrder.takeWhile (fun c => decide (c ≠ k)),
      mounted c = false ∨ fails c = none) :
    ∃ st1, renderCharts mounted fails st data = some (st1, some e) ∧
      st1.invoked = st.invoked ++ builderOrder.takeWhile (fun c => decide (c ≠ k)) ++ [k] ∧
      (∀ c ∈ (builderOrder.dropWhile (fun c => decide (c ≠ k))).tail,
        c ∉ st1.invoked.drop st.invoked.length) := by
  have hmem : k ∈ (chartSpecs args).map Prod.fst := by
    rw [chartSpecs_ids]
    exact mem_builderOrder k
  have hb : ∀ c ∈ ((chartSpecs args).map Prod.fst).takeWhile (fun c => decide (c ≠ k)),
      mounted c = false ∨ fails c = none := by
    rw [chartSpecs_ids]
    exact hbefore
  obtain ⟨herr, hlist⟩ :=
    runBuilders_stops_at_failure mounted fails k e hk hfail (chartSpecs args) st hmem hb
  rw [chartSpecs_ids] at hlist
  refine ⟨(runBuilders mounted fails (chartSpecs args) st).1, ?_, hlist, ?_⟩
  · rw [renderCharts_of_args mounted fails st data args hargs, ← herr]
  · rw [hlist, List.append_assoc, List.drop_left]
    cases k <;> decide

/-- C23, refuted as stated: with every mount point present and the chart
library raising in the first render call only, `renderCharts` calls `renderProfitChart` and none of
the other seven render functions. -/
theorem profit_failure_skips_other_builders :
    ∃ st, renderCharts allMounted (failsOnly ChartId.profit (JSError.error "chart"))
        initialCharts payloadTweakedWithoutViz = some (st, some (JSError.error "chart")) ∧
      st.invoked = [ChartId.profit] ∧
      (∀ c ∈ [ChartId.roi, ChartId.houseEdge, ChartId.hits, ChartId.singleBall,
        ChartId.doubleBall, ChartId.tripleBall, ChartId.cardFreq], c ∉ st.invoked) := by
  refine ⟨_, rfl, rfl, ?_⟩
  decide

/-- The chart library raises in the fourth render call: the first four render
functions are called and the exception is reported. -/
theorem failure_stops_later_builders_witness :
    ∃ st1, renderCharts allMounted (failsOnly ChartId.hits (JSError.error "chart"))
        initialCharts payloadTweakedWithoutViz = some (st1, some (JSError.error "chart")) ∧
      st1.invoked = [ChartId.profit, ChartId.roi, ChartId.houseEdge, ChartId.hits] := by
  obtain ⟨args, hargs⟩ := sample_arguments
  obtain ⟨st1, hrun, hinvoked, _hafter⟩ :=
    failure_stops_later_builders allMounted (failsOnly ChartId.hits (JSError.error "chart"))
      initialCharts payloadTweakedWithoutViz args ChartId.hits (JSError.error "chart") hargs
      rfl rfl (by decide)
  exact ⟨st1, hrun, hinvoked⟩

end DropBall
